import Mathlib

/-!
# The VR arena backend

A shallow embedding of the repository:

* `src/model/GameSession.js`: the `GameSession` schema and its `pre('save')` hook,
* `src/routes/GameSessionRoutes.js`: `POST /api/game-sessions`, raw-team form, and
  the aggregations behind `GET /stats` and the map and daily reports,
* `src/routes/SessionRoutes.js`: `POST /api/game-sessions`, nickname-resolving form,
* `src/model/PlayersContact.js`, `src/model/TeamsDetails.js` and
  `src/routes/Players.js`: registration, headset assignment, stats and score,
* `src/routes/authenticationRoutes.js`: the password check of `/account/create`,
* `src/server.js`: the connection retries.

Request bodies are JSON values.  What the JavaScript runtime and the mongoose
library do with values of an unexpected type is not defined by the repository; it
is a parameter (`Platform`) of every definition that depends on it.  In the same
way the order the database gives to groups and to documents with equal sort keys
is a parameter (`Engine`) of the aggregations.
-/

namespace Arena

/-! ## JSON values and the JavaScript operators used by the routes -/

/-- A parsed JSON value, as `req.body` and its parts. Numbers are the finite
numbers of JSON, taken as rationals. An object lists its own keys, each once. -/
inductive JVal where
  | null
  | bool (b : Bool)
  | num (q : ℚ)
  | str (s : String)
  | arr (items : List JVal)
  | obj (fields : List (String × JVal))

namespace JVal

/-- Property read `v.key`: the value stored under an own key of an object;
`none` is `undefined`, which is also what a read on an array or a primitive gives
for the keys used here. (A read on `null` throws; the routes' models treat that
case where it can occur.) -/
def get (v : JVal) (key : String) : Option JVal :=
  match v with
  | .obj fields => fields.lookup key
  | _ => none

/-- The test `key in v` on the parsed body (an object or an array). -/
def hasKey (v : JVal) (key : String) : Bool :=
  (v.get key).isSome

/-- JavaScript truthiness of a value. -/
def truthy : JVal → Bool
  | .null => false
  | .bool b => b
  | .num q => decide (q ≠ 0)
  | .str s => decide (s ≠ "")
  | .arr _ => true
  | .obj _ => true

/-- The test `Array.isArray(v)`. -/
def isArray : JVal → Bool
  | .arr _ => true
  | _ => false

/-- The test `v === null`. -/
def isNull : JVal → Bool
  | .null => true
  | _ => false

end JVal

/-- Truthiness of the result of a property read (`undefined` is falsy). -/
def truthy? : Option JVal → Bool
  | some v => v.truthy
  | none => false

/-- The expression `v || d`. -/
def orElse (v : Option JVal) (d : JVal) : JVal :=
  match v with
  | some x => if x.truthy then x else d
  | none => d

/-! ## Strings as JavaScript sees them -/

/-- White space and line terminators removed by `String.prototype.trim`. -/
def isJsSpace (c : Char) : Bool :=
  c.toNat ∈ [0x9, 0xA, 0xB, 0xC, 0xD, 0x20, 0xA0, 0x1680, 0x2028, 0x2029, 0x202F, 0x205F,
    0x3000, 0xFEFF] || (0x2000 ≤ c.toNat && c.toNat ≤ 0x200A)

/-- The method `String.prototype.trim`. -/
def jsTrim (s : String) : String :=
  ⟨((s.data.dropWhile isJsSpace).reverse.dropWhile isJsSpace).reverse⟩

/-- The property `length` of a string: its number of UTF-16 code units. -/
def jsLength (s : String) : Nat :=
  (s.data.map fun c => if c.toNat < 0x10000 then 1 else 2).sum

/-! ## Behaviour taken from outside the repository -/

/-- Result of casting a value to the type of a schema path. -/
inductive Cast (α : Type) where
  /-- No value (`undefined` or `null`). -/
  | absent
  /-- The value the document holds. -/
  | value (a : α)
  /-- The value cannot be used for the path. -/
  | failed
  deriving DecidableEq, Repr

/-- What the JavaScript runtime and mongoose do that the repository relies on
without defining it. On values of the expected type the behaviour is fixed by the
four laws; on other values it is left open. -/
structure Platform where
  /-- Cast of a value that is not `null` to a `String` path. -/
  castString : JVal → Cast String
  /-- Cast of a value that is not `null` to a `Number` path. -/
  castNumber : JVal → Cast ℚ
  /-- Conversion to text in a template literal. -/
  text : JVal → String
  /-- Whether a stored nickname satisfies the filter `{ nickname: v }`. Every
  lookup is taken to be answered, with a player or with none. The law below is
  for a string without surrounding white space, which the setter `trim` of the
  path leaves as it is. -/
  nicknameMatches : JVal → String → Bool
  castString_str : ∀ s, castString (.str s) = .value s
  castNumber_num : ∀ q, castNumber (.num q) = .value q
  text_str : ∀ s, text (.str s) = s
  nicknameMatches_str : ∀ s n, jsTrim s = s → nicknameMatches (.str s) n = decide (n = s)

/-! ## The stores -/

/-- Identifier of a stored player (the `_id` of a `PlayersContact` document). -/
abbrev PlayerId := Nat

/-- A stored player (a `PlayersContact` document, time stamps left out). `kills`
and `deaths` are the numbers stored; a stored `null` is not modelled. -/
structure Player where
  id : PlayerId
  nickname : String
  name : String := ""
  lastname : String := ""
  email : String := ""
  age : ℚ := 0
  phone : String := ""
  region : String := ""
  kills : ℚ := 0
  deaths : ℚ := 0
  headsetId : Option String := none
  teamName : Option String := none
  deriving DecidableEq, Repr

/-- A stored headset binding (a `TeamsDetails` document, `lastUpdated` left out). -/
structure Binding where
  headsetId : Option String
  teamName : String
  nickname : String
  deriving DecidableEq, Repr

/-- One entry of the `teams` array of a stored session. -/
structure TeamEntry where
  name : String
  players : List PlayerId
  score : ℚ
  deriving DecidableEq, Repr

/-- A stored `GameSession` document (identifier and creation time left out). -/
structure GameSession where
  mapPlayed : String
  gameDuration : ℚ
  numberOfPlayers : ℚ
  teams : List TeamEntry
  deriving DecidableEq, Repr

/-- The collections: players, game sessions and headset bindings. -/
structure Store where
  players : List Player
  sessions : List GameSession
  bindings : List Binding := []
  deriving DecidableEq, Repr

/-- The query `Player.findOne({ nickname })`. -/
def findOne (pf : Platform) (players : List Player) (nickname : JVal) : Option Player :=
  players.find? fun p => pf.nicknameMatches nickname p.nickname

/-- The query `mongoose.model('PlayersContact').findById(playerId)`. -/
def findById (players : List Player) (playerId : PlayerId) : Option Player :=
  players.find? fun p => p.id == playerId

/-! ## The schema of `src/model/GameSession.js` -/

/-- A path of the schema. -/
inductive Path where
  | mapPlayed
  | gameDuration
  | numberOfPlayers
  /-- The path `teams.i.name`. -/
  | teamName (i : Nat)
  /-- The path `teams.i.score`. -/
  | teamScore (i : Nat)
  /-- The path `teams.i.players.j`. -/
  | teamPlayer (i j : Nat)
  deriving DecidableEq, Repr

/-- One entry of the `errors` of a mongoose `ValidationError`. -/
inductive FieldError where
  /-- The value could not be cast to the type of the path. -/
  | cast (path : Path)
  /-- A validator of the path failed: its kind and its message. -/
  | validator (path : Path) (kind : String) (message : String)
  deriving DecidableEq, Repr

/-- The path an error is filed under. -/
def FieldError.path : FieldError → Path
  | .cast p => p
  | .validator p _ _ => p

/-- The argument of `new GameSession(...)` for one team, restricted to the keys
the schema declares (mongoose drops the others, such as `won`). -/
structure TeamData where
  name : Option JVal
  players : List PlayerId
  score : Option JVal

/-- The argument of `new GameSession(...)`, restricted to the keys the schema
declares (`gameDate` and `winningTeam` are dropped). -/
structure SessionData where
  mapPlayed : Option JVal
  gameDuration : Option JVal
  numberOfPlayers : Option JVal
  teams : List TeamData

/-- Cast of an assigned value: `undefined` and `null` stay absent. -/
def castWith {α : Type} (cast : JVal → Cast α) : Option JVal → Cast α
  | none => .absent
  | some .null => .absent
  | some v => cast v

/-- The enumeration of `mapPlayed`. -/
def maps : List String := ["Desert", "Forest", "Urban", "Snow", "Factory"]

/-- Path `mapPlayed`: `type: String`, `required`, `enum`. -/
def checkMap (pf : Platform) (v : Option JVal) : Except FieldError String :=
  match castWith pf.castString v with
  | .failed => .error (.cast .mapPlayed)
  | .absent => .error (.validator .mapPlayed "required" "Map selection is required")
  | .value s =>
    if s = "" then .error (.validator .mapPlayed "required" "Map selection is required")
    else if s ∈ maps then .ok s
    else .error (.validator .mapPlayed "enum" "Invalid map selection")

/-- Path `gameDuration`: `type: Number`, `required`, `min: 1`, `max: 120`. -/
def checkDuration (pf : Platform) (v : Option JVal) : Except FieldError ℚ :=
  match castWith pf.castNumber v with
  | .failed => .error (.cast .gameDuration)
  | .absent => .error (.validator .gameDuration "required" "Game duration is required")
  | .value q =>
    if q < 1 then .error (.validator .gameDuration "min" "Duration must be at least 1 minute")
    else if 120 < q then
      .error (.validator .gameDuration "max" "Duration cannot exceed 120 minutes")
    else .ok q

/-- Path `numberOfPlayers`: `type: Number`, `required`, `min: 2`, `max: 32`. -/
def checkPlayerCount (pf : Platform) (v : Option JVal) : Except FieldError ℚ :=
  match castWith pf.castNumber v with
  | .failed => .error (.cast .numberOfPlayers)
  | .absent => .error (.validator .numberOfPlayers "required" "Player count is required")
  | .value q =>
    if q < 2 then .error (.validator .numberOfPlayers "min" "Minimum 2 players required")
    else if 32 < q then
      .error (.validator .numberOfPlayers "max" "Maximum 32 players allowed")
    else .ok q

/-- Path `teams.i.name`: `type: String`, `required`, `trim`, `maxlength: 30`. The
setter trims on assignment, so the validators see the trimmed name. -/
def checkTeamName (pf : Platform) (i : Nat) (v : Option JVal) : Except FieldError String :=
  match castWith pf.castString v with
  | .failed => .error (.cast (.teamName i))
  | .absent => .error (.validator (.teamName i) "required" "Team name is required")
  | .value s =>
    if jsTrim s = "" then .error (.validator (.teamName i) "required" "Team name is required")
    else if 30 < jsLength (jsTrim s) then
      .error (.validator (.teamName i) "maxlength" "Team name too long (max 30 chars)")
    else .ok (jsTrim s)

/-- Path `teams.i.score`: `type: Number`, `default: 0`, `min: 0` (with the
message mongoose builds for a `min` validator without one). -/
def checkTeamScore (pf : Platform) (i : Nat) (v : Option JVal) : Except FieldError ℚ :=
  match castWith pf.castNumber v with
  | .failed => .error (.cast (.teamScore i))
  | .absent => .ok 0
  | .value q =>
    if q < 0 then
      .error (.validator (.teamScore i) "min"
        ("Path `score` (" ++ pf.text (.num q) ++ ") is less than minimum allowed value (0)."))
    else .ok q

/-- Paths `teams.i.players.j`: the validator accepts a reference when `findById`
finds a player. The list holds the error of every reference it refuses. -/
def checkTeamPlayers (players : List Player) (i : Nat) (ids : List PlayerId) :
    List FieldError :=
  (ids.enum.filter fun jp => (findById players jp.2).isNone).map fun jp =>
    .validator (.teamPlayer i jp.1) "user defined" "Invalid player reference"

/-- The errors of an outcome: none when the path is valid. -/
def errorsOf {α : Type} : Except FieldError α → List FieldError
  | .ok _ => []
  | .error e => [e]

/-- Validation of the team at index `i`: the entry to store, or every error of
its paths. -/
def checkTeam (pf : Platform) (players : List Player) (i : Nat) (t : TeamData) :
    Except (List FieldError) TeamEntry :=
  match checkTeamName pf i t.name, checkTeamScore pf i t.score,
      checkTeamPlayers players i t.players with
  | .ok name, .ok score, [] => .ok { name := name, players := t.players, score := score }
  | rn, rs, es => .error (errorsOf rn ++ es ++ errorsOf rs)

/-- Validation of the teams from index `i` on. -/
def checkTeams (pf : Platform) (players : List Player) :
    Nat → List TeamData → Except (List FieldError) (List TeamEntry)
  | _, [] => .ok []
  | i, t :: ts =>
    match checkTeam pf players i t, checkTeams pf players (i + 1) ts with
    | .ok e, .ok es => .ok (e :: es)
    | .ok _, .error errs => .error errs
    | .error errs, .ok _ => .error errs
    | .error errs, .error errs' => .error (errs ++ errs')

/-- The errors of a collected outcome. -/
def errorsOfAll {α : Type} : Except (List FieldError) α → List FieldError
  | .ok _ => []
  | .error es => es

/-- Document validation (`doc.validate()`): every path is checked and all
errors are reported together; without error the result is the document to store. -/
def validate (pf : Platform) (players : List Player) (d : SessionData) :
    Except (List FieldError) GameSession :=
  match checkMap pf d.mapPlayed, checkDuration pf d.gameDuration,
      checkPlayerCount pf d.numberOfPlayers, checkTeams pf players 0 d.teams with
  | .ok m, .ok g, .ok n, .ok ts =>
    .ok { mapPlayed := m, gameDuration := g, numberOfPlayers := n, teams := ts }
  | rm, rg, rn, rt => .error (errorsOf rm ++ errorsOf rg ++ errorsOf rn ++ errorsOfAll rt)

/-- The sum `this.teams.reduce((sum, team) => sum + team.players.length, 0)`. -/
def totalPlayers (teams : List TeamEntry) : Nat :=
  teams.foldl (fun sum team => sum + team.players.length) 0

/-- The hook `gameSessionSchema.pre('save', ...)`: the errors it records on the
document with `this.invalidate`. It always ends with `next()`, without argument. -/
def preSaveHook (pf : Platform) (doc : GameSession) : List FieldError :=
  if (totalPlayers doc.teams : ℚ) ≠ doc.numberOfPlayers then
    [.validator .numberOfPlayers "user defined"
      ("Player count (" ++ pf.text (.num (totalPlayers doc.teams))
        ++ ") doesn't match team assignments (" ++ pf.text (.num doc.numberOfPlayers) ++ ")")]
  else []

/-- Outcome of `newSession.save()`. -/
inductive SaveResult where
  /-- The promise rejects with a `ValidationError` holding these errors;
  nothing is written. -/
  | rejected (errors : List FieldError)
  /-- The document is inserted: the store after the write, the stored document,
  and the errors the `pre('save')` hook left recorded on it. -/
  | saved (store : Store) (doc : GameSession) (marked : List FieldError)
  deriving DecidableEq, Repr

/-- The call `new GameSession(data).save()`.

Mongoose runs document validation as the first `pre('save')` middleware; a
failure there rejects the save. The hooks a schema registers with
`schema.pre('save', ...)` run after it, in order, and stop the save only by
passing an error to `next` (or throwing). The hook of this schema calls
`this.invalidate`, which records an error on the document for a later
validation, and then `next()` with no argument: validation is not run again, so
the insert follows. -/
def save (pf : Platform) (st : Store) (d : SessionData) : SaveResult :=
  match validate pf st.players d with
  | .error errs => .rejected errs
  | .ok doc => .saved { st with sessions := st.sessions ++ [doc] } doc (preSaveHook pf doc)

/-! ## Responses -/

/-- An error caught by a route; its `message` is what the response carries. -/
inductive Failure where
  /-- An `Error` created with this message. -/
  | error (message : String)
  /-- The `TypeError` of a property read on `null`. -/
  | typeError
  /-- A mongoose `ValidationError` holding these errors. -/
  | validation (errors : List FieldError)
  deriving DecidableEq, Repr

/-- The JSON body of a response. -/
inductive Body where
  /-- The body `{ success: true, session }` (with a `message` in the raw-team form). -/
  | created (session : GameSession)
  /-- The body `{ success: false, error }`. -/
  | failure (error : Failure)
  /-- The body `{ error, details }`. -/
  | errorDetails (error : Failure)
  /-- The body `{ error }`. -/
  | errorOnly (error : String)
  deriving DecidableEq, Repr

/-- A response: status code and body. -/
structure Response where
  status : Nat
  body : Body
  deriving DecidableEq, Repr

/-! ## `src/routes/GameSessionRoutes.js`: the raw-team form -/

namespace GameSessionRoutes

/-- The constant `requiredFields`. -/
def requiredFields : List String := ["mapPlayed", "gameDuration", "teams", "numberOfPlayers"]

/-- The list `missingFields`. -/
def missingFields (body : JVal) : List String :=
  requiredFields.filter fun field => !body.hasKey field

/-- Step 5, for the team at position `index` of the array: what the callback of
`teams.forEach` throws, if anything. -/
def checkTeamShape (index : Nat) (team : JVal) : Except Failure Unit :=
  match team with
  | .obj _ | .arr _ =>
    match team.get "name" with
    | some (.str name) =>
      if name ≠ "" then .ok ()
      else .error (.error s!"Team {index + 1} must have a string 'name' property")
    | _ => .error (.error s!"Team {index + 1} must have a string 'name' property")
  | _ => .error (.error s!"Team {index + 1} must be an object")

/-- Step 5: the loop `teams.forEach`, from position `index` on. -/
def checkTeamShapes : Nat → List JVal → Except Failure Unit
  | _, [] => .ok ()
  | index, team :: rest =>
    match checkTeamShape index team with
    | .ok () => checkTeamShapes (index + 1) rest
    | .error err => .error err

/-- Step 6: the test `typeof v === 'number' && v > 0`. -/
def isPositiveNumber : Option JVal → Bool
  | some (.num q) => decide (0 < q)
  | _ => false

/-- Step 7: one element of `teams.map(team => ({ name: team.name, score: team.score || 0 }))`. -/
def teamData (team : JVal) : TeamData :=
  { name := team.get "name", players := [], score := some (orElse (team.get "score") (.num 0)) }

/-- Steps 4 to 8, the part of the `try` block after the presence check: the
validated teams and numbers, then `new GameSession(sessionData).save()`. -/
def create (pf : Platform) (st : Store) (body : JVal) : Except Failure (Store × GameSession) :=
  match body.get "teams" with
  | some (.arr teams) =>
    if teams.length < 2 then .error (.error "At least 2 teams required")
    else
      match checkTeamShapes 0 teams with
      | .error err => .error err
      | .ok () =>
        if !isPositiveNumber (body.get "gameDuration") then
          .error (.error "gameDuration must be a positive number")
        else if !isPositiveNumber (body.get "numberOfPlayers") then
          .error (.error "numberOfPlayers must be a positive number")
        else
          match save pf st
              { mapPlayed := body.get "mapPlayed"
                gameDuration := body.get "gameDuration"
                numberOfPlayers := body.get "numberOfPlayers"
                teams := teams.map teamData } with
          | .rejected errs => .error (.validation errs)
          | .saved st' doc _ => .ok (st', doc)
  | _ => .error (.error "Teams must be an array")

/-- The handler `router.post('/', ...)`: the store after the request and the
response. -/
def post (pf : Platform) (st : Store) (body : JVal) : Store × Response :=
  if (missingFields body).length > 0 then
    (st, { status := 400
           body := .failure (.error
             ("Missing required fields: " ++ ", ".intercalate (missingFields body))) })
  else
    match create pf st body with
    | .ok (st', session) => (st', { status := 201, body := .created session })
    | .error err => (st, { status := 400, body := .failure err })

end GameSessionRoutes

/-! ## `src/routes/SessionRoutes.js`: the nickname-resolving form -/

namespace SessionRoutes

/-- What is not determined by the request and the store during one request. -/
structure Run where
  /-- The time at which the store answers the lookup issued as number `k`
  (lookups are issued team by team, and player by player within a team). -/
  answeredAt : Nat → Nat
  /-- The value of `Math.random().toString(36)` drawn for the team at index `i`. -/
  random36 : Nat → String

/-- What the callback of a team does before its first `await`. -/
inductive TeamStart where
  /-- The read `team.players` throws: the team is `null`. -/
  | typeError
  /-- It throws `Each team must have a players array`. -/
  | noPlayers
  /-- It issues one lookup for each entry of `team.players`, in order. -/
  | lookups (nicknames : List JVal)

/-- The start of the callback for one team. -/
def teamStart (team : JVal) : TeamStart :=
  match team with
  | .null => .typeError
  | _ =>
    match team.get "players" with
    | some (.arr nicknames) => .lookups nicknames
    | _ => .noPlayers

/-- The first team, in array order, whose callback throws before its first
`await`, with what it throws. -/
def firstDefect : List JVal → Option Failure
  | [] => none
  | team :: rest =>
    match teamStart team with
    | .typeError => some .typeError
    | .noPlayers => some (.error "Each team must have a players array")
    | .lookups _ => firstDefect rest

/-- The nicknames of a team whose callback issues lookups. -/
def nicknamesOf (team : JVal) : List JVal :=
  match teamStart team with
  | .lookups nicknames => nicknames
  | _ => []

/-- Every lookup issued, in the order issued: team-major, player-minor. -/
def issued (teams : List JVal) : List JVal :=
  teams.flatMap nicknamesOf

/-- The issued lookups that find no player, each with its issue number. -/
def unresolved (pf : Platform) (players : List Player) (teams : List JVal) :
    List (Nat × JVal) :=
  (issued teams).enum.filter fun kn => (findOne pf players kn.2).isNone

/-- The element of least rank; among equals, the first of the list. -/
def earliest {α : Type} (rank : α → Nat) : List α → Option α
  | [] => none
  | x :: xs =>
    match earliest rank xs with
    | none => some x
    | some y => if rank y < rank x then some y else some x

/-- The expression `Math.random().toString(36).substring(2, 5)` for the team at
index `i`. -/
def randomSuffix (run : Run) (i : Nat) : String :=
  ⟨((run.random36 i).data.drop 2).take 3⟩

/-- The object a team callback returns when all its lookups found a player. -/
def resolvedTeam (pf : Platform) (run : Run) (players : List Player) (i : Nat) (team : JVal) :
    TeamData :=
  { name := some (orElse (team.get "name") (.str ("Team " ++ randomSuffix run i)))
    players := (nicknamesOf team).filterMap fun nickname =>
      (findOne pf players nickname).map fun player => player.id
    score := some (orElse (team.get "score") (.num 0)) }

/-- The value of `teamsWithPlayerIds`, or the rejection of the outer
`Promise.all`.

All team callbacks start at once and `Promise.all` rejects with the rejection
that happens first. A callback that throws before its first `await` rejects
before any lookup is answered, the first such team in array order first.
Otherwise the rejection is that of the unanswered-first lookup that finds no
player. -/
def teamsWithPlayerIds (pf : Platform) (run : Run) (players : List Player) (teams : List JVal) :
    Except Failure (List TeamData) :=
  match firstDefect teams with
  | some err => .error err
  | none =>
    match earliest (fun kn => run.answeredAt kn.1) (unresolved pf players teams) with
    | some kn => .error (.error ("Player not found: " ++ pf.text kn.2))
    | none => .ok (teams.enum.map fun it => resolvedTeam pf run players it.1 it.2)

/-- The argument of `new GameSession(...)`. -/
def sessionData (body : JVal) (teams : List TeamData) : SessionData :=
  { mapPlayed := some (orElse (body.get "mapPlayed") (.str "Desert"))
    gameDuration := some (orElse (body.get "gameDuration") (.num 30))
    numberOfPlayers := some (orElse (body.get "numberOfPlayers")
      (.num ((teams.foldl (fun sum team => sum + team.players.length) 0 : Nat) : ℚ)))
    teams := teams }

/-- The handler `router.post('/', ...)`: the store after the request and the
response. -/
def post (pf : Platform) (run : Run) (st : Store) (body : JVal) : Store × Response :=
  match body.get "teams" with
  | some (.arr teams) =>
    match teamsWithPlayerIds pf run st.players teams with
    | .error err => (st, { status := 500, body := .errorDetails err })
    | .ok resolved =>
      match save pf st (sessionData body resolved) with
      | .rejected errs => (st, { status := 500, body := .errorDetails (.validation errs) })
      | .saved st' doc _ => (st', { status := 201, body := .created doc })
  | _ => (st, { status := 400, body := .errorOnly "Teams array is required" })

end SessionRoutes

/-! ## A platform and sample data for concrete runs -/

/-- A platform that refuses every value of an unexpected type, and trims the
nickname of a filter as the setter of the path does. -/
def strictPlatform : Platform where
  castString
    | .str s => .value s
    | _ => .failed
  castNumber
    | .num q => .value q
    | _ => .failed
  text
    | .str s => s
    | _ => ""
  nicknameMatches
    | .str s, n => decide (n = jsTrim s)
    | _, _ => false
  castString_str _ := rfl
  castNumber_num _ := rfl
  text_str _ := rfl
  nicknameMatches_str s n h := by simp only [h]

/-- A run in which lookups are answered in the order issued. -/
def orderedRun : SessionRoutes.Run where
  answeredAt k := k
  random36 _ := "0.4fzyo82mvyr"

/-- The store after registering the players `a`, `b`, `c`, `d`. -/
def fourPlayers : Store :=
  { players := [{ id := 1, nickname := "a" }, { id := 2, nickname := "b" },
      { id := 3, nickname := "c" }, { id := 4, nickname := "d" }]
    sessions := [] }

/-! ## Sample requests -/

/-- A team object of the nickname-resolving form. -/
def nickTeam (name : String) (nicknames : List String) : JVal :=
  .obj [("name", .str name), ("players", .arr (nicknames.map .str))]

/-- The teams `Red = [a, b]`, `Blue = [c, d]`. -/
def redBlue : JVal :=
  .arr [nickTeam "Red" ["a", "b"], nickTeam "Blue" ["c", "d"]]

/-- The session the teams `Red = [a, b]`, `Blue = [c, d]` are stored as, with the
given declared player count. -/
def redBlueSession (numberOfPlayers : ℚ) : GameSession :=
  { mapPlayed := "Desert", gameDuration := 30, numberOfPlayers := numberOfPlayers
    teams := [{ name := "Red", players := [1, 2], score := 0 },
      { name := "Blue", players := [3, 4], score := 0 }] }

/-- The body `{mapPlayed:'Desert', gameDuration:30, numberOfPlayers:4, teams}`. -/
def desertBody (teams : JVal) : JVal :=
  .obj [("mapPlayed", .str "Desert"), ("gameDuration", .num 30), ("numberOfPlayers", .num 4),
    ("teams", teams)]

/-- The teams `[{name:'Red',score:3},{name:'Blue',score:1}]`, without player arrays. -/
def scoreOnlyTeams : JVal :=
  .arr [.obj [("name", .str "Red"), ("score", .num 3)],
    .obj [("name", .str "Blue"), ("score", .num 1)]]

/-! ## Predicates used in the statements -/

/-- A team handed to `new GameSession` whose paths all pass validation. -/
def GoodTeam (players : List Player) (t : TeamData) : Prop :=
  (∃ name, t.name = some (.str name) ∧ jsTrim name ≠ "" ∧ jsLength (jsTrim name) ≤ 30)
  ∧ (∃ score, t.score = some (.num score) ∧ 0 ≤ score)
  ∧ ∀ id ∈ t.players, (findById players id).isSome = true

/-- The entry under which a team with a string name and a numeric score is
stored. -/
def storedTeam (t : TeamData) : TeamEntry :=
  { name := match t.name with
      | some (.str name) => jsTrim name
      | _ => ""
    players := t.players
    score := match t.score with
      | some (.num score) => score
      | _ => 0 }

/-- A stored team entry holds, in order, the identifiers of the players found
for the nicknames of a submitted team. -/
def ResolvedAs (pf : Platform) (players : List Player) (team : JVal) (entry : TeamEntry) : Prop :=
  ∃ ns, team.get "players" = some (.arr ns)
    ∧ List.Forall₂ (fun n id => ∃ p, findOne pf players n = some p ∧ p.id = id) ns entry.players

/-- The field constraints of a stored session. -/
def FieldsOk (doc : GameSession) : Prop :=
  doc.mapPlayed ∈ maps
  ∧ (1 ≤ doc.gameDuration ∧ doc.gameDuration ≤ 120)
  ∧ (2 ≤ doc.numberOfPlayers ∧ doc.numberOfPlayers ≤ 32)
  ∧ ∀ t ∈ doc.teams, (∃ s, t.name = jsTrim s) ∧ t.name ≠ "" ∧ jsLength t.name ≤ 30 ∧ 0 ≤ t.score

/-- The draft breaks the constraint of the given path: the path holds no value
that satisfies it. -/
def Violates (pf : Platform) (d : SessionData) : Path → Prop
  | .mapPlayed => ∀ s, castWith pf.castString d.mapPlayed = .value s → s ∉ maps
  | .gameDuration => ∀ q, castWith pf.castNumber d.gameDuration = .value q → ¬ (1 ≤ q ∧ q ≤ 120)
  | .numberOfPlayers =>
    ∀ q, castWith pf.castNumber d.numberOfPlayers = .value q → ¬ (2 ≤ q ∧ q ≤ 32)
  | .teamName i => ∃ t, d.teams[i]? = some t
    ∧ ∀ s, castWith pf.castString t.name = .value s → jsTrim s = "" ∨ 30 < jsLength (jsTrim s)
  | .teamScore i => ∃ t, d.teams[i]? = some t
    ∧ ∃ q, castWith pf.castNumber t.score = .value q ∧ q < 0
  | .teamPlayer _ _ => False

/-- A team of the raw-team form with a non-empty string name. -/
def NamedTeam (team : JVal) : Prop :=
  ∃ name, team.get "name" = some (.str name) ∧ name ≠ ""

/-- The body for which the raw-team route answers 400 with the given error,
leaving the store as it was. -/
def RawRejects (pf : Platform) (st : Store) (body : JVal) (err : Failure) : Prop :=
  GameSessionRoutes.post pf st body = (st, { status := 400, body := .failure err })

/-- The test `v && typeof v === 'object'`: objects and arrays. -/
def JVal.isObject : JVal → Bool
  | .obj _ => true
  | .arr _ => true
  | _ => false

/-! ## The random label of a team without name -/

/-- The digit of value `d` in the texts of `Number.prototype.toString(36)`:
`0` to `9`, then `a` to `z`. -/
def digitChar (d : Nat) : Char :=
  Char.ofNat (if d < 10 then 48 + d else 87 + d)

/-- A character of `[0-9a-z]`. -/
def isBase36 (c : Char) : Bool :=
  (48 ≤ c.toNat && c.toNat ≤ 57) || (97 ≤ c.toNat && c.toNat ≤ 122)

/-- The digits after the point of `a / den` in base 36, for `a < den`: each step
multiplies by 36, writes the integer part and goes on with the remainder, until
nothing remains (or `fuel` digits are written). -/
def fractionDigits36 (den : Nat) : Nat → Nat → List Nat
  | 0, _ => []
  | fuel + 1, a =>
    if a = 0 then [] else (a * 36 / den) :: fractionDigits36 den fuel (a * 36 % den)

/-- The text of `x.toString(36)` for a draw `x = k / 2 ^ 53` of `Math.random()`,
`k < 2 ^ 53`: `0` for zero, else `0.` and the digits of `x` in base 36. The
digits are those of the exact expansion, which ends within 27 digits; an engine
may end the text earlier, at the first digit that tells `x` from the
neighbouring numbers. -/
def toString36 (k : Nat) : String :=
  if k = 0 then "0" else "0." ++ String.mk ((fractionDigits36 (2 ^ 53) 27 k).map digitChar)

/-- A run in which `Math.random()` draws `k / 2 ^ 53` for every team. -/
def drawRun (k : Nat) : SessionRoutes.Run where
  answeredAt n := n
  random36 _ := toString36 k

/-! ## The score of a player: `src/model/PlayersContact.js` and `GET /players/:nickname/score` -/

/-- The least `s`, from `s` on and within `fuel` steps, with `d * 2 ^ 52 ≤ k * 2 ^ s`:
the scale at which the quotient `k / d` has a mantissa of 53 bits. -/
def scaleOf (k d : Nat) : Nat → Nat → Nat
  | 0, s => s
  | fuel + 1, s => if d * 2 ^ 52 ≤ k * 2 ^ s then s else scaleOf k d fuel (s + 1)

/-- The quotient `k / d` of two numbers as JavaScript computes it: the double
nearest to the exact quotient, ties to the even mantissa. The result is the pair
`(m, s)` of the double `m / 2 ^ s`, with `2 ^ 52 ≤ m ≤ 2 ^ 53` unless `k = 0`. For
integers `k ≤ d * 2 ^ 53` and `0 < d < 2 ^ 53`. -/
def divDouble (k d : Nat) : Nat × Nat :=
  let s := scaleOf k d 106 0
  let q := k * 2 ^ s / d
  let r := k * 2 ^ s % d
  (if d < 2 * r ∨ (2 * r = d ∧ q % 2 = 1) then q + 1 else q, s)

/-- The text `(k / d).toFixed(2)`, given by its value in hundredths: the integer
`n` for which `n / 100` is nearest to the double `k / d`, the larger one of two
equally near. -/
def toFixed2 (k d : Nat) : Nat :=
  (200 * (divDouble k d).1 + 2 ^ (divDouble k d).2) / (2 * 2 ^ (divDouble k d).2)

/-- The number `parseFloat` reads from a text with two decimals, given in
hundredths. (Below 10 ^ 15 hundredths the double read, and the number a response
prints for it, denote this value.) -/
def parseFloatFixed (hundredths : Nat) : ℚ :=
  (hundredths : ℚ) / 100

/-- The virtual `score` of the player schema, on a document whose `kills` and
`deaths` are numbers:
`this.deaths > 0 ? parseFloat((this.kills / this.deaths).toFixed(2)) : this.kills`. -/
def score (kills deaths : Nat) : ℚ :=
  if deaths > 0 then parseFloatFixed (toFixed2 kills deaths) else kills

/-- The virtual `score` on a loaded document: a path the stored document lacks
holds its schema default, 0. -/
def virtualScore (kills deaths : Option Nat) : ℚ :=
  score (kills.getD 0) (deaths.getD 0)

/-- The expression `v || 0` on a stored stat (`none`: the document read with
`lean()` has no such field). -/
def orZero : Option Nat → Nat
  | some n => if n ≠ 0 then n else 0
  | none => 0

/-- The score computed by `GET /players/:nickname/score`:
`deaths > 0 ? (kills / deaths).toFixed(2) : kills`, then `parseFloat(score)`,
with `kills = player.kills || 0` and `deaths = player.deaths || 0`. -/
def routeScore (kills deaths : Option Nat) : ℚ :=
  if orZero deaths > 0 then parseFloatFixed (toFixed2 (orZero kills) (orZero deaths))
  else (orZero kills : ℚ)

/-- The value `round(kills / deaths, 2)` in hundredths, a half rounded up. -/
def roundHalfUp2 (kills deaths : Nat) : Nat :=
  (200 * kills + deaths) / (2 * deaths)

/-! ## `src/routes/Players.js` and the player schema -/

namespace Players

/-- The platform together with `String.prototype.toLowerCase`. -/
structure TextPlatform extends Platform where
  toLowerCase : String → String

/-- One entry of the errors of a `ValidationError` on a player: the path and the
kind of the validator that failed (`cast` for a value that cannot be cast). -/
structure PlayerError where
  path : String
  kind : String
  deriving DecidableEq, Repr

/-- An error caught by a route of `Players.js`. -/
inductive ServerError where
  /-- A mongoose `ValidationError`. -/
  | validation (errors : List PlayerError)
  /-- The duplicate key error of the unique index on this path. -/
  | duplicateKey (path : String)
  /-- A `CastError` on this path of a filter or an update. -/
  | cast (path : String)
  /-- A `ReferenceError`: the name is not defined where the code uses it. -/
  | notDefined (name : String)
  deriving DecidableEq, Repr

/-- The stat a route increments. -/
inductive StatName where
  | kills
  | deaths
  deriving DecidableEq, Repr

/-- The name of the stat, as in the route and the message. -/
def StatName.text : StatName → String
  | .kills => "kills"
  | .deaths => "deaths"

/-- A response of `Players.js`. -/
inductive Reply where
  /-- The call `res.status(status).json({ code, msg })`. -/
  | codeMsg (status : Nat) (code : Nat) (msg : String)
  /-- The response of `handleServerError`: status 500 and
  `{ code: 500, msg: 'Internal Server Error', error }`. -/
  | serverError (error : ServerError)
  /-- Status 201 and `{ code: 0, data: player }`. -/
  | created (player : Player)
  /-- Status 200 and `{ code: 0, data: { headsetId, TeamName, nickname } }`. -/
  | assigned (headsetId teamName nickname : String)
  /-- Status 200 and `{ code: 0, [statName]: value, msg }`. -/
  | stat (statName : StatName) (value : ℚ) (msg : String)
  deriving DecidableEq, Repr

/-- The status code of a response. -/
def Reply.status : Reply → Nat
  | .codeMsg status _ _ => status
  | .serverError _ => 500
  | .created _ => 201
  | .assigned _ _ _ => 200
  | .stat _ _ _ => 200

/-- The helper `validateRequiredFields(fields, req, res)`: the response it sends
for the first field of the list whose value in the body is falsy, after which it
returns `false`; `none` when it sends nothing and returns `true`. -/
def validateRequiredFields : List String → JVal → Option Reply
  | [], _ => none
  | field :: rest, body =>
    if !truthy? (body.get field) then
      some (.codeMsg 400 1 ("Missing required field: " ++ field))
    else validateRequiredFields rest body

/-- The pattern `/^[a-zA-Z0-9_]+$/`. -/
def matchesNickname (s : String) : Bool :=
  s.data ≠ [] && s.data.all fun c =>
    (97 ≤ c.toNat && c.toNat ≤ 122) || (65 ≤ c.toNat && c.toNat ≤ 90)
      || (48 ≤ c.toNat && c.toNat ≤ 57) || c = '_'

/-- The pattern `/^\d{8,15}$/`. -/
def matchesPhone (s : String) : Bool :=
  8 ≤ s.data.length && s.data.length ≤ 15 && s.data.all fun c => 48 ≤ c.toNat && c.toNat ≤ 57

/-- The pattern `/^[^\s@]+@[^\s@]+\.[^\s@]+$/`: no white space, one `@` after at
least one character, and after it a dot that has a character on both sides. -/
def matchesEmail (s : String) : Bool :=
  let noSpace := s.data.all fun c => !isJsSpace c
  let localPart := s.data.takeWhile fun c => c ≠ '@'
  let domain := (s.data.dropWhile fun c => c ≠ '@').drop 1
  noSpace && localPart ≠ [] && localPart.length < s.data.length
    && domain.all (fun c => c ≠ '@') && (domain.drop 1).dropLast.contains '.'

/-- The fields of a player document before it gets its identifier. -/
structure Draft where
  nickname : String
  name : String
  lastname : String
  email : String
  age : ℚ
  phone : String
  region : String
  kills : ℚ
  deaths : ℚ
  headsetId : Option String
  teamName : Option String
  deriving DecidableEq, Repr

/-- A `String` path with `required` and `trim`, and the validators given by
`check` (each with the kind it reports), run on the trimmed value in order. -/
def checkText (pf : Platform) (path : String) (check : List (String × (String → Bool)))
    (change : String → String) (v : Option JVal) : Except PlayerError String :=
  match castWith pf.castString v with
  | .failed => .error { path := path, kind := "cast" }
  | .absent => .error { path := path, kind := "required" }
  | .value s =>
    if change s = "" then .error { path := path, kind := "required" }
    else
      match check.find? fun kc => !kc.2 (change s) with
      | some kc => .error { path := path, kind := kc.1 }
      | none => .ok (change s)

/-- Path `age`: `type: Number`, `required`, `min: 13`, `max: 100`. -/
def checkAge (pf : Platform) (v : Option JVal) : Except PlayerError ℚ :=
  match castWith pf.castNumber v with
  | .failed => .error { path := "age", kind := "cast" }
  | .absent => .error { path := "age", kind := "required" }
  | .value q =>
    if q < 13 then .error { path := "age", kind := "min" }
    else if 100 < q then .error { path := "age", kind := "max" }
    else .ok q

/-- Paths `kills` and `deaths`: `type: Number`, `default: 0`, `min: 0`. (A `null`
is taken as absent.) -/
def checkStat (pf : Platform) (path : String) (v : Option JVal) : Except PlayerError ℚ :=
  match castWith pf.castNumber v with
  | .failed => .error { path := path, kind := "cast" }
  | .absent => .ok 0
  | .value q => if q < 0 then .error { path := path, kind := "min" } else .ok q

/-- Paths `headsetId` and `TeamName`: `type: String`, `default: null`. -/
def checkOptionalText (pf : Platform) (path : String) (v : Option JVal) :
    Except PlayerError (Option String) :=
  match castWith pf.castString v with
  | .failed => .error { path := path, kind := "cast" }
  | .absent => .ok none
  | .value s => .ok (some s)

/-- The errors of an outcome. -/
def errorsIn {α : Type} : Except PlayerError α → List PlayerError
  | .ok _ => []
  | .error e => [e]

/-- The document `new Player(req.body)` and its validation against `playerSchema`:
the fields to store, or the errors of all paths (`maxLength` is read as the
validator `maxlength`). -/
def validatePlayer (pf : TextPlatform) (body : JVal) : Except (List PlayerError) Draft :=
  let nickname := checkText pf.toPlatform "nickname"
    [("regexp", matchesNickname), ("maxlength", fun s => decide (jsLength s ≤ 20))] jsTrim
    (body.get "nickname")
  let name := checkText pf.toPlatform "name" [("maxlength", fun s => decide (jsLength s ≤ 50))]
    jsTrim (body.get "name")
  let lastname := checkText pf.toPlatform "lastname"
    [("maxlength", fun s => decide (jsLength s ≤ 50))] jsTrim (body.get "lastname")
  let email := checkText pf.toPlatform "email" [("user defined", matchesEmail)]
    (fun s => pf.toLowerCase (jsTrim s)) (body.get "email")
  let age := checkAge pf.toPlatform (body.get "age")
  let phone := checkText pf.toPlatform "phone" [("user defined", matchesPhone)] id
    (body.get "phone")
  let region := checkText pf.toPlatform "region" [] jsTrim (body.get "region")
  let kills := checkStat pf.toPlatform "kills" (body.get "kills")
  let deaths := checkStat pf.toPlatform "deaths" (body.get "deaths")
  let headsetId := checkOptionalText pf.toPlatform "headsetId" (body.get "headsetId")
  let teamName := checkOptionalText pf.toPlatform "TeamName" (body.get "TeamName")
  match nickname, name, lastname, email, age, phone, region, kills, deaths, headsetId,
      teamName with
  | .ok a, .ok b, .ok c, .ok d, .ok e, .ok f, .ok g, .ok h, .ok i, .ok j, .ok k =>
    .ok { nickname := a, name := b, lastname := c, email := d, age := e, phone := f,
          region := g, kills := h, deaths := i, headsetId := j, teamName := k }
  | _, _, _, _, _, _, _, _, _, _, _ =>
    .error (errorsIn nickname ++ errorsIn name ++ errorsIn lastname ++ errorsIn email
      ++ errorsIn age ++ errorsIn phone ++ errorsIn region ++ errorsIn kills ++ errorsIn deaths
      ++ errorsIn headsetId ++ errorsIn teamName)

/-- An identifier no stored player has. -/
def freshId (players : List Player) : PlayerId :=
  (players.map fun p => p.id).foldl max 0 + 1

/-- The document stored for the fields under an identifier. -/
def Draft.toPlayer (d : Draft) (id : PlayerId) : Player :=
  { id := id, nickname := d.nickname, name := d.name, lastname := d.lastname, email := d.email,
    age := d.age, phone := d.phone, region := d.region, kills := d.kills, deaths := d.deaths,
    headsetId := d.headsetId, teamName := d.teamName }

/-- The insert of `player.save()`: the unique indexes on `nickname` and `email`
refuse a value a stored player already has. -/
def insertPlayer (players : List Player) (d : Draft) : Except ServerError Player :=
  if players.any fun p => p.nickname = d.nickname then .error (.duplicateKey "nickname")
  else if players.any fun p => p.email = d.email then .error (.duplicateKey "email")
  else .ok (d.toPlayer (freshId players))

/-- The lookup `Player.findOne({ nickname: req.body.nickname })` of `/players/add`. -/
def findByBodyNickname (pf : Platform) (players : List Player) (body : JVal) : Option Player :=
  match body.get "nickname" with
  | some nickname => findOne pf players nickname
  | none => none

/-- The list `required` of `POST /players/add`. -/
def requiredToAdd : List String :=
  ["nickname", "name", "lastname", "email", "age", "phone", "region"]

/-- The list `required` of `POST /teams/assign-nickname`. -/
def requiredToAssign : List String := ["headsetId", "nickname", "TeamName"]

/-- The serialisation of a player document, which `res.json` asks of it: the
`toJSON` transform of `playerSchema` calls `moment(...)`, and `PlayersContact.js`
neither requires nor declares `moment`, so the call throws a `ReferenceError`. -/
def toJSON (_ : Player) : Except ServerError Player :=
  .error (.notDefined "moment")

/-- The handler of `POST /players/add`: the store after the request and the
response. After the save, `res.status(201).json({ code: 0, data: player })`
serialises the document inside the `try` block; what that throws is answered by
`handleServerError`, the player being stored already. -/
def addPlayer (pf : TextPlatform) (st : Store) (body : JVal) : Store × Reply :=
  match validateRequiredFields requiredToAdd body with
  | some sent => (st, sent)
  | none =>
    if (findByBodyNickname pf.toPlatform st.players body).isSome then
      (st, .codeMsg 409 2 "Nickname already exists")
    else
      match validatePlayer pf body with
      | .error errs => (st, .serverError (.validation errs))
      | .ok draft =>
        match insertPlayer st.players draft with
        | .error err => (st, .serverError err)
        | .ok player =>
          match toJSON player with
          | .ok data => ({ st with players := st.players ++ [player] }, .created data)
          | .error err => ({ st with players := st.players ++ [player] }, .serverError err)

/-- The first element satisfying `p` replaced by its image under `f`. -/
def updateFirst {α : Type} (p : α → Bool) (f : α → α) : List α → List α
  | [] => []
  | x :: xs => if p x then f x :: xs else x :: updateFirst p f xs

/-- The call `Team.findOneAndUpdate({ headsetId }, { headsetId, TeamName, nickname,
lastUpdated }, { new: true, upsert: true, lean: true })` on cast values: the
first binding of the headset is replaced, or a binding is added when there is
none. -/
def upsertBinding (bindings : List Binding) (headsetId teamName nickname : String) :
    List Binding :=
  if bindings.any fun b => b.headsetId = some headsetId then
    updateFirst (fun b => b.headsetId = some headsetId)
      (fun _ => { headsetId := some headsetId, teamName := teamName, nickname := nickname })
      bindings
  else bindings ++ [{ headsetId := some headsetId, teamName := teamName, nickname := nickname }]

/-- The cast of a value of the body for a `String` path of a filter or update. -/
def castField (pf : Platform) (path : String) (v : Option JVal) : Except ServerError String :=
  match castWith pf.castString v with
  | .value s => .ok s
  | _ => .error (.cast path)

/-- The handler of `POST /teams/assign-nickname`: the store after the request and
the response. -/
def assignNickname (pf : Platform) (st : Store) (body : JVal) : Store × Reply :=
  match validateRequiredFields requiredToAssign body with
  | some sent => (st, sent)
  | none =>
    match findByBodyNickname pf st.players body with
    | none => (st, .codeMsg 404 2 "Nickname not found")
    | some player =>
      match castField pf "headsetId" (body.get "headsetId"),
          castField pf "TeamName" (body.get "TeamName"),
          castField pf "nickname" (body.get "nickname") with
      | .ok headsetId, .ok teamName, .ok nickname =>
        ({ st with
            bindings := upsertBinding st.bindings headsetId teamName nickname
            players := updateFirst (fun p => p.id = player.id)
              (fun p => { p with headsetId := some headsetId, teamName := some teamName })
              st.players },
          .assigned headsetId teamName nickname)
      | .error err, _, _ => (st, .serverError err)
      | _, .error err, _ => (st, .serverError err)
      | _, _, .error err => (st, .serverError err)

/-- The update `{ $inc: { [statName]: 1 } }`. -/
def increment (statName : StatName) (p : Player) : Player :=
  match statName with
  | .kills => { p with kills := p.kills + 1 }
  | .deaths => { p with deaths := p.deaths + 1 }

/-- The value `player[statName]`. -/
def statOf (statName : StatName) (p : Player) : ℚ :=
  match statName with
  | .kills => p.kills
  | .deaths => p.deaths

/-- The helper `handleStatOperation(req, res, statName)` for the nickname of the
path: `findOneAndUpdate` increments the stat of the first player with the
nickname and returns the updated player. -/
def handleStatOperation (pf : Platform) (st : Store) (nickname : String)
    (statName : StatName) : Store × Reply :=
  match findOne pf st.players (.str nickname) with
  | none => (st, .codeMsg 404 1 "Player not found")
  | some player =>
    ({ st with
        players := updateFirst (fun p => pf.nicknameMatches (.str nickname) p.nickname)
          (increment statName) st.players },
      .stat statName
        (if statOf statName (increment statName player) ≠ 0
          then statOf statName (increment statName player) else 0)
        (statName.text ++ " incremented successfully"))

/-- Requests of `POST /teams/assign-nickname` handled one after the other: the
final store and the responses in order. -/
def assignAll (pf : Platform) : Store → List JVal → Store × List Reply
  | st, [] => (st, [])
  | st, body :: rest =>
    ((assignAll pf (assignNickname pf st body).1 rest).1,
      (assignNickname pf st body).2 :: (assignAll pf (assignNickname pf st body).1 rest).2)

end Players

/-- A text platform for texts whose only upper case letters are `A` to `Z`. -/
def strictTextPlatform : Players.TextPlatform :=
  { strictPlatform with toLowerCase := fun s => ⟨s.data.map Char.toLower⟩ }

/-- The body of a registration. -/
def playerBody (nickname email : String) : JVal :=
  .obj [("nickname", .str nickname), ("name", .str "Alex"), ("lastname", .str "Martin"),
    ("email", .str email), ("age", .num 20), ("phone", .str "12345678"),
    ("region", .str "Tunis")]

/-- The player a registration creates. -/
def registered (id : PlayerId) (nickname email : String) : Player :=
  { id := id, nickname := nickname, name := "Alex", lastname := "Martin", email := email,
    age := 20, phone := "12345678", region := "Tunis" }

/-- A store without sessions and bindings. -/
def playersOnly (players : List Player) : Store :=
  { players := players, sessions := [] }

/-- The body of an assignment. -/
def assignBody (headsetId nickname teamName : String) : JVal :=
  .obj [("headsetId", .str headsetId), ("nickname", .str nickname), ("TeamName", .str teamName)]

/-- The first binding of a headset. -/
def bindingOf (bindings : List Binding) (headsetId : String) : Option Binding :=
  bindings.find? fun b => b.headsetId = some headsetId

/-- At most one binding per headset id. -/
def OnePerHeadset (bindings : List Binding) : Prop :=
  (bindings.map fun b => b.headsetId).Nodup

/-- Every response is that of an assignment that succeeded. -/
def AllAssigned (replies : List Players.Reply) : Prop :=
  ∀ r ∈ replies, ∃ headsetId teamName nickname, r = .assigned headsetId teamName nickname

/-- The team name and the nickname of the last assignment of the headset among
the responses, in the order of the requests. -/
def latestAssignment (headsetId : String) : List Players.Reply → Option (String × String)
  | [] => none
  | r :: rest =>
    match latestAssignment headsetId rest with
    | some found => some found
    | none =>
      match r with
      | .assigned h teamName nickname => if h = headsetId then some (teamName, nickname) else none
      | _ => none

/-- No two players share a headset id that is not `null`. -/
def SparseUnique (players : List Player) : Prop :=
  (players.filterMap fun p => p.headsetId).Nodup

/-- The players of the store with a nickname. -/
def withNickname (st : Store) (nickname : String) : List Player :=
  st.players.filter fun p => p.nickname = nickname

/-- The store after registering the players `a` and `b`. -/
def twoPlayers : Store :=
  playersOnly [registered 1 "a" "a@example.com", registered 2 "b" "b@example.com"]

/-- Three assignments, the last of which gives the headset of `a` to `b`. -/
def headsetRun : List JVal :=
  [assignBody "H1" "a" "Red", assignBody "H2" "b" "Blue", assignBody "H1" "b" "Green"]

/-! ## `src/server.js`: connecting to the database -/

namespace Server

/-- The constant `CONFIG.MAX_RETRIES`. -/
def MAX_RETRIES : Nat := 15

/-- The constant `CONFIG.BASE_DELAY`, in milliseconds. -/
def BASE_DELAY : Nat := 3000

/-- The value `delay` after the failure of an attempt (attempts count from 1), for
the value `random` of `Math.random()`:
`Math.min(CONFIG.BASE_DELAY * Math.pow(2, attempt - 1) + Math.random() * 1000, 60000)`. -/
def delay (attempt : Nat) (random : ℚ) : ℚ :=
  min ((BASE_DELAY : ℚ) * 2 ^ (attempt - 1) + random * 1000) 60000

/-- What the program does not determine during start-up. -/
structure Run where
  /-- Whether the `try` block of the attempt runs to its end: the name resolves,
  the connection is made and the application is initialised. -/
  connects : Nat → Bool
  /-- The value of `Math.random()` drawn after the failure of the attempt. -/
  random : Nat → ℚ

/-- How the start-up ends. -/
inductive Ending where
  /-- The database is connected and the application serves. -/
  | connected
  /-- The call `process.exit(1)` after the last attempt. -/
  | exited
  deriving DecidableEq, Repr

/-- What `connectWithRetry` does: the attempts made, in order, the delays handed
to `setTimeout`, in order, and the ending (`none` when the bound on the steps
followed ran out first). -/
structure Trace where
  attempts : List Nat
  delays : List ℚ
  ending : Option Ending
  deriving DecidableEq, Repr

/-- The function `connectWithRetry(attempt)`, followed through the calls it
schedules, for at most `fuel` attempts. -/
def connectWithRetry (run : Run) : Nat → Nat → Trace
  | 0, _ => { attempts := [], delays := [], ending := none }
  | fuel + 1, attempt =>
    if run.connects attempt then
      { attempts := [attempt], delays := [], ending := some .connected }
    else if attempt ≥ MAX_RETRIES then
      { attempts := [attempt], delays := [], ending := some .exited }
    else
      { attempts := attempt :: (connectWithRetry run fuel (attempt + 1)).attempts
        delays := delay attempt (run.random attempt)
          :: (connectWithRetry run fuel (attempt + 1)).delays
        ending := (connectWithRetry run fuel (attempt + 1)).ending }

end Server

/-- A start-up in which no attempt connects and every draw is 1/2. -/
def neverConnects : Server.Run where
  connects _ := false
  random _ := 1 / 2

/-- A start-up in which the third attempt connects and every draw is 0. -/
def thirdConnects : Server.Run where
  connects attempt := decide (attempt = 3)
  random _ := 0

/-! ## `src/routes/authenticationRoutes.js`: the password check -/

namespace Authentication

/-- The UTF-16 code units of a string: a regular expression without the flag `u`
reads a string unit by unit. -/
def codeUnits (s : String) : List Nat :=
  s.data.flatMap fun c =>
    if c.toNat < 0x10000 then [c.toNat]
    else [0xD800 + (c.toNat - 0x10000) / 0x400, 0xDC00 + (c.toNat - 0x10000) % 0x400]

/-- A line terminator, the only kind of unit that `.` does not match. -/
def isLineTerminator (unit : Nat) : Bool :=
  unit = 0xA || unit = 0xD || unit = 0x2028 || unit = 0x2029

/-- The lookahead `(?=.*[lo-hi])` at the start of `units`: after any number of
units that `.` matches comes one of the class. -/
def aheadClass (lo hi : Nat) : List Nat → Bool
  | [] => false
  | unit :: rest =>
    (lo ≤ unit && unit ≤ hi) || (!isLineTerminator unit && aheadClass lo hi rest)

/-- The lookahead `(?=.{n,24})` at the start of `units`, for `n ≤ 24`: at least
`n` units that `.` matches come first. -/
def aheadLength : Nat → List Nat → Bool
  | 0, _ => true
  | _ + 1, [] => false
  | n + 1, unit :: rest => !isLineTerminator unit && aheadLength n rest

/-- A match of
`new RegExp("(?=.*[a-z])(?=.*[A-Z])(?=.*[0-9])(?=.{8,24})")` at the start of
`units`: the four lookaheads hold there, and the match is empty. -/
def passwordRegex (units : List Nat) : Bool :=
  aheadClass 97 122 units && aheadClass 65 90 units && aheadClass 48 57 units
    && aheadLength 8 units

/-- The call `passwordRegex.test(rPassword)` on a string: the pattern has no
anchor, so a match may start at any unit, the end of the string included. -/
def passwordRegex.test (rPassword : String) : Bool :=
  (codeUnits rPassword).tails.any passwordRegex

/-- The two checks of `POST /account/create` made before the store is read, on
strings: the `{ code, msg }` sent, or `none` when the handler goes on. -/
def createChecks (rUsername rPassword : String) : Option (Nat × String) :=
  if rUsername = "" ∨ jsLength rUsername < 3 then some (1, "Invalid Credentials")
  else if !passwordRegex.test rPassword then some (2, "Password Not Secure")
  else none

end Authentication

/-- The string has a character between the two code points. -/
def HasCharIn (lo hi : Nat) (s : String) : Prop :=
  ∃ c ∈ s.data, lo ≤ c.toNat ∧ c.toNat ≤ hi

/-- The string holds no line terminator (line feed, carriage return, line
separator, paragraph separator). -/
def NoLineTerminator (s : String) : Prop :=
  ∀ c ∈ s.data, Authentication.isLineTerminator c.toNat = false

/-- The teams `Red = [a, b]`, `Blue = [c, d]` as resolved on the store of `a`, `b`,
`c`, `d`. -/
def resolvedRedBlue : List TeamData :=
  [{ name := some (.str "Red"), players := [1, 2], score := some (.num 0) },
    { name := some (.str "Blue"), players := [3, 4], score := some (.num 0) }]

/-! ## The aggregations of `src/routes/GameSessionRoutes.js` -/

/-- What the database decides in an aggregation and the pipeline does not: the
order in which `$group` emits its groups, and the order `$sort` gives to
documents whose sort keys are equal. -/
structure Engine where
  /-- The order in which `$group` emits the groups, given the group key of every
  document in the order the documents are read. -/
  groupOrder : List String → List String
  /-- The stage `$sort` with one descending key. -/
  sortDesc : {α κ : Type} → [LinearOrder κ] → (α → κ) → List α → List α
  groupOrder_nodup : ∀ keys, (groupOrder keys).Nodup
  mem_groupOrder : ∀ keys key, key ∈ groupOrder keys ↔ key ∈ keys
  sortDesc_perm : ∀ {α κ : Type} [LinearOrder κ] (key : α → κ) (docs : List α),
    (sortDesc key docs).Perm docs
  sortDesc_sorted : ∀ {α κ : Type} [LinearOrder κ] (key : α → κ) (docs : List α),
    (sortDesc key docs).Pairwise fun a b => key b ≤ key a

/-- A stored session with the `createdAt` the option `timestamps` gave it, in
milliseconds since 1970-01-01T00:00:00Z. -/
structure Dated where
  createdAt : Nat
  session : GameSession
  deriving DecidableEq, Repr

/-- The accumulator `$avg` over numbers: `null` when there is none. -/
def avg (values : List ℚ) : Option ℚ :=
  if values = [] then none else some (values.sum / values.length)

/-- The decimal digits of `n`, with zeros in front up to the width 2. -/
def pad2 (n : Nat) : List Char :=
  [Char.ofNat (48 + n / 10 % 10), Char.ofNat (48 + n % 10)]

/-- The expression `{ $dateToString: { format: '%Y-%m-%d', date } }`: the
calendar date of a time in UTC, for the years up to 9999. -/
def dateToString (date : Nat) : String :=
  let z := date / 86400000 + 719468
  let era := z / 146097
  let doe := z % 146097
  let yoe := (doe + doe / 36524 - doe / 1460 - doe / 146096) / 365
  let doy := doe - (365 * yoe + yoe / 4 - yoe / 100)
  let mp := (5 * doy + 2) / 153
  let day := doy - (153 * mp + 2) / 5 + 1
  let month := if mp < 10 then mp + 3 else mp - 9
  let year := yoe + era * 400 + (if month ≤ 2 then 1 else 0)
  ⟨pad2 (year / 100) ++ pad2 year ++ ['-'] ++ pad2 month ++ ['-'] ++ pad2 day⟩

namespace GameSessionRoutes

/-- The document `stats[0]` of `GET /stats`: the one group `$group` makes of all
sessions (`avgDuration`, rounded by `$round`, is left out). -/
structure Totals where
  totalSessions : Nat
  totalPlayers : ℚ
  maps : List String
  deriving DecidableEq, Repr

/-- The result `stats` of the aggregation of `GET /stats`, for the sessions in
the order they are read: no document when there is no session. -/
def statsAggregate (sessions : List GameSession) : Option Totals :=
  if sessions = [] then none
  else some
    { totalSessions := sessions.length
      totalPlayers := (sessions.map fun s => s.numberOfPlayers).sum
      maps := sessions.map fun s => s.mapPlayed }

/-- The statement `mapCounts[map] = (mapCounts[map] || 0) + 1` on an object that
lists its keys in the order they were added (for a `map` that is no property of
`Object.prototype`, as the maps of the schema). -/
def countMap : List (String × Nat) → String → List (String × Nat)
  | [], map => [(map, 0 + 1)]
  | (key, count) :: rest, map =>
    if key = map then (key, (if count ≠ 0 then count else 0) + 1) :: rest
    else (key, count) :: countMap rest map

/-- The object `mapCounts` after the loop over `stats[0].maps`. -/
def mapCounts (stats0 : Option Totals) : List (String × Nat) :=
  match stats0 with
  | some totals => totals.maps.foldl countMap []
  | none => []

/-- The value `stats` of the response of `GET /stats`: the fields of `stats[0]`,
if any, and `mapDistribution`. -/
structure StatsBody where
  totals : Option Totals
  mapDistribution : List (String × Nat)
  deriving DecidableEq, Repr

/-- The handler `router.get('/stats', ...)` on the stored sessions. -/
def stats (sessions : List GameSession) : StatsBody :=
  { totals := statsAggregate sessions
    mapDistribution := mapCounts (statsAggregate sessions) }

/-- A row of `mapStats`: the group of one map. -/
structure MapRow where
  /-- The `_id` of the group. -/
  map : String
  totalSessions : Nat
  avgDuration : Option ℚ
  totalPlayers : ℚ
  avgPlayers : Option ℚ
  avgTeams : Option ℚ
  totalScore : ℚ
  avgScore : Option ℚ
  deriving DecidableEq, Repr

/-- The group `$group` makes of the sessions played on `map`. -/
def mapGroup (sessions : List GameSession) (map : String) : MapRow :=
  let played := sessions.filter fun s => s.mapPlayed = map
  { map := map
    totalSessions := played.length
    avgDuration := avg (played.map fun s => s.gameDuration)
    totalPlayers := (played.map fun s => s.numberOfPlayers).sum
    avgPlayers := avg (played.map fun s => s.numberOfPlayers)
    avgTeams := avg (played.map fun s => (s.teams.length : ℚ))
    totalScore := (played.map fun s => (s.teams.map fun t => t.score).sum).sum
    avgScore := avg (played.filterMap fun s => avg (s.teams.map fun t => t.score)) }

/-- The aggregation `mapStats` of `GET /export-map-analytics-excel`: `$group` by
`mapPlayed`, then `$sort` by `totalSessions`, descending. -/
def mapStats (eng : Engine) (sessions : List GameSession) : List MapRow :=
  eng.sortDesc (fun row => row.totalSessions)
    ((eng.groupOrder (sessions.map fun s => s.mapPlayed)).map (mapGroup sessions))

/-- A row of `dailyStats`: the group of one day, after `$project`. -/
structure DayRow where
  date : String
  totalSessions : Nat
  totalPlayers : ℚ
  totalDuration : ℚ
  avgDuration : Option ℚ
  uniqueMapsCount : Nat
  deriving DecidableEq, Repr

/-- The group of the sessions created on `date`, after `$project`: the set
`uniqueMaps` of `$addToSet` holds each map played that day once. -/
def dayGroup (sessions : List Dated) (date : String) : DayRow :=
  let day := (sessions.filter fun x => dateToString x.createdAt = date).map fun x => x.session
  { date := date
    totalSessions := day.length
    totalPlayers := (day.map fun s => s.numberOfPlayers).sum
    totalDuration := (day.map fun s => s.gameDuration).sum
    avgDuration := avg (day.map fun s => s.gameDuration)
    uniqueMapsCount := (day.map fun s => s.mapPlayed).dedup.length }

/-- The aggregation `dailyStats` of `GET /export-daily-summary-excel`: `$group`
by the calendar date of `createdAt`, `$project`, then `$sort` by `date`,
descending. -/
def dailyStats (eng : Engine) (sessions : List Dated) : List DayRow :=
  eng.sortDesc (fun row => row.date)
    ((eng.groupOrder (sessions.map fun x => dateToString x.createdAt)).map (dayGroup sessions))

end GameSessionRoutes

/-- A database that emits each group where the last document of the group is
read, and whose `$sort` keeps documents with equal keys in the order they come. -/
def stableEngine : Engine where
  groupOrder keys := keys.dedup
  sortDesc key docs := docs.insertionSort fun a b => key b ≤ key a
  groupOrder_nodup keys := List.nodup_dedup keys
  mem_groupOrder _ _ := List.mem_dedup
  sortDesc_perm _ docs := List.perm_insertionSort _ docs
  sortDesc_sorted key docs :=
    haveI : IsTotal _ (fun a b => key b ≤ key a) := ⟨fun a b => le_total (key b) (key a)⟩
    haveI : IsTrans _ (fun a b => key b ≤ key a) := ⟨fun _ _ _ hab hbc => le_trans hbc hab⟩
    List.sorted_insertionSort _ docs

/-- A session of 30 minutes with 4 players and no team, played on `map`. -/
def sessionOn (map : String) : GameSession :=
  { mapPlayed := map, gameDuration := 30, numberOfPlayers := 4, teams := [] }

/-- Three sessions: one on `Forest` and one on `Desert` created on 2024-11-06,
and one on `Desert` created on 1970-01-01. -/
def threeDated : List Dated :=
  [{ createdAt := 1730851200000, session := sessionOn "Forest" },
    { createdAt := 0, session := sessionOn "Desert" },
    { createdAt := 1730851200001, session := sessionOn "Desert" }]

/-- The text is that of `x.toString(36)` for a number `x` of [0, 1) with the given
digits after the point: `0`, without digits, for zero, and otherwise `0.`
followed by the digits, each in `[0-9a-z]`. -/
def IsText36 (text : String) (digits : List Char) : Prop :=
  (∀ c ∈ digits, isBase36 c = true)
    ∧ ((digits = [] ∧ text = "0") ∨ (digits ≠ [] ∧ text = "0." ++ String.mk digits))

/-! ## Lemmas on the model -/

open SessionRoutes

theorem earliest_eq_none {α : Type} (rank : α → Nat) (l : List α) :
    earliest rank l = none ↔ l = [] := by
  cases l with
  | nil => simp [earliest]
  | cons x xs =>
    simp only [earliest]
    cases earliest rank xs with
    | none => simp
    | some y => by_cases h : rank y < rank x <;> simp [h]

theorem earliest_mem {α : Type} (rank : α → Nat) :
    ∀ (l : List α) (x : α), earliest rank l = some x → x ∈ l := by
  intro l
  induction l with
  | nil => intro x h; simp [earliest] at h
  | cons a as ih =>
    intro x h
    simp only [earliest] at h
    cases hr : earliest rank as with
    | none =>
      rw [hr] at h
      simp only [Option.some.injEq] at h
      simp [h]
    | some y =>
      rw [hr] at h
      by_cases hlt : rank y < rank a
      · simp only [hlt, if_true, Option.some.injEq] at h
        subst h
        exact List.mem_cons_of_mem _ (ih y hr)
      · simp only [hlt, if_false, Option.some.injEq] at h
        simp [h]

theorem teamStart_of_players (team : JVal) (ns : List JVal)
    (h : team.get "players" = some (.arr ns)) :
    nicknamesOf team = ns ∧ firstDefect [team] = none := by
  cases team <;> simp_all [JVal.get, nicknamesOf, teamStart, firstDefect]

theorem nicknamesOf_of_players (team : JVal) (ns : List JVal)
    (h : team.get "players" = some (.arr ns)) : nicknamesOf team = ns :=
  (teamStart_of_players team ns h).1

theorem teamStart_lookups_of_players (team : JVal) (ns : List JVal)
    (h : team.get "players" = some (.arr ns)) : teamStart team = .lookups ns := by
  cases team <;> simp_all [JVal.get, teamStart]

theorem firstDefect_cases (teams : List JVal) :
    firstDefect teams = none ∨ firstDefect teams = some .typeError
      ∨ firstDefect teams = some (.error "Each team must have a players array") := by
  induction teams with
  | nil => simp [firstDefect]
  | cons t ts ih =>
    simp only [firstDefect]
    cases teamStart t <;> simp [ih]

theorem firstDefect_eq_none_of_players (teams : List JVal)
    (h : ∀ team ∈ teams, ∃ ns, team.get "players" = some (.arr ns)) :
    firstDefect teams = none := by
  induction teams with
  | nil => simp [firstDefect]
  | cons t ts ih =>
    obtain ⟨ns, hns⟩ := h t (List.mem_cons_self _ _)
    simp only [firstDefect, teamStart_lookups_of_players t ns hns]
    exact ih fun team hm => h team (List.mem_cons_of_mem _ hm)

theorem players_of_firstDefect_eq_none (teams : List JVal) (h : firstDefect teams = none) :
    ∀ team ∈ teams, ∃ ns, team.get "players" = some (.arr ns) := by
  induction teams with
  | nil => simp
  | cons t ts ih =>
    intro team hm
    simp only [firstDefect] at h
    cases hs : teamStart t with
    | typeError => simp [hs] at h
    | noPlayers => simp [hs] at h
    | lookups ns =>
      simp only [hs] at h
      rcases List.mem_cons.1 hm with rfl | hm
      · cases team with
        | null => simp [teamStart] at hs
        | obj fields =>
          simp only [teamStart] at hs
          cases hg : (JVal.obj fields).get "players" with
          | none => simp [hg] at hs
          | some v => cases v <;> simp_all
        | _ => simp [teamStart, JVal.get] at hs
      · exact ih h team hm

theorem firstDefect_of_missing_players (teams : List JVal)
    (hnull : ∀ team ∈ teams, team.isNull = false)
    (hmissing : ∃ team ∈ teams, ∀ ns, team.get "players" ≠ some (.arr ns)) :
    firstDefect teams = some (.error "Each team must have a players array") := by
  induction teams with
  | nil => simp at hmissing
  | cons t ts ih =>
    simp only [firstDefect]
    cases hs : teamStart t with
    | typeError =>
      have := hnull t (List.mem_cons_self _ _)
      cases t <;> simp_all [teamStart, JVal.isNull]
      all_goals (split at hs <;> simp_all)
    | noPlayers => rfl
    | lookups ns =>
      simp only
      apply ih (fun team hm => hnull team (List.mem_cons_of_mem _ hm))
      obtain ⟨team, hm, hteam⟩ := hmissing
      rcases List.mem_cons.1 hm with rfl | hm
      · exfalso
        have := players_of_firstDefect_eq_none [team] (by simp [firstDefect, hs]) team (by simp)
        obtain ⟨ns', hns'⟩ := this
        exact hteam ns' hns'
      · exact ⟨team, hm, hteam⟩

theorem post_of_firstDefect (pf : Platform) (run : Run) (st : Store) (body : JVal)
    (teams : List JVal) (err : Failure) (hteams : body.get "teams" = some (.arr teams))
    (hdefect : firstDefect teams = some err) :
    post pf run st body = (st, { status := 500, body := .errorDetails err }) := by
  simp [post, hteams, teamsWithPlayerIds, hdefect]

theorem post_of_unresolved (pf : Platform) (run : Run) (st : Store) (body : JVal)
    (teams : List JVal) (kn : Nat × JVal) (hteams : body.get "teams" = some (.arr teams))
    (hdefect : firstDefect teams = none)
    (hfirst : earliest (fun kn => run.answeredAt kn.1) (unresolved pf st.players teams) = some kn) :
    post pf run st body
      = (st, { status := 500, body := .errorDetails (.error ("Player not found: " ++ pf.text kn.2)) }) := by
  simp [post, hteams, teamsWithPlayerIds, hdefect, hfirst]

theorem mem_issued (teams : List JVal) (n : JVal) :
    n ∈ issued teams ↔ ∃ team ∈ teams, n ∈ nicknamesOf team := by
  simp [issued, List.mem_flatMap]

theorem mem_unresolved (pf : Platform) (players : List Player) (teams : List JVal)
    (kn : Nat × JVal) (h : kn ∈ unresolved pf players teams) :
    kn.2 ∈ issued teams ∧ findOne pf players kn.2 = none := by
  simp only [unresolved, List.mem_filter, Option.isNone_iff_eq_none] at h
  refine ⟨?_, h.2⟩
  obtain ⟨k, n⟩ := kn
  exact (List.mem_enum h.1).2 ▸ List.getElem_mem _

theorem unresolved_ne_nil (pf : Platform) (players : List Player) (teams : List JVal)
    (n : JVal) (hn : n ∈ issued teams) (hnone : findOne pf players n = none) :
    unresolved pf players teams ≠ [] := by
  obtain ⟨k, hk, hget⟩ := List.getElem_of_mem hn
  have hmem : (k, n) ∈ (issued teams).enum := by
    rw [List.mk_mem_enum_iff_getElem?]
    simp [List.getElem?_eq_getElem hk, hget]
  have : (k, n) ∈ unresolved pf players teams := by
    simp [unresolved, List.mem_filter, hmem, hnone]
  exact List.ne_nil_of_mem this

theorem earliest_enumFrom_filter {α : Type} (f : Nat → Nat) (hf : Monotone f) (q : α → Bool) :
    ∀ (l : List α) (k : Nat),
      (earliest (fun kn : Nat × α => f kn.1) ((l.enumFrom k).filter fun kn => q kn.2)).map Prod.snd
        = l.find? q := by
  intro l
  induction l with
  | nil => intro k; simp [earliest]
  | cons a as ih =>
    intro k
    by_cases hq : q a = true
    · simp only [List.enumFrom_cons, List.filter_cons, hq, if_true, List.find?_cons, earliest]
      cases he : earliest (fun kn : Nat × α => f kn.1)
          ((as.enumFrom (k + 1)).filter fun kn => q kn.2) with
      | none => rfl
      | some y =>
        have hy : y ∈ as.enumFrom (k + 1) := (List.mem_filter.1 (earliest_mem _ _ _ he)).1
        have hle : k ≤ y.1 := Nat.le_of_succ_le (List.le_fst_of_mem_enumFrom hy)
        have : ¬ f y.1 < f k := Nat.not_lt.2 (hf hle)
        simp [this]
    · simp only [List.enumFrom_cons, List.filter_cons, hq, List.find?_cons]
      simpa using ih (k + 1)

theorem checkTeamPlayers_eq_nil (players : List Player) (i : Nat) (ids : List PlayerId)
    (h : ∀ id ∈ ids, (findById players id).isSome = true) :
    checkTeamPlayers players i ids = [] := by
  simp only [checkTeamPlayers, List.map_eq_nil_iff, List.filter_eq_nil_iff]
  intro jp hjp
  obtain ⟨j, id⟩ := jp
  have hid : id ∈ ids := (List.mem_enum hjp).2 ▸ List.getElem_mem _
  simpa [Option.isSome_iff_ne_none] using h id hid

theorem checkTeam_good (pf : Platform) (players : List Player) (i : Nat) (t : TeamData)
    (name : String) (score : ℚ)
    (hname : t.name = some (.str name)) (hne : jsTrim name ≠ "") (hlen : jsLength (jsTrim name) ≤ 30)
    (hscore : t.score = some (.num score)) (hpos : 0 ≤ score)
    (hplayers : ∀ id ∈ t.players, (findById players id).isSome = true) :
    checkTeam pf players i t
      = .ok { name := jsTrim name, players := t.players, score := score } := by
  have h1 : checkTeamName pf i t.name = .ok (jsTrim name) := by
    simp [checkTeamName, hname, castWith, pf.castString_str, hne, Nat.not_lt.2 hlen]
  have h2 : checkTeamScore pf i t.score = .ok score := by
    simp [checkTeamScore, hscore, castWith, pf.castNumber_num, not_lt.2 hpos]
  simp only [checkTeam, h1, h2, checkTeamPlayers_eq_nil players i t.players hplayers]

theorem checkTeams_good (pf : Platform) (players : List Player) :
    ∀ (ts : List TeamData) (i : Nat), (∀ t ∈ ts, GoodTeam players t) →
      checkTeams pf players i ts = .ok (ts.map storedTeam) := by
  intro ts
  induction ts with
  | nil => intro i _; rfl
  | cons t ts ih =>
    intro i h
    obtain ⟨⟨name, hname, hne, hlen⟩, ⟨score, hscore, hpos⟩, hplayers⟩ :=
      h t (List.mem_cons_self _ _)
    have ht := checkTeam_good pf players i t name score hname hne hlen hscore hpos hplayers
    have hts := ih (i + 1) fun t' hm => h t' (List.mem_cons_of_mem _ hm)
    simp only [checkTeams, ht, hts, List.map_cons, storedTeam, hname, hscore]

theorem validate_good (pf : Platform) (players : List Player) (d : SessionData)
    (m : String) (g n : ℚ)
    (hm : d.mapPlayed = some (.str m)) (hmaps : m ∈ maps)
    (hg : d.gameDuration = some (.num g)) (hg1 : 1 ≤ g) (hg2 : g ≤ 120)
    (hn : d.numberOfPlayers = some (.num n)) (hn1 : 2 ≤ n) (hn2 : n ≤ 32)
    (hteams : ∀ t ∈ d.teams, GoodTeam players t) :
    validate pf players d
      = .ok { mapPlayed := m, gameDuration := g, numberOfPlayers := n
              teams := d.teams.map storedTeam } := by
  have hne : m ≠ "" := by
    rintro rfl
    simp [maps] at hmaps
  have h1 : checkMap pf d.mapPlayed = .ok m := by
    simp [checkMap, hm, castWith, pf.castString_str, hne, hmaps]
  have h2 : checkDuration pf d.gameDuration = .ok g := by
    simp [checkDuration, hg, castWith, pf.castNumber_num, not_lt.2 hg1, not_lt.2 hg2]
  have h3 : checkPlayerCount pf d.numberOfPlayers = .ok n := by
    simp [checkPlayerCount, hn, castWith, pf.castNumber_num, not_lt.2 hn1, not_lt.2 hn2]
  simp only [validate, h1, h2, h3, checkTeams_good pf players d.teams 0 hteams]

theorem totalPlayers_eq_sum (teams : List TeamEntry) :
    totalPlayers teams = (teams.map fun t => t.players.length).sum := by
  have h : ∀ (l : List TeamEntry) (acc : Nat),
      l.foldl (fun sum team => sum + team.players.length) acc
        = acc + (l.map fun t => t.players.length).sum := by
    intro l
    induction l with
    | nil => intro acc; simp
    | cons t ts ih => intro acc; simp [ih, Nat.add_assoc]
  simpa [totalPlayers] using h teams 0

theorem foldl_players_eq_sum (teams : List TeamData) :
    teams.foldl (fun sum team => sum + team.players.length) 0
      = (teams.map fun t => t.players.length).sum := by
  have h : ∀ (l : List TeamData) (acc : Nat),
      l.foldl (fun sum team => sum + team.players.length) acc
        = acc + (l.map fun t => t.players.length).sum := by
    intro l
    induction l with
    | nil => intro acc; simp
    | cons t ts ih => intro acc; simp [ih, Nat.add_assoc]
  simpa using h teams 0

theorem findById_of_findOne (pf : Platform) (players : List Player) (n : JVal) (p : Player)
    (h : findOne pf players n = some p) : (findById players p.id).isSome = true := by
  have hp : p ∈ players := List.mem_of_find?_eq_some h
  simp only [findById, List.find?_isSome]
  exact ⟨p, hp, by simp⟩

theorem resolved_ids (pf : Platform) (players : List Player) :
    ∀ (ns : List JVal), (∀ n ∈ ns, ∃ p, findOne pf players n = some p) →
      List.Forall₂ (fun n id => ∃ p, findOne pf players n = some p ∧ p.id = id) ns
        (ns.filterMap fun n => (findOne pf players n).map fun p => p.id) := by
  intro ns
  induction ns with
  | nil => intro _; exact List.Forall₂.nil
  | cons n ns ih =>
    intro h
    obtain ⟨p, hp⟩ := h n (List.mem_cons_self _ _)
    simp only [List.filterMap_cons, hp, Option.map_some']
    exact List.Forall₂.cons ⟨p, hp, rfl⟩ (ih fun n' hm => h n' (List.mem_cons_of_mem _ hm))

theorem forall₂_enumFrom_map {α β : Type} (P : α → Prop) (Q : α → β → Prop) (F : Nat × α → β)
    (hPQ : ∀ a i, P a → Q a (F (i, a))) :
    ∀ (l : List α) (k : Nat), (∀ a ∈ l, P a) → List.Forall₂ Q l ((l.enumFrom k).map F) := by
  intro l
  induction l with
  | nil => intro k _; exact List.Forall₂.nil
  | cons a as ih =>
    intro k h
    simp only [List.enumFrom_cons, List.map_cons]
    exact List.Forall₂.cons (hPQ a k (h a (List.mem_cons_self _ _)))
      (ih (k + 1) fun a' hm => h a' (List.mem_cons_of_mem _ hm))

theorem unresolved_eq_nil (pf : Platform) (players : List Player) (teams : List JVal)
    (h : ∀ n ∈ issued teams, ∃ p, findOne pf players n = some p) :
    unresolved pf players teams = [] := by
  simp only [unresolved, List.filter_eq_nil_iff]
  intro kn hkn
  obtain ⟨k, n⟩ := kn
  have hn : n ∈ issued teams := (List.mem_enum hkn).2 ▸ List.getElem_mem _
  obtain ⟨p, hp⟩ := h n hn
  simp [hp]

theorem sum_lengths_of_resolvedAs (pf : Platform) (players : List Player) :
    ∀ (teams : List JVal) (entries : List TeamEntry),
      List.Forall₂ (ResolvedAs pf players) teams entries →
      (entries.map fun t => t.players.length).sum = (issued teams).length := by
  intro teams entries h
  induction h with
  | nil => rfl
  | cons hte _ ih =>
    obtain ⟨ns, hns, hforall⟩ := hte
    simp only [issued, List.flatMap_cons, List.length_append, List.map_cons, List.sum_cons] at ih ⊢
    rw [ih, nicknamesOf_of_players _ ns hns, hforall.length_eq]

theorem jsTrim_empty : jsTrim "" = "" := by decide

theorem checkTeamShapes_ok :
    ∀ (teams : List JVal) (k : Nat),
      (∀ team ∈ teams, ∃ name, team.get "name" = some (.str name) ∧ name ≠ "") →
      GameSessionRoutes.checkTeamShapes k teams = .ok () := by
  intro teams
  induction teams with
  | nil => intro k _; rfl
  | cons t ts ih =>
    intro k h
    obtain ⟨name, hname, hne⟩ := h t (List.mem_cons_self _ _)
    have hshape : GameSessionRoutes.checkTeamShape k t = .ok () := by
      cases t <;> simp_all [GameSessionRoutes.checkTeamShape, JVal.get]
    simp only [GameSessionRoutes.checkTeamShapes, hshape]
    exact ih (k + 1) fun team hm => h team (List.mem_cons_of_mem _ hm)

theorem goodTeam_teamData (players : List Player) (team : JVal) (name : String)
    (hname : team.get "name" = some (.str name)) (hne : jsTrim name ≠ "")
    (hlen : jsLength (jsTrim name) ≤ 30)
    (hscore : team.get "score" = none ∨ ∃ score, team.get "score" = some (.num score) ∧ 0 ≤ score) :
    GoodTeam players (GameSessionRoutes.teamData team) := by
  refine ⟨⟨name, hname, hne, hlen⟩, ?_, by simp [GameSessionRoutes.teamData]⟩
  rcases hscore with h | ⟨score, h, hpos⟩
  · exact ⟨0, by simp [GameSessionRoutes.teamData, h, orElse], le_refl _⟩
  · by_cases h0 : score = 0
    · exact ⟨0, by simp [GameSessionRoutes.teamData, h, orElse, JVal.truthy, h0], le_refl _⟩
    · exact ⟨score, by simp [GameSessionRoutes.teamData, h, orElse, JVal.truthy, h0], hpos⟩

theorem checkMap_ok (pf : Platform) (v : Option JVal) (s : String)
    (h : checkMap pf v = .ok s) : castWith pf.castString v = .value s ∧ s ∈ maps := by
  simp only [checkMap] at h
  split at h
  · cases h
  · cases h
  · rename_i s' hs
    split at h
    · cases h
    · split at h
      · cases h
        exact ⟨hs, by assumption⟩
      · cases h

theorem checkMap_error (pf : Platform) (v : Option JVal) (e : FieldError)
    (h : checkMap pf v = .error e) : e.path = .mapPlayed := by
  simp only [checkMap] at h
  repeat' split at h
  all_goals first | (cases h; rfl) | cases h

theorem checkDuration_ok (pf : Platform) (v : Option JVal) (q : ℚ)
    (h : checkDuration pf v = .ok q) :
    castWith pf.castNumber v = .value q ∧ 1 ≤ q ∧ q ≤ 120 := by
  simp only [checkDuration] at h
  split at h
  · cases h
  · cases h
  · rename_i q' hq
    split at h
    · cases h
    · split at h
      · cases h
      · cases h
        exact ⟨hq, not_lt.1 (by assumption), not_lt.1 (by assumption)⟩

theorem checkDuration_error (pf : Platform) (v : Option JVal) (e : FieldError)
    (h : checkDuration pf v = .error e) : e.path = .gameDuration := by
  simp only [checkDuration] at h
  repeat' split at h
  all_goals first | (cases h; rfl) | cases h

theorem checkPlayerCount_ok (pf : Platform) (v : Option JVal) (q : ℚ)
    (h : checkPlayerCount pf v = .ok q) :
    castWith pf.castNumber v = .value q ∧ 2 ≤ q ∧ q ≤ 32 := by
  simp only [checkPlayerCount] at h
  split at h
  · cases h
  · cases h
  · rename_i q' hq
    split at h
    · cases h
    · split at h
      · cases h
      · cases h
        exact ⟨hq, not_lt.1 (by assumption), not_lt.1 (by assumption)⟩

theorem checkPlayerCount_error (pf : Platform) (v : Option JVal) (e : FieldError)
    (h : checkPlayerCount pf v = .error e) : e.path = .numberOfPlayers := by
  simp only [checkPlayerCount] at h
  repeat' split at h
  all_goals first | (cases h; rfl) | cases h

theorem checkTeamName_ok (pf : Platform) (i : Nat) (v : Option JVal) (name : String)
    (h : checkTeamName pf i v = .ok name) :
    ∃ s, castWith pf.castString v = .value s ∧ name = jsTrim s ∧ jsTrim s ≠ ""
      ∧ jsLength (jsTrim s) ≤ 30 := by
  simp only [checkTeamName] at h
  split at h
  · cases h
  · cases h
  · rename_i s hs
    split at h
    · cases h
    · split at h
      · cases h
      · cases h
        exact ⟨s, hs, rfl, by assumption, Nat.not_lt.1 (by assumption)⟩

theorem checkTeamName_error (pf : Platform) (i : Nat) (v : Option JVal) (e : FieldError)
    (h : checkTeamName pf i v = .error e) : e.path = .teamName i := by
  simp only [checkTeamName] at h
  repeat' split at h
  all_goals first | (cases h; rfl) | cases h

theorem checkTeamScore_ok (pf : Platform) (i : Nat) (v : Option JVal) (q : ℚ)
    (h : checkTeamScore pf i v = .ok q) :
    0 ≤ q ∧ ∀ q', castWith pf.castNumber v = .value q' → 0 ≤ q' := by
  simp only [checkTeamScore] at h
  split at h
  · cases h
  · rename_i habs
    cases h
    exact ⟨le_refl _, fun q' hq' => by rw [habs] at hq'; cases hq'⟩
  · rename_i q' hq
    split at h
    · cases h
    · cases h
      refine ⟨not_lt.1 (by assumption), fun q'' hq'' => ?_⟩
      rw [hq] at hq''
      cases hq''
      exact not_lt.1 (by assumption)

theorem checkTeamScore_error (pf : Platform) (i : Nat) (v : Option JVal) (e : FieldError)
    (h : checkTeamScore pf i v = .error e) : e.path = .teamScore i := by
  simp only [checkTeamScore] at h
  repeat' split at h
  all_goals first | (cases h; rfl) | cases h

theorem checkTeam_ok (pf : Platform) (players : List Player) (i : Nat) (t : TeamData)
    (e : TeamEntry) (h : checkTeam pf players i t = .ok e) :
    checkTeamName pf i t.name = .ok e.name ∧ checkTeamScore pf i t.score = .ok e.score
      ∧ e.players = t.players := by
  simp only [checkTeam] at h
  split at h
  · rename_i name score hn hs _
    cases h
    exact ⟨hn, hs, rfl⟩
  · cases h

theorem checkTeam_error_of_name (pf : Platform) (players : List Player) (i : Nat) (t : TeamData)
    (e : FieldError) (h : checkTeamName pf i t.name = .error e) :
    ∃ errs, checkTeam pf players i t = .error errs ∧ e ∈ errs := by
  simp only [checkTeam, h]
  exact ⟨_, rfl, by simp [errorsOf]⟩

theorem checkTeam_error_of_score (pf : Platform) (players : List Player) (i : Nat) (t : TeamData)
    (e : FieldError) (h : checkTeamScore pf i t.score = .error e) :
    ∃ errs, checkTeam pf players i t = .error errs ∧ e ∈ errs := by
  simp only [checkTeam, h]
  split
  · rename_i heq _
    cases heq
  · exact ⟨_, rfl, by simp [errorsOf]⟩

theorem checkTeams_ok (pf : Platform) (players : List Player) :
    ∀ (ts : List TeamData) (k : Nat) (es : List TeamEntry),
      checkTeams pf players k ts = .ok es →
      ∀ e ∈ es, ∃ t i, checkTeam pf players i t = .ok e := by
  intro ts
  induction ts with
  | nil =>
    intro k es h e he
    simp only [checkTeams] at h
    cases h
    cases he
  | cons t ts ih =>
    intro k es h e he
    simp only [checkTeams] at h
    cases h1 : checkTeam pf players k t with
    | error errs => cases h2 : checkTeams pf players (k + 1) ts <;> simp [h1, h2] at h
    | ok e1 =>
      cases h2 : checkTeams pf players (k + 1) ts with
      | error errs => simp [h1, h2] at h
      | ok es1 =>
        simp only [h1, h2, Except.ok.injEq] at h
        subst h
        rcases List.mem_cons.1 he with rfl | he
        · exact ⟨t, k, h1⟩
        · exact ih (k + 1) es1 h2 e he

theorem checkTeams_error (pf : Platform) (players : List Player) :
    ∀ (ts : List TeamData) (k j : Nat) (t : TeamData) (es : List FieldError),
      ts[j]? = some t → checkTeam pf players (k + j) t = .error es →
      ∃ errs, checkTeams pf players k ts = .error errs ∧ ∀ e ∈ es, e ∈ errs := by
  intro ts
  induction ts with
  | nil => intro k j t es h; simp at h
  | cons t0 ts ih =>
    intro k j t es hget herr
    cases j with
    | zero =>
      simp only [List.getElem?_cons_zero, Option.some.injEq] at hget
      subst hget
      simp only [Nat.add_zero] at herr
      simp only [checkTeams, herr]
      cases checkTeams pf players (k + 1) ts with
      | ok _ => exact ⟨es, rfl, fun e he => he⟩
      | error errs => exact ⟨es ++ errs, rfl, fun e he => List.mem_append_left _ he⟩
    | succ j =>
      simp only [List.getElem?_cons_succ] at hget
      have hk : k + (j + 1) = (k + 1) + j := by omega
      rw [hk] at herr
      obtain ⟨errs, herrs, hsub⟩ := ih (k + 1) j t es hget herr
      simp only [checkTeams, herrs]
      cases checkTeam pf players k t0 with
      | ok _ => exact ⟨errs, rfl, hsub⟩
      | error errs0 => exact ⟨errs0 ++ errs, rfl, fun e he => List.mem_append_right _ (hsub e he)⟩

theorem validate_ok (pf : Platform) (players : List Player) (d : SessionData) (doc : GameSession)
    (h : validate pf players d = .ok doc) :
    checkMap pf d.mapPlayed = .ok doc.mapPlayed
      ∧ checkDuration pf d.gameDuration = .ok doc.gameDuration
      ∧ checkPlayerCount pf d.numberOfPlayers = .ok doc.numberOfPlayers
      ∧ checkTeams pf players 0 d.teams = .ok doc.teams := by
  simp only [validate] at h
  split at h
  · rename_i h1 h2 h3 h4
    cases h
    exact ⟨h1, h2, h3, h4⟩
  · cases h

theorem validate_fieldsOk (pf : Platform) (players : List Player) (d : SessionData)
    (doc : GameSession) (h : validate pf players d = .ok doc) : FieldsOk doc := by
  obtain ⟨h1, h2, h3, h4⟩ := validate_ok pf players d doc h
  refine ⟨(checkMap_ok pf _ _ h1).2, (checkDuration_ok pf _ _ h2).2,
    (checkPlayerCount_ok pf _ _ h3).2, ?_⟩
  intro e he
  obtain ⟨t, i, hte⟩ := checkTeams_ok pf players d.teams 0 doc.teams h4 e he
  obtain ⟨hn, hs, _⟩ := checkTeam_ok pf players i t e hte
  obtain ⟨s, _, hname, hne, hlen⟩ := checkTeamName_ok pf i t.name e.name hn
  exact ⟨⟨s, hname⟩, hname ▸ hne, hname ▸ hlen, (checkTeamScore_ok pf i t.score e.score hs).1⟩

theorem validate_error_eq (pf : Platform) (players : List Player) (d : SessionData)
    (h : (∃ e, checkMap pf d.mapPlayed = .error e) ∨ (∃ e, checkDuration pf d.gameDuration = .error e)
      ∨ (∃ e, checkPlayerCount pf d.numberOfPlayers = .error e)
      ∨ ∃ es, checkTeams pf players 0 d.teams = .error es) :
    validate pf players d
      = .error (errorsOf (checkMap pf d.mapPlayed) ++ errorsOf (checkDuration pf d.gameDuration)
          ++ errorsOf (checkPlayerCount pf d.numberOfPlayers)
          ++ errorsOfAll (checkTeams pf players 0 d.teams)) := by
  simp only [validate]
  split
  · rename_i h1 h2 h3 h4
    rw [h1, h2, h3, h4] at h
    simp at h
  · rfl

theorem validate_error_of_violation (pf : Platform) (players : List Player) (d : SessionData)
    (p : Path) (h : Violates pf d p) :
    ∃ errs, validate pf players d = .error errs ∧ ∃ e ∈ errs, e.path = p := by
  cases p with
  | mapPlayed =>
    cases h1 : checkMap pf d.mapPlayed with
    | ok s => exact absurd (checkMap_ok pf _ s h1).2 (h s (checkMap_ok pf _ s h1).1)
    | error e =>
      refine ⟨_, validate_error_eq pf players d (Or.inl ⟨e, h1⟩), e, ?_, checkMap_error pf _ e h1⟩
      simp [h1, errorsOf]
  | gameDuration =>
    cases h2 : checkDuration pf d.gameDuration with
    | ok q => exact absurd (checkDuration_ok pf _ q h2).2 (h q (checkDuration_ok pf _ q h2).1)
    | error e =>
      refine ⟨_, validate_error_eq pf players d (Or.inr (Or.inl ⟨e, h2⟩)), e, ?_,
        checkDuration_error pf _ e h2⟩
      simp [h2, errorsOf]
  | numberOfPlayers =>
    cases h3 : checkPlayerCount pf d.numberOfPlayers with
    | ok q =>
      exact absurd (checkPlayerCount_ok pf _ q h3).2 (h q (checkPlayerCount_ok pf _ q h3).1)
    | error e =>
      refine ⟨_, validate_error_eq pf players d (Or.inr (Or.inr (Or.inl ⟨e, h3⟩))), e, ?_,
        checkPlayerCount_error pf _ e h3⟩
      simp [h3, errorsOf]
  | teamName i =>
    obtain ⟨t, hget, hbad⟩ := h
    cases hn : checkTeamName pf i t.name with
    | ok name =>
      obtain ⟨s, hs, _, hne, hlen⟩ := checkTeamName_ok pf i t.name name hn
      rcases hbad s hs with hb | hb
      · exact absurd hb hne
      · exact absurd hlen (Nat.not_le.2 hb)
    | error e =>
      obtain ⟨es, hes, he⟩ := checkTeam_error_of_name pf players i t e hn
      obtain ⟨errs, herrs, hsub⟩ :=
        checkTeams_error pf players d.teams 0 i t es hget (by simpa using hes)
      refine ⟨_, validate_error_eq pf players d (Or.inr (Or.inr (Or.inr ⟨errs, herrs⟩))), e, ?_,
        checkTeamName_error pf i _ e hn⟩
      simp [herrs, errorsOfAll, hsub e he]
  | teamScore i =>
    obtain ⟨t, hget, q, hq, hneg⟩ := h
    cases hs : checkTeamScore pf i t.score with
    | ok score =>
      exact absurd ((checkTeamScore_ok pf i t.score score hs).2 q hq) (not_le.2 hneg)
    | error e =>
      obtain ⟨es, hes, he⟩ := checkTeam_error_of_score pf players i t e hs
      obtain ⟨errs, herrs, hsub⟩ :=
        checkTeams_error pf players d.teams 0 i t es hget (by simpa using hes)
      refine ⟨_, validate_error_eq pf players d (Or.inr (Or.inr (Or.inr ⟨errs, herrs⟩))), e, ?_,
        checkTeamScore_error pf i _ e hs⟩
      simp [herrs, errorsOfAll, hsub e he]
  | teamPlayer i j => exact absurd h (by simp [Violates])

theorem save_cases (pf : Platform) (st : Store) (d : SessionData) :
    (∃ errs, validate pf st.players d = .error errs ∧ save pf st d = .rejected errs)
    ∨ ∃ doc, validate pf st.players d = .ok doc
        ∧ save pf st d = .saved { st with sessions := st.sessions ++ [doc] } doc (preSaveHook pf doc) := by
  cases h : validate pf st.players d with
  | error errs => exact Or.inl ⟨errs, rfl, by simp only [save, h]⟩
  | ok doc => exact Or.inr ⟨doc, rfl, by simp only [save, h]⟩

theorem save_saved (pf : Platform) (st : Store) (d : SessionData) (st' : Store)
    (doc : GameSession) (marked : List FieldError) (h : save pf st d = .saved st' doc marked) :
    validate pf st.players d = .ok doc ∧ st' = { st with sessions := st.sessions ++ [doc] } := by
  rcases save_cases pf st d with ⟨errs, _, hs⟩ | ⟨doc', hv, hs⟩
  · rw [hs] at h
    cases h
  · rw [hs] at h
    cases h
    exact ⟨hv, rfl⟩

theorem create_cases (pf : Platform) (st : Store) (body : JVal) :
    (∃ err, GameSessionRoutes.create pf st body = .error err)
    ∨ ∃ d doc, validate pf st.players d = .ok doc
        ∧ GameSessionRoutes.create pf st body
          = .ok ({ st with sessions := st.sessions ++ [doc] }, doc) := by
  unfold GameSessionRoutes.create
  split
  · split
    · exact Or.inl ⟨_, rfl⟩
    · split
      · exact Or.inl ⟨_, rfl⟩
      · split
        · exact Or.inl ⟨_, rfl⟩
        · split
          · exact Or.inl ⟨_, rfl⟩
          · split
            · exact Or.inl ⟨_, rfl⟩
            · rename_i hs
              obtain ⟨hv, rfl⟩ := save_saved pf st _ _ _ _ hs
              exact Or.inr ⟨_, _, hv, rfl⟩
  · exact Or.inl ⟨_, rfl⟩

theorem raw_post_cases (pf : Platform) (st : Store) (body : JVal) :
    (∃ err, GameSessionRoutes.post pf st body = (st, { status := 400, body := .failure err }))
    ∨ ∃ d doc, validate pf st.players d = .ok doc
        ∧ GameSessionRoutes.post pf st body
          = ({ st with sessions := st.sessions ++ [doc] }, { status := 201, body := .created doc }) := by
  unfold GameSessionRoutes.post
  split
  · exact Or.inl ⟨_, rfl⟩
  · rcases create_cases pf st body with ⟨err, h⟩ | ⟨d, doc, hv, h⟩
    · rw [h]
      exact Or.inl ⟨_, rfl⟩
    · rw [h]
      exact Or.inr ⟨d, doc, hv, rfl⟩

theorem nick_post_cases (pf : Platform) (run : SessionRoutes.Run) (st : Store) (body : JVal) :
    (∃ r, SessionRoutes.post pf run st body = (st, r) ∧ r.status ≠ 201)
    ∨ ∃ d doc, validate pf st.players d = .ok doc
        ∧ SessionRoutes.post pf run st body
          = ({ st with sessions := st.sessions ++ [doc] }, { status := 201, body := .created doc }) := by
  unfold SessionRoutes.post
  split
  · split
    · exact Or.inl ⟨_, rfl, by simp⟩
    · split
      · exact Or.inl ⟨_, rfl, by simp⟩
      · rename_i hs
        obtain ⟨hv, rfl⟩ := save_saved pf st _ _ _ _ hs
        exact Or.inr ⟨_, _, hv, rfl⟩
  · exact Or.inl ⟨_, rfl, by simp⟩

theorem head_missing (text : String) :
    ("Missing required fields: " ++ text).data.head? = some 'M' := by
  simp [String.data_append]

theorem checkTeamShape_error (index : Nat) (team : JVal) (err : Failure)
    (h : GameSessionRoutes.checkTeamShape index team = .error err) :
    ∃ msg, err = .error msg ∧ msg.data.head? = some 'T' := by
  have h1 : (s!"Team {index + 1} must be an object").data.head? = some 'T' := by
    simp [String.data_append, toString]
  unfold GameSessionRoutes.checkTeamShape at h
  repeat' split at h
  all_goals cases h
  all_goals exact ⟨_, rfl, h1⟩

theorem checkTeamShapes_error :
    ∀ (teams : List JVal) (index : Nat) (err : Failure),
      GameSessionRoutes.checkTeamShapes index teams = .error err →
      ∃ msg, err = .error msg ∧ msg.data.head? = some 'T' := by
  intro teams
  induction teams with
  | nil => intro index err h; cases h
  | cons t ts ih =>
    intro index err h
    simp only [GameSessionRoutes.checkTeamShapes] at h
    cases hs : GameSessionRoutes.checkTeamShape index t with
    | ok u =>
      rw [hs] at h
      exact ih (index + 1) err h
    | error e =>
      rw [hs] at h
      cases h
      exact checkTeamShape_error index t _ hs

theorem create_error (pf : Platform) (st : Store) (body : JVal) (err : Failure)
    (h : GameSessionRoutes.create pf st body = .error err) :
    (∃ errs, err = .validation errs) ∨ ∃ msg, err = .error msg ∧ msg.data.head? ≠ some 'M' := by
  unfold GameSessionRoutes.create at h
  split at h
  · split at h
    · cases h
      exact Or.inr ⟨_, rfl, by decide⟩
    · split at h
      · rename_i hs
        cases h
        obtain ⟨msg, rfl, hmsg⟩ := checkTeamShapes_error _ _ _ hs
        exact Or.inr ⟨msg, rfl, by rw [hmsg]; decide⟩
      · split at h
        · cases h
          exact Or.inr ⟨_, rfl, by decide⟩
        · split at h
          · cases h
            exact Or.inr ⟨_, rfl, by decide⟩
          · split at h
            · cases h
              exact Or.inl ⟨_, rfl⟩
            · cases h
  · cases h
    exact Or.inr ⟨_, rfl, by decide⟩

theorem checkTeamShape_ok_iff (index : Nat) (team : JVal) :
    GameSessionRoutes.checkTeamShape index team = .ok () ↔ NamedTeam team := by
  constructor
  · intro h
    unfold GameSessionRoutes.checkTeamShape at h
    split at h
    · split at h
      · rename_i name hname
        split at h
        · exact ⟨name, hname, by assumption⟩
        · cases h
      · cases h
    · split at h
      · rename_i name hname
        split at h
        · exact ⟨name, hname, by assumption⟩
        · cases h
      · cases h
    · cases h
  · rintro ⟨name, hname, hne⟩
    cases team <;> simp_all [GameSessionRoutes.checkTeamShape, JVal.get]

theorem checkTeamShape_error_eq (index : Nat) (team : JVal) (err : Failure)
    (h : GameSessionRoutes.checkTeamShape index team = .error err) :
    err = .error s!"Team {index + 1} must be an object"
      ∨ err = .error s!"Team {index + 1} must have a string 'name' property" := by
  unfold GameSessionRoutes.checkTeamShape at h
  repeat' split at h
  all_goals cases h
  all_goals first
    | exact Or.inl rfl
    | exact Or.inr rfl

theorem checkTeamShapes_unnamed :
    ∀ (teams : List JVal) (k : Nat), (∃ team ∈ teams, ¬ NamedTeam team) →
      ∃ err index, k ≤ index ∧ index < k + teams.length
        ∧ GameSessionRoutes.checkTeamShapes k teams = .error err
        ∧ (err = .error s!"Team {index + 1} must be an object"
          ∨ err = .error s!"Team {index + 1} must have a string 'name' property") := by
  intro teams
  induction teams with
  | nil => intro k h; simp at h
  | cons t ts ih =>
    intro k h
    cases hs : GameSessionRoutes.checkTeamShape k t with
    | error err =>
      refine ⟨err, k, le_refl _, by simp, ?_, checkTeamShape_error_eq k t err hs⟩
      simp only [GameSessionRoutes.checkTeamShapes, hs]
    | ok u =>
      have hnamed : NamedTeam t := (checkTeamShape_ok_iff k t).1 hs
      obtain ⟨team, hm, hteam⟩ := h
      rcases List.mem_cons.1 hm with rfl | hm
      · exact absurd hnamed hteam
      · obtain ⟨err, index, hle, hlt, herr, hmsg⟩ := ih (k + 1) ⟨team, hm, hteam⟩
        refine ⟨err, index, by omega, by simp only [List.length_cons]; omega, ?_, hmsg⟩
        simp only [GameSessionRoutes.checkTeamShapes, hs, herr]

/-! ## Properties of session creation -/

/-- C1: a session whose teams hold 4 players while it declares 5 is written all the
same. The nickname-resolving route answers 201 and stores it; the `pre('save')`
hook does record an error on `numberOfPlayers`, but after validation has run. -/
theorem mismatched_player_count_is_saved :
    SessionRoutes.post strictPlatform orderedRun fourPlayers
        (.obj [("numberOfPlayers", .num 5), ("teams", redBlue)])
      = ({ fourPlayers with sessions := [redBlueSession 5] },
          { status := 201, body := .created (redBlueSession 5) })
    ∧ ((totalPlayers (redBlueSession 5).teams : ℚ) ≠ (redBlueSession 5).numberOfPlayers)
    ∧ (preSaveHook strictPlatform (redBlueSession 5)).map FieldError.path = [.numberOfPlayers] := by
  decide

/-- C2 (as stated, refuted): the team `Red` submits the unknown nickname `ghost`
next to the known `a`, the team `Blue` has no players array. The request is
rejected and nothing is stored, but the error is not `Player not found: ghost`. -/
theorem unknown_nickname_not_named :
    findOne strictPlatform fourPlayers.players (.str "ghost") = none
    ∧ SessionRoutes.post strictPlatform orderedRun fourPlayers
        (.obj [("teams", .arr [nickTeam "Red" ["a", "ghost"],
          .obj [("name", .str "Blue"), ("score", .num 1)]])])
      = (fourPlayers, { status := 500
                        body := .errorDetails (.error "Each team must have a players array") }) := by
  decide

/-- C2 (amended): when some team submits a nickname that matches no stored
player, the request is answered with status 500 and the store is left as it
was, whatever the other nicknames and the order of the answers. If every team
has a players array the error is `Player not found: ` followed by a submitted
nickname that matches no player; otherwise it is the error of a team without
players array. -/
theorem unknown_nickname_rejects_submission (pf : Platform) (run : Run) (st : Store)
    (body : JVal) (teams : List JVal)
    (hteams : body.get "teams" = some (.arr teams))
    (hunknown : ∃ team ∈ teams, ∃ ns, team.get "players" = some (.arr ns)
      ∧ ∃ n ∈ ns, findOne pf st.players n = none) :
    (SessionRoutes.post pf run st body).1 = st
    ∧ ∃ err, (SessionRoutes.post pf run st body).2 = { status := 500, body := .errorDetails err }
      ∧ ((∀ team ∈ teams, ∃ ns, team.get "players" = some (.arr ns)) →
          ∃ team ∈ teams, ∃ ns, team.get "players" = some (.arr ns)
            ∧ ∃ n ∈ ns, findOne pf st.players n = none
              ∧ err = .error ("Player not found: " ++ pf.text n))
      ∧ ((¬ ∀ team ∈ teams, ∃ ns, team.get "players" = some (.arr ns)) →
          err = .error "Each team must have a players array" ∨ err = .typeError) := by
  obtain ⟨team, hteam, ns, hns, n, hn, hnone⟩ := hunknown
  cases hd : firstDefect teams with
  | some err =>
    rw [post_of_firstDefect pf run st body teams err hteams hd]
    refine ⟨rfl, err, rfl, ?_, ?_⟩
    · intro hall
      rw [firstDefect_eq_none_of_players teams hall] at hd
      cases hd
    · intro _
      rcases firstDefect_cases teams with h | h | h
      · rw [h] at hd; cases hd
      · rw [h] at hd; cases hd; exact Or.inr rfl
      · rw [h] at hd; cases hd; exact Or.inl rfl
  | none =>
    have hissued : n ∈ issued teams :=
      (mem_issued teams n).2 ⟨team, hteam, by rw [nicknamesOf_of_players team ns hns]; exact hn⟩
    cases he : earliest (fun kn => run.answeredAt kn.1) (unresolved pf st.players teams) with
    | none =>
      exact absurd ((earliest_eq_none _ _).1 he)
        (unresolved_ne_nil pf st.players teams n hissued hnone)
    | some kn =>
      rw [post_of_unresolved pf run st body teams kn hteams hd he]
      refine ⟨rfl, _, rfl, ?_, ?_⟩
      · intro hall
        obtain ⟨hk, hknone⟩ := mem_unresolved pf st.players teams kn (earliest_mem _ _ _ he)
        obtain ⟨team', hteam', hmem'⟩ := (mem_issued teams kn.2).1 hk
        obtain ⟨ns', hns'⟩ := hall team' hteam'
        rw [nicknamesOf_of_players team' ns' hns'] at hmem'
        exact ⟨team', hteam', ns', hns', kn.2, hmem', hknone, rfl⟩
      · intro hnot
        exact absurd (players_of_firstDefect_eq_none teams hd) hnot

/-- C2 (amended), on the store of `a`, `b`, `c`, `d`: `Blue` submits `ghost`. -/
theorem unknown_nickname_rejects_submission_witness :
    (SessionRoutes.post strictPlatform orderedRun fourPlayers
        (.obj [("teams", .arr [nickTeam "Red" ["a", "b"], nickTeam "Blue" ["c", "ghost"]])])).1
      = fourPlayers :=
  (unknown_nickname_rejects_submission strictPlatform orderedRun fourPlayers
    (.obj [("teams", .arr [nickTeam "Red" ["a", "b"], nickTeam "Blue" ["c", "ghost"]])])
    [nickTeam "Red" ["a", "b"], nickTeam "Blue" ["c", "ghost"]] rfl
    ⟨nickTeam "Blue" ["c", "ghost"], by simp, [.str "c", .str "ghost"], rfl, .str "ghost",
      by simp, by decide⟩).1

/-- C3 (as stated, refuted). First run: `Red` submits the unknown `ghost` and the
later team `Blue` has a players value that is not an array; the error reported
is that of `Blue`. Second run: `Red` submits the unknown `ghost`, `Blue` the
unknown `phantom`, and the store answers the second lookup first; the error names
`phantom`. -/
theorem later_team_reported_first :
    SessionRoutes.post strictPlatform orderedRun fourPlayers
        (.obj [("teams", .arr [nickTeam "Red" ["ghost"],
          .obj [("name", .str "Blue"), ("players", .str "c,d")]])])
      = (fourPlayers, { status := 500
                        body := .errorDetails (.error "Each team must have a players array") })
    ∧ SessionRoutes.post strictPlatform { answeredAt := fun k => 1 - k, random36 := fun _ => "0.5" }
        fourPlayers (.obj [("teams", .arr [nickTeam "Red" ["ghost"], nickTeam "Blue" ["phantom"]])])
      = (fourPlayers, { status := 500
                        body := .errorDetails (.error "Player not found: phantom") }) := by
  decide

/-- C3 (amended): when every team has a players array and the store answers the
lookups in the order they were issued, the nickname named in the error is the
first one matching no player in team-major, player-minor order. -/
theorem first_unknown_nickname_named (pf : Platform) (run : Run) (st : Store)
    (body : JVal) (teams : List JVal) (n : JVal)
    (hteams : body.get "teams" = some (.arr teams))
    (hall : ∀ team ∈ teams, ∃ ns, team.get "players" = some (.arr ns))
    (horder : Monotone run.answeredAt)
    (hfirst : (issued teams).find? (fun n => (findOne pf st.players n).isNone) = some n) :
    SessionRoutes.post pf run st body
      = (st, { status := 500, body := .errorDetails (.error ("Player not found: " ++ pf.text n)) }) := by
  have h := earliest_enumFrom_filter run.answeredAt horder
    (fun n => (findOne pf st.players n).isNone) (issued teams) 0
  rw [hfirst] at h
  cases he : earliest (fun kn : Nat × JVal => run.answeredAt kn.1)
      (unresolved pf st.players teams) with
  | none =>
    simp only [unresolved, List.enum] at he
    rw [he] at h
    cases h
  | some kn =>
    have he' := he
    simp only [unresolved, List.enum] at he'
    rw [he'] at h
    simp only [Option.map_some', Option.some.injEq] at h
    rw [post_of_unresolved pf run st body teams kn hteams
      (firstDefect_eq_none_of_players teams hall) he, h]

/-- C3 (amended), on the store of `a`, `b`, `c`, `d`: `Red` submits `a` and the
unknown `ghost`, `Blue` the unknown `phantom`; the error names `ghost`. -/
theorem first_unknown_nickname_named_witness :
    SessionRoutes.post strictPlatform orderedRun fourPlayers
        (.obj [("teams", .arr [nickTeam "Red" ["a", "ghost"], nickTeam "Blue" ["phantom", "b"]])])
      = (fourPlayers, { status := 500
                        body := .errorDetails (.error "Player not found: ghost") }) :=
  first_unknown_nickname_named strictPlatform orderedRun fourPlayers
    (.obj [("teams", .arr [nickTeam "Red" ["a", "ghost"], nickTeam "Blue" ["phantom", "b"]])])
    [nickTeam "Red" ["a", "ghost"], nickTeam "Blue" ["phantom", "b"]] (.str "ghost") rfl
    (by simp [nickTeam, JVal.get, List.lookup]) (fun _ _ h => h) rfl

/-- C4: in the nickname-resolving route, when every team has a players array
whose nicknames all match a stored player, the values handed to the schema
satisfy it, and `numberOfPlayers` is the total number of submitted nicknames,
the response is 201 and the session is appended to the store; it has one entry
per submitted team, in the same order, whose players are the identifiers of
the players found for the nicknames of that team, in the same order, and the
`pre('save')` hook records no error on it. -/
theorem resolved_session_is_stored (pf : Platform) (run : Run) (st : Store) (body : JVal)
    (teams : List JVal) (m : String) (g : ℚ)
    (hteams : body.get "teams" = some (.arr teams))
    (hresolve : ∀ team ∈ teams, ∃ ns, team.get "players" = some (.arr ns)
      ∧ ∀ n ∈ ns, ∃ p, findOne pf st.players n = some p)
    (hmap : orElse (body.get "mapPlayed") (.str "Desert") = .str m) (hmaps : m ∈ maps)
    (hdur : orElse (body.get "gameDuration") (.num 30) = .num g) (hg1 : 1 ≤ g) (hg2 : g ≤ 120)
    (hcount : body.get "numberOfPlayers" = some (.num ((issued teams).length : ℚ)))
    (hn1 : 2 ≤ (issued teams).length) (hn2 : (issued teams).length ≤ 32)
    (hfields : ∀ i team, teams[i]? = some team →
      (∃ name, orElse (team.get "name") (.str ("Team " ++ randomSuffix run i)) = .str name
        ∧ jsTrim name ≠ "" ∧ jsLength (jsTrim name) ≤ 30)
      ∧ ∃ score, orElse (team.get "score") (.num 0) = .num score ∧ 0 ≤ score) :
    ∃ doc, SessionRoutes.post pf run st body
        = ({ st with sessions := st.sessions ++ [doc] }, { status := 201, body := .created doc })
      ∧ doc.mapPlayed = m ∧ doc.gameDuration = g
      ∧ doc.numberOfPlayers = ((issued teams).length : ℚ)
      ∧ List.Forall₂ (ResolvedAs pf st.players) teams doc.teams
      ∧ preSaveHook pf doc = [] := by
  have hall : ∀ team ∈ teams, ∃ ns, team.get "players" = some (.arr ns) := fun team hm =>
    (hresolve team hm).imp fun _ h => h.1
  have hfound : ∀ n ∈ issued teams, ∃ p, findOne pf st.players n = some p := by
    intro n hn
    obtain ⟨team, hm, hmem⟩ := (mem_issued teams n).1 hn
    obtain ⟨ns, hns, hres⟩ := hresolve team hm
    rw [nicknamesOf_of_players team ns hns] at hmem
    exact hres n hmem
  have hresolved : teamsWithPlayerIds pf run st.players teams
      = .ok (teams.enum.map fun (it : Nat × JVal) => resolvedTeam pf run st.players it.1 it.2) := by
    simp [teamsWithPlayerIds, firstDefect_eq_none_of_players teams hall,
      unresolved_eq_nil pf st.players teams hfound, earliest]
  have hgood : ∀ t ∈ teams.enum.map (fun (it : Nat × JVal) => resolvedTeam pf run st.players it.1 it.2),
      GoodTeam st.players t := by
    intro t ht
    obtain ⟨⟨i, team⟩, hit, rfl⟩ := List.mem_map.1 ht
    have hget : teams[i]? = some team := List.mk_mem_enum_iff_getElem?.1 hit
    obtain ⟨⟨name, hname, hne, hlen⟩, ⟨score, hscore, hpos⟩⟩ := hfields i team hget
    refine ⟨⟨name, by simp [resolvedTeam, hname], hne, hlen⟩,
      ⟨score, by simp [resolvedTeam, hscore], hpos⟩, ?_⟩
    intro id hid
    simp only [resolvedTeam, List.mem_filterMap, Option.map_eq_some'] at hid
    obtain ⟨n, _, p, hp, rfl⟩ := hid
    exact findById_of_findOne pf st.players n p hp
  have hN : ((issued teams).length : ℚ) ≠ 0 := by
    have : (issued teams).length ≠ 0 := by omega
    exact_mod_cast this
  have hvalid := validate_good pf st.players
    (sessionData body (teams.enum.map fun (it : Nat × JVal) => resolvedTeam pf run st.players it.1 it.2))
    m g ((issued teams).length : ℚ)
    (by simp [sessionData, hmap]) hmaps (by simp [sessionData, hdur]) hg1 hg2
    (by simp [sessionData, hcount, orElse, JVal.truthy, hN])
    (by exact_mod_cast hn1) (by exact_mod_cast hn2) hgood
  have hrel : List.Forall₂ (ResolvedAs pf st.players) teams
      ((teams.enum.map fun (it : Nat × JVal) => resolvedTeam pf run st.players it.1 it.2).map storedTeam) := by
    rw [List.map_map]
    exact forall₂_enumFrom_map
      (fun team => ∃ ns, team.get "players" = some (.arr ns)
        ∧ ∀ n ∈ ns, ∃ p, findOne pf st.players n = some p)
      (ResolvedAs pf st.players) _
      (fun team i ⟨ns, hns, hres⟩ => ⟨ns, hns, by
        simpa [storedTeam, resolvedTeam, nicknamesOf_of_players team ns hns]
          using resolved_ids pf st.players ns hres⟩)
      teams 0 hresolve
  refine ⟨{ mapPlayed := m, gameDuration := g, numberOfPlayers := ((issued teams).length : ℚ),
             teams := (teams.enum.map fun (it : Nat × JVal) =>
               resolvedTeam pf run st.players it.1 it.2).map storedTeam },
    ?_, rfl, rfl, rfl, hrel, ?_⟩
  · simp only [SessionRoutes.post, hteams, hresolved, save, hvalid]
    rfl
  · have hsum := sum_lengths_of_resolvedAs pf st.players teams _ hrel
    simp only [preSaveHook, sessionData, totalPlayers_eq_sum, hsum]
    simp

/-- C4, on the example: after registering `a`, `b`, `c`, `d`, the submission of
`Red = [a, b]`, `Blue = [c, d]` with `numberOfPlayers` 4 is answered 201 and
stored with 2 team entries of 2 players each. -/
theorem resolved_session_is_stored_witness :
    (∃ doc, SessionRoutes.post strictPlatform orderedRun fourPlayers
          (.obj [("numberOfPlayers", .num 4), ("teams", redBlue)])
        = ({ fourPlayers with sessions := fourPlayers.sessions ++ [doc] },
            { status := 201, body := .created doc })
      ∧ preSaveHook strictPlatform doc = [])
    ∧ SessionRoutes.post strictPlatform orderedRun fourPlayers
          (.obj [("numberOfPlayers", .num 4), ("teams", redBlue)])
        = ({ fourPlayers with sessions := [redBlueSession 4] },
            { status := 201, body := .created (redBlueSession 4) }) := by
  refine ⟨?_, by decide⟩
  obtain ⟨doc, hpost, _, _, _, _, hhook⟩ :=
    resolved_session_is_stored strictPlatform orderedRun fourPlayers
      (.obj [("numberOfPlayers", .num 4), ("teams", redBlue)])
      [nickTeam "Red" ["a", "b"], nickTeam "Blue" ["c", "d"]] "Desert" 30 rfl
      (by
        intro team hm
        simp only [List.mem_cons, List.mem_singleton, List.not_mem_nil, or_false] at hm
        rcases hm with rfl | rfl
        · refine ⟨[.str "a", .str "b"], rfl, ?_⟩
          intro n hn
          simp only [List.mem_cons, List.mem_singleton, List.not_mem_nil, or_false] at hn
          rcases hn with rfl | rfl
          · exact ⟨{ id := 1, nickname := "a" }, rfl⟩
          · exact ⟨{ id := 2, nickname := "b" }, rfl⟩
        · refine ⟨[.str "c", .str "d"], rfl, ?_⟩
          intro n hn
          simp only [List.mem_cons, List.mem_singleton, List.not_mem_nil, or_false] at hn
          rcases hn with rfl | rfl
          · exact ⟨{ id := 3, nickname := "c" }, rfl⟩
          · exact ⟨{ id := 4, nickname := "d" }, rfl⟩)
      rfl (by decide) rfl (by decide) (by decide) rfl (by decide) (by decide)
      (by
        intro i team h
        rcases i with _ | _ | i
        · simp only [List.getElem?_cons_zero, Option.some.injEq] at h
          subst h
          exact ⟨⟨"Red", rfl, by decide, by decide⟩, ⟨0, rfl, le_refl _⟩⟩
        · simp only [List.getElem?_cons_succ, List.getElem?_cons_zero, Option.some.injEq] at h
          subst h
          exact ⟨⟨"Blue", rfl, by decide, by decide⟩, ⟨0, rfl, le_refl _⟩⟩
        · simp at h)
  exact ⟨doc, hpost, hhook⟩

/-- C5 (as stated, refuted): the fixture with the name of the first team replaced by
a single space. The name is a non-empty string of at most 30 characters, yet the
raw-team route answers 400: the schema trims the name and then requires it. -/
theorem blank_team_name_rejected :
    GameSessionRoutes.post strictPlatform fourPlayers
        (desertBody (.arr [.obj [("name", .str " "), ("score", .num 3)],
          .obj [("name", .str "Blue"), ("score", .num 1)]]))
      = (fourPlayers, { status := 400
                        body := .failure (.validation
                          [.validator (.teamName 0) "required" "Team name is required"]) }) := by
  decide

/-- C5 (amended): the raw-team route stores a name/score-only submission and
answers 201 for every body with a `mapPlayed` of the enumeration, a
`gameDuration` from 1 to 120, a `numberOfPlayers` from 2 to 32 and at least two
teams, each with a string name that after trimming is non-empty and of at most
30 characters, and with no score or a non-negative one. The stored teams have
no players. -/
theorem raw_submission_is_stored (pf : Platform) (st : Store) (body : JVal)
    (teams : List JVal) (m : String) (g n : ℚ)
    (hmap : body.get "mapPlayed" = some (.str m)) (hmaps : m ∈ maps)
    (hdur : body.get "gameDuration" = some (.num g)) (hg1 : 1 ≤ g) (hg2 : g ≤ 120)
    (hcount : body.get "numberOfPlayers" = some (.num n)) (hn1 : 2 ≤ n) (hn2 : n ≤ 32)
    (hteams : body.get "teams" = some (.arr teams)) (hlen : 2 ≤ teams.length)
    (hteam : ∀ team ∈ teams,
      (∃ name, team.get "name" = some (.str name) ∧ jsTrim name ≠ ""
        ∧ jsLength (jsTrim name) ≤ 30)
      ∧ (team.get "score" = none
        ∨ ∃ score, team.get "score" = some (.num score) ∧ 0 ≤ score)) :
    ∃ doc, GameSessionRoutes.post pf st body
        = ({ st with sessions := st.sessions ++ [doc] }, { status := 201, body := .created doc })
      ∧ doc.mapPlayed = m ∧ doc.gameDuration = g ∧ doc.numberOfPlayers = n
      ∧ doc.teams.length = teams.length ∧ ∀ entry ∈ doc.teams, entry.players = [] := by
  have hmissing : GameSessionRoutes.missingFields body = [] := by
    simp [GameSessionRoutes.missingFields, GameSessionRoutes.requiredFields, JVal.hasKey,
      hmap, hdur, hcount, hteams]
  have hshapes : GameSessionRoutes.checkTeamShapes 0 teams = .ok () := by
    apply checkTeamShapes_ok
    intro team hm
    obtain ⟨⟨name, hname, hne, _⟩, _⟩ := hteam team hm
    refine ⟨name, hname, ?_⟩
    rintro rfl
    exact hne jsTrim_empty
  have hgpos : (0 : ℚ) < g := lt_of_lt_of_le one_pos hg1
  have hnpos : (0 : ℚ) < n := lt_of_lt_of_le two_pos hn1
  have hgood : ∀ t ∈ teams.map GameSessionRoutes.teamData, GoodTeam st.players t := by
    intro t ht
    obtain ⟨team, hm, rfl⟩ := List.mem_map.1 ht
    obtain ⟨⟨name, hname, hne, hl⟩, hscore⟩ := hteam team hm
    exact goodTeam_teamData st.players team name hname hne hl hscore
  have hvalid := validate_good pf st.players
    { mapPlayed := body.get "mapPlayed", gameDuration := some (.num g),
      numberOfPlayers := some (.num n), teams := teams.map GameSessionRoutes.teamData }
    m g n hmap hmaps rfl hg1 hg2 rfl hn1 hn2 hgood
  refine ⟨{ mapPlayed := m, gameDuration := g, numberOfPlayers := n,
            teams := (teams.map GameSessionRoutes.teamData).map storedTeam },
    ?_, rfl, rfl, rfl, by simp, ?_⟩
  · simp only [GameSessionRoutes.post, hmissing, GameSessionRoutes.create, hteams,
      Nat.not_lt.2 hlen, hshapes, hdur, hcount, GameSessionRoutes.isPositiveNumber, hgpos, hnpos,
      save, hvalid]
    simp
  · intro entry he
    simp only [List.map_map, List.mem_map, Function.comp] at he
    obtain ⟨team, _, rfl⟩ := he
    rfl

/-- C5 (amended), on the fixture `{mapPlayed:'Desert', gameDuration:30,
numberOfPlayers:4, teams:[{name:'Red',score:3},{name:'Blue',score:1}]}`. -/
theorem raw_submission_is_stored_witness :
    ∃ doc, GameSessionRoutes.post strictPlatform fourPlayers (desertBody scoreOnlyTeams)
        = ({ fourPlayers with sessions := fourPlayers.sessions ++ [doc] },
            { status := 201, body := .created doc })
      ∧ doc.numberOfPlayers = 4 ∧ doc.teams.length = 2 := by
  obtain ⟨doc, hpost, _, _, hn, hlen, _⟩ :=
    raw_submission_is_stored strictPlatform fourPlayers (desertBody scoreOnlyTeams)
      [.obj [("name", .str "Red"), ("score", .num 3)],
        .obj [("name", .str "Blue"), ("score", .num 1)]]
      "Desert" 30 4 rfl (by decide) rfl (by decide) (by decide) rfl (by decide) (by decide)
      rfl (by decide)
      (by
        intro team hm
        simp only [List.mem_cons, List.mem_singleton, List.not_mem_nil, or_false] at hm
        rcases hm with rfl | rfl
        · exact ⟨⟨"Red", rfl, by decide, by decide⟩, Or.inr ⟨3, rfl, by decide⟩⟩
        · exact ⟨⟨"Blue", rfl, by decide, by decide⟩, Or.inr ⟨1, rfl, by decide⟩⟩)
  exact ⟨doc, hpost, hn, hlen⟩

theorem firstDefect_first (team : JVal) (after : List JVal)
    (hteam : ∀ ns, team.get "players" ≠ some (.arr ns)) :
    ∀ before : List JVal, (∀ t ∈ before, ∃ ns, t.get "players" = some (.arr ns)) →
      firstDefect (before ++ team :: after)
        = some (if team.isNull then .typeError
            else .error "Each team must have a players array") := by
  intro before
  induction before with
  | nil =>
    intro _
    simp only [List.nil_append, firstDefect]
    cases hs : teamStart team with
    | typeError =>
      cases team <;> simp_all [teamStart, JVal.isNull]
    | noPlayers =>
      cases team <;> simp_all [teamStart, JVal.isNull]
    | lookups ns =>
      exfalso
      obtain ⟨ns', hns'⟩ :=
        players_of_firstDefect_eq_none [team] (by simp [firstDefect, hs]) team (by simp)
      exact hteam ns' hns'
  | cons t ts ih =>
    intro hbefore
    obtain ⟨ns, hns⟩ := hbefore t (List.mem_cons_self _ _)
    simp only [List.cons_append, firstDefect, teamStart_lookups_of_players t ns hns]
    exact ih fun u hu => hbefore u (List.mem_cons_of_mem _ hu)

/-- C6 (as stated, refuted): the teams `[null, {name:'Red',score:3}]` hold two
teams without players array; the callback of the first throws the `TypeError`
of the read `null.players`, and that is the error of the response, not `Each
team must have a players array`. -/
theorem null_team_answered_with_type_error :
    SessionRoutes.post strictPlatform orderedRun fourPlayers
        (desertBody (.arr [.null, .obj [("name", .str "Red"), ("score", .num 3)]]))
      = (fourPlayers, { status := 500, body := .errorDetails .typeError })
    ∧ SessionRoutes.post strictPlatform orderedRun fourPlayers
        (desertBody (.arr [.null, .obj [("name", .str "Red"), ("score", .num 3)]]))
      ≠ (fourPlayers, { status := 500
                        body := .errorDetails (.error "Each team must have a players array") }) := by
  constructor <;> decide

/-- C6 (amended): when some team has no players array (the key is missing, its
value is not an array, or the team is `null`), the nickname-resolving route
answers 500 and leaves the store as it was. The error is that of the first such
team in array order: `Each team must have a players array`, or the `TypeError`
of the read `null.players` when that team is `null`; so it is `Each team must
have a players array` whenever the array holds no `null`. -/
theorem team_without_players_array_rejected (pf : Platform) (run : Run) (st : Store)
    (body : JVal) (teams : List JVal)
    (hteams : body.get "teams" = some (.arr teams))
    (hmissing : ∃ team ∈ teams, ∀ ns, team.get "players" ≠ some (.arr ns)) :
    (∃ err, SessionRoutes.post pf run st body
        = (st, { status := 500, body := .errorDetails err })
      ∧ (err = .error "Each team must have a players array" ∨ err = .typeError))
    ∧ ((∀ team ∈ teams, team.isNull = false) →
        SessionRoutes.post pf run st body
          = (st, { status := 500
                   body := .errorDetails (.error "Each team must have a players array") }))
    ∧ ∀ before team after, teams = before ++ team :: after →
        (∀ t ∈ before, ∃ ns, t.get "players" = some (.arr ns)) →
        (∀ ns, team.get "players" ≠ some (.arr ns)) →
        SessionRoutes.post pf run st body
          = (st, { status := 500
                   body := .errorDetails (if team.isNull then .typeError
                     else .error "Each team must have a players array") }) := by
  refine ⟨?_, ?_, ?_⟩
  · rcases firstDefect_cases teams with h | h | h
    · obtain ⟨team, hmem, hteam⟩ := hmissing
      obtain ⟨ns, hns⟩ := players_of_firstDefect_eq_none teams h team hmem
      exact absurd hns (hteam ns)
    · exact ⟨_, post_of_firstDefect pf run st body teams _ hteams h, Or.inr rfl⟩
    · exact ⟨_, post_of_firstDefect pf run st body teams _ hteams h, Or.inl rfl⟩
  · intro hnull
    exact post_of_firstDefect pf run st body teams _ hteams
      (firstDefect_of_missing_players teams hnull hmissing)
  · rintro before team after rfl hbefore hteam
    exact post_of_firstDefect pf run st body _ _ hteams
      (firstDefect_first team after hteam before hbefore)

/-- C6 (amended), on the fixture: the body with teams
`[{name:'Red',score:3},{name:'Blue',score:1}]` and no player arrays is rejected by
the nickname-resolving route. -/
theorem team_without_players_array_rejected_witness :
    SessionRoutes.post strictPlatform orderedRun fourPlayers (desertBody scoreOnlyTeams)
      = (fourPlayers, { status := 500
                        body := .errorDetails (.error "Each team must have a players array") }) :=
  (team_without_players_array_rejected strictPlatform orderedRun fourPlayers
    (desertBody scoreOnlyTeams)
    [.obj [("name", .str "Red"), ("score", .num 3)], .obj [("name", .str "Blue"), ("score", .num 1)]]
    rfl
    ⟨.obj [("name", .str "Red"), ("score", .num 3)], by simp,
      by intro ns; simp [JVal.get, List.lookup]⟩).2.1 (by simp [JVal.isNull])

/-- C7: a draft is stored only with fields inside the constraints of the schema,
and a draft breaking one of them is rejected with an error filed under that
field. (1) If `save` stores a document, the document has a map of the
enumeration, a duration from 1 to 120, a player count from 2 to 32 and teams
with a trimmed, non-empty name of at most 30 characters and a score of at
least 0, and it is what gets appended. (2) If the draft violates the constraint
of a path, `save` rejects with errors one of which is filed under that path,
and writes nothing. (3), (4) Both creation routes keep every stored session
inside the constraints, and a response other than 201 leaves the store as it
was. -/
theorem stored_sessions_satisfy_schema (pf : Platform) (st : Store) :
    (∀ d st' doc marked, save pf st d = .saved st' doc marked →
      FieldsOk doc ∧ st' = { st with sessions := st.sessions ++ [doc] })
    ∧ (∀ d p, Violates pf d p →
      ∃ errs, save pf st d = .rejected errs ∧ ∃ e ∈ errs, e.path = p)
    ∧ (∀ body, ((∀ s ∈ st.sessions, FieldsOk s) →
        ∀ s ∈ (GameSessionRoutes.post pf st body).1.sessions, FieldsOk s)
      ∧ ((GameSessionRoutes.post pf st body).2.status ≠ 201 →
        (GameSessionRoutes.post pf st body).1 = st))
    ∧ (∀ run body, ((∀ s ∈ st.sessions, FieldsOk s) →
        ∀ s ∈ (SessionRoutes.post pf run st body).1.sessions, FieldsOk s)
      ∧ ((SessionRoutes.post pf run st body).2.status ≠ 201 →
        (SessionRoutes.post pf run st body).1 = st)) := by
  refine ⟨?_, ?_, ?_, ?_⟩
  · intro d st' doc marked h
    rcases save_cases pf st d with ⟨errs, _, hs⟩ | ⟨doc', hv, hs⟩
    · rw [hs] at h
      cases h
    · rw [hs] at h
      cases h
      exact ⟨validate_fieldsOk pf st.players d _ hv, rfl⟩
  · intro d p hviol
    obtain ⟨errs, hv, he⟩ := validate_error_of_violation pf st.players d p hviol
    exact ⟨errs, by simp only [save, hv], he⟩
  · intro body
    rcases raw_post_cases pf st body with ⟨err, h⟩ | ⟨d, doc, hv, h⟩
    · rw [h]
      exact ⟨fun hinv => hinv, fun _ => rfl⟩
    · rw [h]
      refine ⟨fun hinv s hs => ?_, fun hne => absurd rfl hne⟩
      rcases List.mem_append.1 hs with hs | hs
      · exact hinv s hs
      · rw [List.mem_singleton.1 hs]
        exact validate_fieldsOk pf st.players d doc hv
  · intro run body
    rcases nick_post_cases pf run st body with ⟨r, h, hr⟩ | ⟨d, doc, hv, h⟩
    · rw [h]
      exact ⟨fun hinv => hinv, fun _ => rfl⟩
    · rw [h]
      refine ⟨fun hinv s hs => ?_, fun hne => absurd rfl hne⟩
      rcases List.mem_append.1 hs with hs | hs
      · exact hinv s hs
      · rw [List.mem_singleton.1 hs]
        exact validate_fieldsOk pf st.players d doc hv

/-- C7, on a draft with the map `Moon`: `save` rejects it with an error filed
under `mapPlayed`. -/
theorem stored_sessions_satisfy_schema_witness :
    ∃ errs, save strictPlatform fourPlayers
        { mapPlayed := some (.str "Moon"), gameDuration := some (.num 30),
          numberOfPlayers := some (.num 4), teams := [] } = .rejected errs
      ∧ ∃ e ∈ errs, e.path = .mapPlayed :=
  (stored_sessions_satisfy_schema strictPlatform fourPlayers).2.1
    { mapPlayed := some (.str "Moon"), gameDuration := some (.num 30),
      numberOfPlayers := some (.num 4), teams := [] } .mapPlayed
    (by
      intro s hs
      cases hs
      decide)

/-- C8 (as stated, refuted): the draft has a map outside the enumeration (first
rule) and a single team (fourth rule); the raw-team route reports the team
count. With the map `Moon` and the duration 0 (second rule) it reports the
duration with the message of the route, not the map. -/
theorem team_count_reported_before_map :
    "Moon" ∉ maps
    ∧ GameSessionRoutes.post strictPlatform fourPlayers
        (.obj [("mapPlayed", .str "Moon"), ("gameDuration", .num 30), ("numberOfPlayers", .num 4),
          ("teams", .arr [.obj [("name", .str "Red")]])])
      = (fourPlayers, { status := 400, body := .failure (.error "At least 2 teams required") })
    ∧ GameSessionRoutes.post strictPlatform fourPlayers
        (.obj [("mapPlayed", .str "Moon"), ("gameDuration", .num 0), ("numberOfPlayers", .num 4),
          ("teams", scoreOnlyTeams)])
      = (fourPlayers, { status := 400
                        body := .failure (.error "gameDuration must be a positive number") }) := by
  decide

/-- C8 (amended): for a raw-team submission holding all four keys, the error
surfaced is that of the first failing check in the order: `teams` is an array;
it has at least 2 entries; every team is an object with a non-empty string
name; `gameDuration` is a positive number; `numberOfPlayers` is a positive
number. Each of these is reported whatever the later ones and the map are. When
all pass, the session is stored, or the response holds the schema errors of
every violated field rule together. -/
theorem first_failing_check_reported (pf : Platform) (st : Store) (body : JVal)
    (hkeys : ∀ key ∈ ["mapPlayed", "gameDuration", "teams", "numberOfPlayers"],
      (body.get key).isSome) :
    ((∀ teams, body.get "teams" ≠ some (.arr teams)) →
      RawRejects pf st body (.error "Teams must be an array"))
    ∧ ∀ teams, body.get "teams" = some (.arr teams) →
      (teams.length < 2 → RawRejects pf st body (.error "At least 2 teams required"))
      ∧ (2 ≤ teams.length → (∃ team ∈ teams, ¬ NamedTeam team) →
        ∃ index, index < teams.length
          ∧ (RawRejects pf st body (.error s!"Team {index + 1} must be an object")
            ∨ RawRejects pf st body
                (.error s!"Team {index + 1} must have a string 'name' property")))
      ∧ (2 ≤ teams.length → (∀ team ∈ teams, NamedTeam team) →
        ((∀ q, body.get "gameDuration" = some (.num q) → q ≤ 0) →
          RawRejects pf st body (.error "gameDuration must be a positive number"))
        ∧ ((∃ q, body.get "gameDuration" = some (.num q) ∧ 0 < q) →
          ((∀ q, body.get "numberOfPlayers" = some (.num q) → q ≤ 0) →
            RawRejects pf st body (.error "numberOfPlayers must be a positive number"))
          ∧ ((∃ q, body.get "numberOfPlayers" = some (.num q) ∧ 0 < q) →
            (∃ doc, GameSessionRoutes.post pf st body
              = ({ st with sessions := st.sessions ++ [doc] },
                  { status := 201, body := .created doc }))
            ∨ ∃ errs, RawRejects pf st body (.validation errs)
                ∧ ∀ p, Violates pf
                    { mapPlayed := body.get "mapPlayed", gameDuration := body.get "gameDuration"
                      numberOfPlayers := body.get "numberOfPlayers"
                      teams := teams.map GameSessionRoutes.teamData } p →
                  ∃ e ∈ errs, e.path = p))) := by
  have hnil : GameSessionRoutes.missingFields body = [] := by
    simp only [GameSessionRoutes.missingFields, GameSessionRoutes.requiredFields, JVal.hasKey,
      List.filter_eq_nil_iff]
    intro key hkey
    simp [hkeys key hkey]
  have hpost : GameSessionRoutes.post pf st body
      = match GameSessionRoutes.create pf st body with
        | .ok (st', session) => (st', { status := 201, body := .created session })
        | .error err => (st, { status := 400, body := .failure err }) := by
    simp only [GameSessionRoutes.post, hnil, List.length_nil, gt_iff_lt, Nat.lt_irrefl, if_false]
  have hnotpos : ∀ v : Option JVal, (∀ q, v = some (.num q) → q ≤ 0) →
      GameSessionRoutes.isPositiveNumber v = false := by
    intro v hv
    cases v with
    | none => rfl
    | some x =>
      cases x with
      | num q => simpa [GameSessionRoutes.isPositiveNumber] using hv q rfl
      | _ => rfl
  refine ⟨?_, ?_⟩
  · intro harr
    have hcreate : GameSessionRoutes.create pf st body = .error (.error "Teams must be an array") := by
      unfold GameSessionRoutes.create
      split
      · rename_i teams h
        exact absurd h (harr teams)
      · rfl
    simp only [RawRejects, hpost, hcreate]
  · intro teams hteams
    refine ⟨?_, ?_, ?_⟩
    · intro hlen
      simp only [RawRejects, hpost, GameSessionRoutes.create, hteams, hlen, if_true]
    · intro hlen hunnamed
      obtain ⟨err, index, _, hlt, herr, hmsg⟩ := checkTeamShapes_unnamed teams 0 hunnamed
      have hcreate : GameSessionRoutes.create pf st body = .error err := by
        simp only [GameSessionRoutes.create, hteams, Nat.not_lt.2 hlen, if_false, herr]
      refine ⟨index, by simpa using hlt, ?_⟩
      rcases hmsg with rfl | rfl
      · exact Or.inl (by simp only [RawRejects, hpost, hcreate])
      · exact Or.inr (by simp only [RawRejects, hpost, hcreate])
    · intro hlen hnamed
      have hshapes : GameSessionRoutes.checkTeamShapes 0 teams = .ok () :=
        checkTeamShapes_ok teams 0 hnamed
      refine ⟨?_, ?_⟩
      · intro hdur
        simp only [RawRejects, hpost, GameSessionRoutes.create, hteams, Nat.not_lt.2 hlen, if_false,
          hshapes, hnotpos _ hdur, Bool.not_false, if_true]
      · rintro ⟨g, hg, hgpos⟩
        refine ⟨?_, ?_⟩
        · intro hcount
          have h1 : GameSessionRoutes.isPositiveNumber (body.get "gameDuration") = true := by
            simp [hg, GameSessionRoutes.isPositiveNumber, hgpos]
          simp only [RawRejects, hpost, GameSessionRoutes.create, hteams, Nat.not_lt.2 hlen,
            if_false, hshapes, h1, Bool.not_true, Bool.false_eq_true, hnotpos _ hcount,
            Bool.not_false, if_true]
        · rintro ⟨n, hn, hnpos⟩
          have hcreate : GameSessionRoutes.create pf st body
              = match save pf st
                  { mapPlayed := body.get "mapPlayed", gameDuration := body.get "gameDuration"
                    numberOfPlayers := body.get "numberOfPlayers"
                    teams := teams.map GameSessionRoutes.teamData } with
                | .rejected errs => .error (.validation errs)
                | .saved st' doc _ => .ok (st', doc) := by
            have h1 : GameSessionRoutes.isPositiveNumber (body.get "gameDuration") = true := by
              simp [hg, GameSessionRoutes.isPositiveNumber, hgpos]
            have h2 : GameSessionRoutes.isPositiveNumber (body.get "numberOfPlayers") = true := by
              simp [hn, GameSessionRoutes.isPositiveNumber, hnpos]
            simp only [GameSessionRoutes.create, hteams, Nat.not_lt.2 hlen, if_false, hshapes, h1,
              h2, Bool.not_true, Bool.false_eq_true]
          rcases save_cases pf st
              { mapPlayed := body.get "mapPlayed", gameDuration := body.get "gameDuration"
                numberOfPlayers := body.get "numberOfPlayers"
                teams := teams.map GameSessionRoutes.teamData } with ⟨errs, hv, hs⟩ | ⟨doc, _, hs⟩
          · refine Or.inr ⟨errs, by simp only [RawRejects, hpost, hcreate, hs], ?_⟩
            intro p hp
            obtain ⟨errs', hv', he⟩ := validate_error_of_violation pf st.players _ p hp
            rw [hv] at hv'
            cases hv'
            exact he
          · exact Or.inl ⟨doc, by simp only [hpost, hcreate, hs]⟩

/-- C8 (amended), on a body with the map `Moon`, the duration 500 and no team:
the team count is what the response reports. -/
theorem first_failing_check_reported_witness :
    RawRejects strictPlatform fourPlayers
      (.obj [("mapPlayed", .str "Moon"), ("gameDuration", .num 500), ("numberOfPlayers", .num 4),
        ("teams", .arr [])])
      (.error "At least 2 teams required") :=
  ((first_failing_check_reported strictPlatform fourPlayers
      (.obj [("mapPlayed", .str "Moon"), ("gameDuration", .num 500), ("numberOfPlayers", .num 4),
        ("teams", .arr [])])
      (by decide)).2 [] rfl).1 (by decide)

/-- C9: the nickname-resolving route stores a session with a single team entry
and answers 201, while the raw-team route rejects a single team with `At least 2
teams required`. -/
theorem single_team_session_is_saved :
    SessionRoutes.post strictPlatform orderedRun fourPlayers
        (.obj [("teams", .arr [nickTeam "Solo" ["a", "b"]])])
      = ({ fourPlayers with
            sessions := [{ mapPlayed := "Desert", gameDuration := 30, numberOfPlayers := 2
                           teams := [{ name := "Solo", players := [1, 2], score := 0 }] }] },
          { status := 201
            body := .created { mapPlayed := "Desert", gameDuration := 30, numberOfPlayers := 2
                               teams := [{ name := "Solo", players := [1, 2], score := 0 }] } })
    ∧ GameSessionRoutes.post strictPlatform fourPlayers
        (desertBody (.arr [.obj [("name", .str "Solo"), ("score", .num 3)]]))
      = (fourPlayers, { status := 400, body := .failure (.error "At least 2 teams required") }) := by
  decide

/-- C10: in the raw-team route, when the body lacks at least one of the keys
`mapPlayed`, `gameDuration`, `teams`, `numberOfPlayers`, the response is 400 with
`success: false` and the error `Missing required fields: ` followed by the
absent keys, in that order, separated by `, `, and the store is left as it was.
When the body has all four keys, the error of the response never starts with
`Missing required fields: `. -/
theorem missing_fields_reported (pf : Platform) (st : Store) (body : JVal) :
    (["mapPlayed", "gameDuration", "teams", "numberOfPlayers"].filter
          (fun key => (body.get key).isNone) ≠ [] →
      GameSessionRoutes.post pf st body
        = (st, { status := 400
                 body := .failure (.error ("Missing required fields: "
                   ++ ", ".intercalate (["mapPlayed", "gameDuration", "teams", "numberOfPlayers"].filter
                     fun key => (body.get key).isNone))) }))
    ∧ ((∀ key ∈ ["mapPlayed", "gameDuration", "teams", "numberOfPlayers"], (body.get key).isSome) →
      ∀ text, (GameSessionRoutes.post pf st body).2.body
        ≠ .failure (.error ("Missing required fields: " ++ text))) := by
  have hfilter : GameSessionRoutes.missingFields body
      = ["mapPlayed", "gameDuration", "teams", "numberOfPlayers"].filter
          (fun key => (body.get key).isNone) := by
    simp only [GameSessionRoutes.missingFields, GameSessionRoutes.requiredFields, JVal.hasKey]
    congr 1
    funext key
    cases body.get key <;> rfl
  constructor
  · intro hne
    have hpos : (["mapPlayed", "gameDuration", "teams", "numberOfPlayers"].filter
        (fun key => (body.get key).isNone)).length > 0 := List.length_pos.2 hne
    simp only [GameSessionRoutes.post, hfilter, hpos, if_true]
  · intro hall text
    have hnil : GameSessionRoutes.missingFields body = [] := by
      rw [hfilter, List.filter_eq_nil_iff]
      intro key hkey
      have := hall key hkey
      cases hk : body.get key <;> simp_all
    simp only [GameSessionRoutes.post, hnil, List.length_nil, gt_iff_lt, Nat.lt_irrefl, if_false]
    cases hc : GameSessionRoutes.create pf st body with
    | ok r => simp
    | error err =>
      simp only [Body.failure.injEq, ne_eq]
      rcases create_error pf st body err hc with ⟨errs, rfl⟩ | ⟨msg, rfl, hmsg⟩
      · simp
      · intro heq
        cases heq
        exact hmsg (head_missing text)

/-- C10, on a body holding only `gameDuration`: the error lists `mapPlayed`,
`teams` and `numberOfPlayers`, in that order. -/
theorem missing_fields_reported_witness :
    GameSessionRoutes.post strictPlatform fourPlayers (.obj [("gameDuration", .num 30)])
      = (fourPlayers, { status := 400
                        body := .failure (.error
                          "Missing required fields: mapPlayed, teams, numberOfPlayers") }) :=
  (missing_fields_reported strictPlatform fourPlayers (.obj [("gameDuration", .num 30)])).1
    (by decide)

theorem checkTeamShape_unnamed (index : Nat) (team : JVal) (h : ¬ NamedTeam team) :
    GameSessionRoutes.checkTeamShape index team
      = .error (.error (if team.isObject then s!"Team {index + 1} must have a string 'name' property"
          else s!"Team {index + 1} must be an object")) := by
  cases hs : GameSessionRoutes.checkTeamShape index team with
  | ok u => exact absurd ((checkTeamShape_ok_iff index team).1 hs) h
  | error err =>
    unfold GameSessionRoutes.checkTeamShape at hs
    repeat' split at hs
    all_goals cases hs
    all_goals first
      | rfl
      | (rename_i hobj harr
         cases team <;> first | rfl | exact absurd rfl (hobj _) | exact absurd rfl (harr _))

theorem checkTeamShapes_first :
    ∀ (teams : List JVal) (k index : Nat) (team : JVal),
      teams[index]? = some team → ¬ NamedTeam team →
      (∀ j t, j < index → teams[j]? = some t → NamedTeam t) →
      GameSessionRoutes.checkTeamShapes k teams
        = GameSessionRoutes.checkTeamShape (k + index) team := by
  intro teams
  induction teams with
  | nil => intro k index team h; simp at h
  | cons t ts ih =>
    intro k index team hget hbad hbefore
    cases index with
    | zero =>
      simp only [List.getElem?_cons_zero, Option.some.injEq] at hget
      subst hget
      simp only [GameSessionRoutes.checkTeamShapes, Nat.add_zero, checkTeamShape_unnamed k t hbad]
    | succ i =>
      have ht : NamedTeam t := hbefore 0 t (Nat.succ_pos _) (by simp)
      simp only [List.getElem?_cons_succ] at hget
      simp only [GameSessionRoutes.checkTeamShapes, (checkTeamShape_ok_iff k t).2 ht]
      rw [ih (k + 1) i team hget hbad
        (fun j t' hj hjt => hbefore (j + 1) t' (Nat.succ_lt_succ hj) (by simpa using hjt))]
      congr 1
      omega

theorem rawRejects_of_create_error (pf : Platform) (st : Store) (body : JVal) (err : Failure)
    (hnil : GameSessionRoutes.missingFields body = [])
    (h : GameSessionRoutes.create pf st body = .error err) : RawRejects pf st body err := by
  simp only [RawRejects, GameSessionRoutes.post, hnil, List.length_nil, gt_iff_lt, Nat.lt_irrefl,
    if_false, h]

/-- C11: in the raw-team route, for a body holding all four keys, a `teams` value
that is not an array, has fewer than 2 entries, or holds an entry that is not an
object or has no non-empty string name is answered 400 with `success: false`,
and the store is left as it was. When the array has at least 2 entries the
error names the first offending team by its position counted from 1: `must be
an object` for an entry that is not an object, `must have a string 'name'
property` otherwise. -/
theorem malformed_teams_rejected (pf : Platform) (st : Store) (body : JVal)
    (hkeys : ∀ key ∈ ["mapPlayed", "gameDuration", "teams", "numberOfPlayers"],
      (body.get key).isSome) :
    ((∀ teams, body.get "teams" ≠ some (.arr teams)) →
      RawRejects pf st body (.error "Teams must be an array"))
    ∧ ∀ teams, body.get "teams" = some (.arr teams) →
      (teams.length < 2 → RawRejects pf st body (.error "At least 2 teams required"))
      ∧ ∀ index team, 2 ≤ teams.length → teams[index]? = some team → ¬ NamedTeam team →
        (∀ j t, j < index → teams[j]? = some t → NamedTeam t) →
        RawRejects pf st body
          (.error (if team.isObject then s!"Team {index + 1} must have a string 'name' property"
            else s!"Team {index + 1} must be an object")) := by
  have hnil : GameSessionRoutes.missingFields body = [] := by
    simp only [GameSessionRoutes.missingFields, GameSessionRoutes.requiredFields, JVal.hasKey,
      List.filter_eq_nil_iff]
    intro key hkey
    simp [hkeys key hkey]
  have hpost : ∀ err, GameSessionRoutes.create pf st body = .error err →
      RawRejects pf st body err := fun err h => rawRejects_of_create_error pf st body err hnil h
  refine ⟨?_, ?_⟩
  · intro harr
    have hcreate : GameSessionRoutes.create pf st body = .error (.error "Teams must be an array") := by
      unfold GameSessionRoutes.create
      split
      · rename_i teams h
        exact absurd h (harr teams)
      · rfl
    exact hpost _ hcreate
  · intro teams hteams
    refine ⟨?_, ?_⟩
    · intro hlen
      exact hpost _ (by simp only [GameSessionRoutes.create, hteams, hlen, if_true])
    · intro index team hlen hget hbad hbefore
      have hshapes := checkTeamShapes_first teams 0 index team hget hbad hbefore
      rw [checkTeamShape_unnamed _ team hbad, Nat.zero_add] at hshapes
      exact hpost _ (by
        simp only [GameSessionRoutes.create, hteams, Nat.not_lt.2 hlen, if_false, hshapes])

/-- C11, on a body whose second team is the number 7 and whose third has no
name: the error names team 2. -/
theorem malformed_teams_rejected_witness :
    RawRejects strictPlatform fourPlayers
      (desertBody (.arr [.obj [("name", .str "Red")], .num 7, .obj [("score", .num 1)]]))
      (.error "Team 2 must be an object") :=
  ((malformed_teams_rejected strictPlatform fourPlayers
      (desertBody (.arr [.obj [("name", .str "Red")], .num 7, .obj [("score", .num 1)]]))
      (by decide)).2 [.obj [("name", .str "Red")], .num 7, .obj [("score", .num 1)]] rfl).2
    1 (.num 7) (by decide) rfl
    (by rintro ⟨name, h, _⟩; simp [JVal.get] at h)
    (by
      intro j t hj hjt
      have hj0 : j = 0 := by omega
      subst hj0
      simp only [List.getElem?_cons_zero, Option.some.injEq] at hjt
      subst hjt
      exact ⟨"Red", rfl, by decide⟩)

theorem post_of_not_array (pf : Platform) (run : Run) (st : Store) (body : JVal)
    (h : ∀ teams, body.get "teams" ≠ some (.arr teams)) :
    SessionRoutes.post pf run st body
      = (st, { status := 400, body := .errorOnly "Teams array is required" }) := by
  unfold SessionRoutes.post
  split
  · rename_i teams hteams
    exact absurd hteams (h teams)
  · rfl

/-- C12 (as stated, refuted): a request without `teams`, and one whose `teams` is
a string, are answered with status 400 and a body that carries `error` alone. -/
theorem missing_teams_answered_400 :
    SessionRoutes.post strictPlatform orderedRun fourPlayers (.obj [("mapPlayed", .str "Desert")])
      = (fourPlayers, { status := 400, body := .errorOnly "Teams array is required" })
    ∧ SessionRoutes.post strictPlatform orderedRun fourPlayers (.obj [("teams", .str "Red,Blue")])
      = (fourPlayers, { status := 400, body := .errorOnly "Teams array is required" }) := by
  decide

/-- C12 (amended): in the nickname-resolving route, a request whose `teams` is an
array fails with status 500 and a body carrying `error` and `details` when a
team has no players array or when a submitted nickname matches no player; a
request whose `teams` is missing or is not an array is answered with status 400
and the body `{ error: 'Teams array is required' }`. The store is left as it
was in all these cases. -/
theorem resolution_failures_answered_500 (pf : Platform) (run : Run) (st : Store) (body : JVal) :
    ((∀ teams, body.get "teams" ≠ some (.arr teams)) →
      SessionRoutes.post pf run st body
        = (st, { status := 400, body := .errorOnly "Teams array is required" }))
    ∧ ∀ teams, body.get "teams" = some (.arr teams) →
      ((∃ team ∈ teams, ∀ ns, team.get "players" ≠ some (.arr ns))
        ∨ ∃ team ∈ teams, ∃ ns, team.get "players" = some (.arr ns)
          ∧ ∃ n ∈ ns, findOne pf st.players n = none) →
      ∃ err, SessionRoutes.post pf run st body
        = (st, { status := 500, body := .errorDetails err }) := by
  refine ⟨post_of_not_array pf run st body, ?_⟩
  intro teams hteams hfail
  cases hd : firstDefect teams with
  | some err => exact ⟨err, post_of_firstDefect pf run st body teams err hteams hd⟩
  | none =>
    rcases hfail with ⟨team, hteam, hmissing⟩ | ⟨team, hteam, ns, hns, n, hn, hnone⟩
    · obtain ⟨ns, hns⟩ := players_of_firstDefect_eq_none teams hd team hteam
      exact absurd hns (hmissing ns)
    · have hissued : n ∈ issued teams :=
        (mem_issued teams n).2 ⟨team, hteam, by rw [nicknamesOf_of_players team ns hns]; exact hn⟩
      cases he : earliest (fun kn => run.answeredAt kn.1) (unresolved pf st.players teams) with
      | none =>
        exact absurd ((earliest_eq_none _ _).1 he)
          (unresolved_ne_nil pf st.players teams n hissued hnone)
      | some kn => exact ⟨_, post_of_unresolved pf run st body teams kn hteams hd he⟩

/-- C12 (amended), on a request whose only team is `null`. -/
theorem resolution_failures_answered_500_witness :
    ∃ err, SessionRoutes.post strictPlatform orderedRun fourPlayers (.obj [("teams", .arr [.null])])
      = (fourPlayers, { status := 500, body := .errorDetails err }) :=
  (resolution_failures_answered_500 strictPlatform orderedRun fourPlayers
      (.obj [("teams", .arr [.null])])).2 [.null] rfl
    (Or.inl ⟨.null, by simp, by intro ns; simp [JVal.get]⟩)

theorem fractionDigits36_lt (den : Nat) :
    ∀ (fuel a : Nat), a < den → ∀ d ∈ fractionDigits36 den fuel a, d < 36 := by
  intro fuel
  induction fuel with
  | zero => intro a _ d hd; simp [fractionDigits36] at hd
  | succ fuel ih =>
    intro a ha d hd
    have hden : 0 < den := Nat.lt_of_le_of_lt (Nat.zero_le _) ha
    simp only [fractionDigits36] at hd
    split at hd
    · cases hd
    · rcases List.mem_cons.1 hd with rfl | hd
      · exact (Nat.div_lt_iff_lt_mul hden).2 (by nlinarith)
      · exact ih (a * 36 % den) (Nat.mod_lt _ hden) d hd

theorem isBase36_digitChar : ∀ d, d < 36 → isBase36 (digitChar d) = true := by decide

theorem toString36_isText36 (k : Nat) (hk : k < 2 ^ 53) :
    IsText36 (toString36 k) ((fractionDigits36 (2 ^ 53) 27 k).map digitChar) := by
  constructor
  · intro c hc
    obtain ⟨d, hd, rfl⟩ := List.mem_map.1 hc
    exact isBase36_digitChar d (fractionDigits36_lt _ 27 k hk d hd)
  · by_cases h0 : k = 0
    · left
      subst h0
      exact ⟨rfl, rfl⟩
    · right
      refine ⟨?_, by simp [toString36, h0]⟩
      simp [fractionDigits36, h0]

theorem randomSuffix_of_text (run : Run) (i : Nat) (digits : List Char)
    (htext : IsText36 (run.random36 i) digits) :
    randomSuffix run i = String.mk (digits.take 3) := by
  rcases htext.2 with ⟨hd, ht⟩ | ⟨-, ht⟩
  · simp [randomSuffix, ht, hd]
  · have hdata : ("0." ++ String.mk digits).data = '0' :: '.' :: digits := by
      simp [String.data_append]
    simp only [randomSuffix, ht, hdata, List.drop_succ_cons, List.drop_zero]

/-- C13 (as stated, refuted): for the draw 0 the text is `0` and the synthesized
name is `Team ` with no character after it; for the draw 1/2 the text is `0.i`
and the name is `Team i`. -/
theorem synthesized_name_can_be_short :
    (resolvedTeam strictPlatform (drawRun 0) fourPlayers.players 0
        (.obj [("players", .arr [.str "a"])])).name = some (.str "Team ")
    ∧ (resolvedTeam strictPlatform (drawRun (2 ^ 52)) fourPlayers.players 0
        (.obj [("players", .arr [.str "a"])])).name = some (.str "Team i") := by
  constructor <;> rfl

/-- C13 (amended): in the nickname-resolving route, for every team submitted
without a name and every base-36 text of the draw, `0` or `0.` followed by
digits of `[0-9a-z]`, the synthesized team name is `Team ` followed by the
first 3 digits after the point: exactly 3 characters, each in `[0-9a-z]`, when
the text has at least 3 digits after the point, and all its digits, fewer than
3, when it has fewer. -/
theorem synthesized_name_shape (pf : Platform) (run : Run) (players : List Player) (i : Nat)
    (team : JVal) (digits : List Char) (hname : team.get "name" = none)
    (htext : IsText36 (run.random36 i) digits) :
    (resolvedTeam pf run players i team).name
        = some (.str ("Team " ++ String.mk (digits.take 3)))
      ∧ (3 ≤ digits.length → (String.mk (digits.take 3)).length = 3)
      ∧ (digits.length < 3 → String.mk (digits.take 3) = String.mk digits
          ∧ (String.mk (digits.take 3)).length = digits.length)
      ∧ ∀ c ∈ (String.mk (digits.take 3)).data, isBase36 c = true := by
  refine ⟨?_, ?_, ?_, ?_⟩
  · simp [resolvedTeam, hname, orElse, randomSuffix_of_text run i digits htext]
  · intro h3
    simp only [String.length, List.length_take]
    omega
  · intro hlt
    rw [List.take_of_length_le (by omega)]
    exact ⟨rfl, rfl⟩
  · intro c hc
    exact htext.1 c (List.mem_of_mem_take hc)

/-- C13 (amended), for the text `0.4fzyo82mvyr`: the name is `Team 4fz`. -/
theorem synthesized_name_shape_witness :
    IsText36 (orderedRun.random36 1) "4fzyo82mvyr".data
    ∧ (resolvedTeam strictPlatform orderedRun fourPlayers.players 1
        (.obj [("players", .arr [.str "a"])])).name
        = some (.str ("Team " ++ String.mk ("4fzyo82mvyr".data.take 3)))
    ∧ "Team " ++ String.mk ("4fzyo82mvyr".data.take 3) = "Team 4fz"
    ∧ (String.mk ("4fzyo82mvyr".data.take 3)).length = 3 :=
  ⟨⟨by decide, Or.inr ⟨by decide, rfl⟩⟩,
    (synthesized_name_shape strictPlatform orderedRun fourPlayers.players 1
      (.obj [("players", .arr [.str "a"])]) "4fzyo82mvyr".data rfl
      ⟨by decide, Or.inr ⟨by decide, rfl⟩⟩).1,
    by decide,
    (synthesized_name_shape strictPlatform orderedRun fourPlayers.players 1
      (.obj [("players", .arr [.str "a"])]) "4fzyo82mvyr".data rfl
      ⟨by decide, Or.inr ⟨by decide, rfl⟩⟩).2.1 (by decide)⟩

theorem scaleOf_spec (k d : Nat) :
    ∀ (fuel s : Nat), d * 2 ^ 52 ≤ k * 2 ^ (s + fuel) →
      d * 2 ^ 52 ≤ k * 2 ^ scaleOf k d fuel s := by
  intro fuel
  induction fuel with
  | zero => intro s h; simpa [scaleOf] using h
  | succ fuel ih =>
    intro s h
    simp only [scaleOf]
    split
    · assumption
    · exact ih (s + 1) (by rwa [Nat.add_assoc, Nat.add_comm 1 fuel])

theorem roundedQuotient_near (n d : Nat) (hd : 0 < d) :
    2 * |(((if d < 2 * (n % d) ∨ (2 * (n % d) = d ∧ n / d % 2 = 1) then n / d + 1 else n / d : Nat) : ℤ))
        * d - n| ≤ d := by
  have hmod : n % d < d := Nat.mod_lt _ hd
  have hdiv : n = n / d * d + n % d := by
    have := Nat.div_add_mod n d
    rw [Nat.mul_comm] at this
    exact this.symm
  generalize n / d = q at hdiv ⊢
  generalize n % d = r at hdiv hmod ⊢
  have hn : (n : ℤ) = q * d + r := by exact_mod_cast hdiv
  split
  · rename_i h
    have h' : d ≤ 2 * r := by rcases h with h | h <;> omega
    simp only [Nat.cast_add, Nat.cast_one]
    rcases abs_cases (((q : ℤ) + 1) * d - (n : ℤ)) with ⟨ha, _⟩ | ⟨ha, _⟩ <;> rw [ha] <;>
      nlinarith
  · rename_i h
    have h' : 2 * r ≤ d := by
      by_contra hc
      exact h (Or.inl (by omega))
    rcases abs_cases ((q : ℤ) * d - (n : ℤ)) with ⟨ha, _⟩ | ⟨ha, _⟩ <;> rw [ha] <;>
      nlinarith

theorem nearest_hundredth (k d m n P : ℤ) (hP : 100 * d < P)
    (h1 : 2 * |m * d - k * P| ≤ d) (h2 : 2 * P * n ≤ 200 * m + P)
    (h3 : 200 * m + P < 2 * P * n + 2 * P) : 2 * |n * d - 100 * k| ≤ d := by
  have hd : 0 ≤ d := le_trans (by positivity) h1
  have hP0 : 0 < P := by linarith
  by_contra hc
  push_neg at hc
  have hF : d + 1 ≤ 2 * |n * d - 100 * k| := by omega
  have hsplit : (n * d - 100 * k) * P = d * (n * P - 100 * m) + 100 * (m * d - k * P) := by ring
  have hA : 2 * |n * P - 100 * m| ≤ P := by
    rcases abs_cases (n * P - 100 * m) with ⟨ha, _⟩ | ⟨ha, _⟩ <;> rw [ha] <;> nlinarith
  have hFP : 2 * |(n * d - 100 * k) * P| ≤ d * P + 100 * d := by
    rw [hsplit]
    calc 2 * |d * (n * P - 100 * m) + 100 * (m * d - k * P)|
        ≤ 2 * (|d * (n * P - 100 * m)| + |100 * (m * d - k * P)|) := by
          have := abs_add (d * (n * P - 100 * m)) (100 * (m * d - k * P))
          linarith
      _ = d * (2 * |n * P - 100 * m|) + 100 * (2 * |m * d - k * P|) := by
          rw [abs_mul, abs_mul, abs_of_nonneg hd, abs_of_nonneg (by norm_num : (0:ℤ) ≤ 100)]
          ring
      _ ≤ d * P + 100 * d := by nlinarith
  rw [abs_mul, abs_of_pos hP0] at hFP
  nlinarith

theorem toFixed2_near (k d : Nat) (hk : k < 2 ^ 45) (hd : 0 < d) (hd' : d < 2 ^ 53) :
    2 * |(toFixed2 k d : ℤ) * d - 100 * k| ≤ d := by
  rcases Nat.eq_zero_or_pos k with rfl | hkpos
  · have hq : ∀ s, 0 * 2 ^ s / d = 0 := by intro s; simp
    have hr : ∀ s, 0 * 2 ^ s % d = 0 := by intro s; simp
    have hm : (divDouble 0 d).1 = 0 := by
      simp only [divDouble, hq, hr]
      simp
    have : toFixed2 0 d = 0 := by
      simp only [toFixed2, hm, Nat.mul_zero, Nat.zero_add]
      exact Nat.div_eq_of_lt (by have := Nat.pos_pow_of_pos (divDouble 0 d).2 (by norm_num : 0 < 2); omega)
    simp [this]
  · set s := scaleOf k d 106 0 with hs
    have hscale : d * 2 ^ 52 ≤ k * 2 ^ s := by
      apply scaleOf_spec
      have h1 : d * 2 ^ 52 ≤ 2 ^ 53 * 2 ^ 52 := Nat.mul_le_mul_right _ (le_of_lt hd')
      have h2 : (1 : Nat) * 2 ^ (0 + 106) ≤ k * 2 ^ (0 + 106) := Nat.mul_le_mul_right _ hkpos
      have h3 : (2 : Nat) ^ 53 * 2 ^ 52 ≤ 1 * 2 ^ (0 + 106) := by norm_num
      omega
    have hPpos : 0 < 2 ^ s := Nat.pos_pow_of_pos s (by norm_num)
    have hP : 100 * d < 2 ^ s := by
      have h1 : k * 2 ^ s ≤ (2 ^ 45 - 1) * 2 ^ s := Nat.mul_le_mul_right _ (by omega)
      have h2 : (2 : Nat) ^ 52 = 2 ^ 45 * 128 := by norm_num
      have h3 : (2 : Nat) ^ 45 - 1 < 2 ^ 45 := by norm_num
      nlinarith
    have hm : (divDouble k d).1
        = if d < 2 * (k * 2 ^ s % d) ∨ (2 * (k * 2 ^ s % d) = d ∧ k * 2 ^ s / d % 2 = 1)
          then k * 2 ^ s / d + 1 else k * 2 ^ s / d := rfl
    have h2nd : (divDouble k d).2 = s := rfl
    have hround := roundedQuotient_near (k * 2 ^ s) d hd
    rw [← hm] at hround
    have hfloor1 : 2 * 2 ^ s * toFixed2 k d ≤ 200 * (divDouble k d).1 + 2 ^ s := by
      simp only [toFixed2, h2nd]
      exact Nat.mul_div_le _ _
    have hfloor2 : 200 * (divDouble k d).1 + 2 ^ s < 2 * 2 ^ s * toFixed2 k d + 2 * 2 ^ s := by
      simp only [toFixed2, h2nd]
      have := Nat.lt_mul_div_succ (200 * (divDouble k d).1 + 2 ^ s) (by omega : 0 < 2 * 2 ^ s)
      nlinarith
    refine nearest_hundredth k d (divDouble k d).1 (toFixed2 k d) ((2 ^ s : Nat) : ℤ)
      (by exact_mod_cast hP) ?_ (by exact_mod_cast hfloor1) (by exact_mod_cast hfloor2)
    have : ((k * 2 ^ s : Nat) : ℤ) = (k : ℤ) * ((2 ^ s : Nat) : ℤ) := by push_cast; ring
    rw [← this]
    exact hround

theorem score_near (kills deaths : Nat) (hk : kills < 2 ^ 45) (hd : 0 < deaths)
    (hd' : deaths < 2 ^ 53) :
    |((toFixed2 kills deaths : Nat) : ℚ) / 100 - (kills : ℚ) / deaths| ≤ 1 / 200 := by
  have h := toFixed2_near kills deaths hk hd hd'
  have hq : 2 * |((toFixed2 kills deaths : Nat) : ℚ) * deaths - 100 * kills| ≤ deaths := by
    exact_mod_cast h
  have hdq : (0 : ℚ) < deaths := by exact_mod_cast hd
  have heq : ((toFixed2 kills deaths : Nat) : ℚ) / 100 - (kills : ℚ) / deaths
      = (((toFixed2 kills deaths : Nat) : ℚ) * deaths - 100 * kills) / (100 * deaths) := by
    field_simp
  rw [heq, abs_div, abs_of_pos (by positivity : (0 : ℚ) < 100 * deaths),
    div_le_div_iff₀ (by positivity) (by norm_num)]
  linarith

/-- C14 (as stated, refuted): 201 kills and 200 deaths give the score 1, although
201/200 = 1.005 rounds to 1.01 (the double nearest to 1.005 lies below it); 1
kill and 8 deaths give 0.13 for 0.125, so halves are rounded neither always up
nor always down or to the even digit. -/
theorem score_of_halves :
    score 201 200 = 1 ∧ roundHalfUp2 201 200 = 101 ∧ score 1 8 = 13 / 100 := by
  refine ⟨?_, by decide, ?_⟩
  · simp [score, parseFloatFixed, show toFixed2 201 200 = 100 from by decide]
  · simp [score, parseFloatFixed, show toFixed2 1 8 = 13 from by decide]

/-- C14 (amended): for integers `kills` below 2 ^ 43 and `deaths` below 2 ^ 53, the
score is `kills` when `deaths` is 0, and otherwise a number of hundredths within
0.005 of `kills / deaths`: the quotient rounded to 2 decimals, where a quotient
halfway between two hundredths goes to one of the two. In particular
`score(0,0) = 0`, `score(10,0) = 10` and `score(10,4) = 2.5`. -/
theorem score_is_rounded_quotient (kills deaths : Nat) (hk : kills < 2 ^ 43)
    (hd : deaths < 2 ^ 53) :
    (deaths = 0 → score kills deaths = kills)
    ∧ (0 < deaths → ∃ n : Nat, score kills deaths = (n : ℚ) / 100
        ∧ |(n : ℚ) / 100 - (kills : ℚ) / deaths| ≤ 1 / 200)
    ∧ score 0 0 = 0 ∧ score 10 0 = 10 ∧ score 10 4 = 5 / 2 := by
  refine ⟨?_, ?_, by simp [score], by simp [score], ?_⟩
  · rintro rfl
    simp [score]
  · intro hpos
    refine ⟨toFixed2 kills deaths, by simp [score, hpos, parseFloatFixed], ?_⟩
    exact score_near kills deaths (lt_trans hk (by norm_num)) hpos hd
  · simp [score, parseFloatFixed, show toFixed2 10 4 = 250 from by decide]
    norm_num

/-- C14 (amended), for 2 kills and 3 deaths: the score is 0.67. -/
theorem score_is_rounded_quotient_witness :
    ∃ n : Nat, score 2 3 = (n : ℚ) / 100 ∧ |(n : ℚ) / 100 - ((2 : Nat) : ℚ) / (3 : Nat)| ≤ 1 / 200 :=
  (score_is_rounded_quotient 2 3 (by decide) (by decide)).2.1 (by decide)

theorem orZero_eq_getD (v : Option Nat) : orZero v = v.getD 0 := by
  cases v with
  | none => rfl
  | some n =>
    simp only [orZero, Option.getD_some]
    split
    · rfl
    · rename_i h
      exact (not_not.1 h).symm

/-- C15: the virtual `score` of the player schema and the score computed by
`GET /players/:nickname/score` agree for all integer `kills` and `deaths`, and
also when the stored document lacks one of them or both: the virtual reads the
schema default 0, the route replaces the missing value by 0. -/
theorem virtual_score_matches_route (kills deaths : Option Nat) :
    virtualScore kills deaths = routeScore kills deaths
    ∧ (∀ k d : Nat, virtualScore (some k) (some d) = score k d
        ∧ routeScore (some k) (some d) = score k d)
    ∧ virtualScore none deaths = virtualScore (some 0) deaths
    ∧ routeScore none deaths = routeScore (some 0) deaths
    ∧ virtualScore kills none = virtualScore kills (some 0)
    ∧ routeScore kills none = routeScore kills (some 0) := by
  have h : ∀ k d : Option Nat, routeScore k d = score (k.getD 0) (d.getD 0) := by
    intro k d
    simp only [routeScore, score, orZero_eq_getD]
  refine ⟨(h kills deaths).symm, fun k d => ⟨rfl, h (some k) (some d)⟩, rfl, ?_, rfl, ?_⟩
  · rw [h, h]
    rfl
  · rw [h, h]
    rfl

/-! ## Properties of the player routes -/

open Players

theorem validatePlayer_nickname (pf : TextPlatform) (body : JVal) (d : Draft) (s : String)
    (hvalid : validatePlayer pf body = .ok d) (hnick : body.get "nickname" = some (.str s)) :
    d.nickname = jsTrim s := by
  have hcast : castWith pf.castString (some (JVal.str s)) = .value s := by
    simp only [castWith, pf.castString_str]
  simp only [validatePlayer, hnick] at hvalid
  split at hvalid
  · rename_i a b c e f g h i j k l hn _ _ _ _ _ _ _ _ _ _
    simp only [checkText, hcast] at hn
    split at hn
    · cases hn
    · split at hn
      · cases hn
      · cases hn
        cases hvalid
        rfl
  · cases hvalid

theorem findOne_none_of_free (pf : Platform) (players : List Player) (s : String)
    (htrim : jsTrim s = s) (h : ∀ p ∈ players, p.nickname ≠ s) :
    findOne pf players (.str s) = none := by
  simp only [findOne, List.find?_eq_none]
  intro p hp
  simp [pf.nicknameMatches_str s p.nickname htrim, h p hp]

theorem findOne_isSome_of_mem (pf : Platform) (players : List Player) (s : String)
    (htrim : jsTrim s = s) (h : ∃ p ∈ players, p.nickname = s) :
    (findOne pf players (.str s)).isSome = true := by
  obtain ⟨p, hp, hs⟩ := h
  simp only [findOne, List.find?_isSome]
  exact ⟨p, hp, by rw [pf.nicknameMatches_str s p.nickname htrim, hs]; simp⟩

theorem addPlayer_of_found (pf : TextPlatform) (st : Store) (body : JVal)
    (hreq : validateRequiredFields requiredToAdd body = none)
    (hfound : (findByBodyNickname pf.toPlatform st.players body).isSome = true) :
    addPlayer pf st body = (st, .codeMsg 409 2 "Nickname already exists") := by
  simp only [addPlayer, hreq, hfound, if_true]

theorem addPlayer_of_used_email (pf : TextPlatform) (st : Store) (body : JVal) (d : Draft)
    (hreq : validateRequiredFields requiredToAdd body = none)
    (hvalid : validatePlayer pf body = .ok d)
    (hlookup : findByBodyNickname pf.toPlatform st.players body = none)
    (hnick : ∀ p ∈ st.players, p.nickname ≠ d.nickname)
    (hemail : ∃ p ∈ st.players, p.email = d.email) :
    addPlayer pf st body = (st, .serverError (.duplicateKey "email")) := by
  have h1 : (st.players.any fun p => decide (p.nickname = d.nickname)) = false := by
    simp only [List.any_eq_false, decide_eq_true_eq]
    exact hnick
  have h2 : (st.players.any fun p => decide (p.email = d.email)) = true := by
    simp only [List.any_eq_true, decide_eq_true_eq]
    exact hemail
  simp [addPlayer, hreq, hlookup, hvalid, insertPlayer, h1, h2]

theorem addPlayer_of_free (pf : TextPlatform) (st : Store) (body : JVal) (d : Draft)
    (hreq : validateRequiredFields requiredToAdd body = none)
    (hvalid : validatePlayer pf body = .ok d)
    (hlookup : findByBodyNickname pf.toPlatform st.players body = none)
    (hnick : ∀ p ∈ st.players, p.nickname ≠ d.nickname)
    (hemail : ∀ p ∈ st.players, p.email ≠ d.email) :
    addPlayer pf st body =
      ({ st with players := st.players ++ [d.toPlayer (freshId st.players)] },
        .serverError (.notDefined "moment")) := by
  have h1 : (st.players.any fun p => decide (p.nickname = d.nickname)) = false := by
    simp only [List.any_eq_false, decide_eq_true_eq]
    exact hnick
  have h2 : (st.players.any fun p => decide (p.email = d.email)) = false := by
    simp only [List.any_eq_false, decide_eq_true_eq]
    exact hemail
  simp [addPlayer, hreq, hlookup, hvalid, insertPlayer, h1, h2, toJSON]

theorem validateRequiredFields_sent (fields : List String) (body : JVal) (sent : Reply)
    (h : validateRequiredFields fields body = some sent) :
    ∃ field, sent = .codeMsg 400 1 ("Missing required field: " ++ field) := by
  induction fields with
  | nil => cases h
  | cons field rest ih =>
    simp only [validateRequiredFields] at h
    split at h
    · cases h
      exact ⟨field, rfl⟩
    · exact ih h

theorem addPlayer_status (pf : TextPlatform) (st : Store) (body : JVal) :
    (addPlayer pf st body).2.status = 400 ∨ (addPlayer pf st body).2.status = 409
      ∨ (addPlayer pf st body).2.status = 500 := by
  unfold addPlayer
  split
  · rename_i sent hsent
    obtain ⟨field, rfl⟩ := validateRequiredFields_sent _ _ _ hsent
    exact Or.inl rfl
  · split
    · exact Or.inr (Or.inl rfl)
    · split
      · exact Or.inr (Or.inr rfl)
      · split
        · exact Or.inr (Or.inr rfl)
        · exact Or.inr (Or.inr rfl)

/-- C16: for a valid payload whose nickname is a string without surrounding white
space and a store that holds neither the nickname nor the stored form of the
email, the first `POST /players/add` stores the player and is then answered 500,
not 201: the response is serialised through the `toJSON` transform of the
schema, which throws `moment is not defined`. The second submission is answered
409 "Nickname already exists", and the store ends with exactly one player of
that nickname. No request to this route is answered 201. -/
theorem registration_answered_500_after_save (pf : TextPlatform) (st : Store) (body : JVal)
    (d : Draft) (s : String)
    (hreq : validateRequiredFields requiredToAdd body = none)
    (hvalid : validatePlayer pf body = .ok d)
    (hnick : body.get "nickname" = some (.str s)) (htrim : jsTrim s = s)
    (hfree : ∀ p ∈ st.players, p.nickname ≠ s ∧ p.email ≠ d.email) :
    (∃ player, player.nickname = s ∧
      addPlayer pf st body
        = ({ st with players := st.players ++ [player] }, .serverError (.notDefined "moment")) ∧
      (addPlayer pf st body).2.status = 500 ∧
      (addPlayer pf (addPlayer pf st body).1 body).2
        = .codeMsg 409 2 "Nickname already exists" ∧
      (addPlayer pf (addPlayer pf st body).1 body).2.status = 409 ∧
      withNickname (addPlayer pf (addPlayer pf st body).1 body).1 s = [player])
    ∧ ∀ (st' : Store) (body' : JVal), (addPlayer pf st' body').2.status ≠ 201 := by
  have hd : d.nickname = s := by rw [validatePlayer_nickname pf body d s hvalid hnick, htrim]
  have hlookup : findByBodyNickname pf.toPlatform st.players body = none := by
    simp only [findByBodyNickname, hnick]
    exact findOne_none_of_free _ _ _ htrim fun p hp => (hfree p hp).1
  have hfirst := addPlayer_of_free pf st body d hreq hvalid hlookup
    (fun p hp => hd ▸ (hfree p hp).1) (fun p hp => (hfree p hp).2)
  have hfound : (findByBodyNickname pf.toPlatform
      (st.players ++ [d.toPlayer (freshId st.players)]) body).isSome = true := by
    simp only [findByBodyNickname, hnick]
    exact findOne_isSome_of_mem _ _ _ htrim ⟨_, List.mem_append_right _ (List.mem_singleton_self _), hd⟩
  have hsecond := addPlayer_of_found pf
    { st with players := st.players ++ [d.toPlayer (freshId st.players)] } body hreq hfound
  refine ⟨⟨d.toPlayer (freshId st.players), hd, hfirst, ?_, ?_, ?_, ?_⟩, ?_⟩
  · rw [hfirst]; rfl
  · rw [hfirst, hsecond]
  · rw [hfirst, hsecond]; rfl
  · rw [hfirst, hsecond]
    have hnone : st.players.filter (fun p => decide (p.nickname = s)) = [] := by
      simp only [List.filter_eq_nil_iff, decide_eq_true_eq]
      exact fun p hp => (hfree p hp).1
    have hself : (d.toPlayer (freshId st.players)).nickname = s := hd
    simp [withNickname, List.filter_append, hnone, List.filter_cons, hself]
  · intro st' body'
    rcases addPlayer_status pf st' body' with h | h | h <;> rw [h] <;> decide

/-- C16, on a store holding `bob` alone: `alex` is stored under the identifier 2
and the first submission is answered 500, the second 409. -/
theorem registration_answered_500_after_save_witness :
    addPlayer strictTextPlatform (playersOnly [registered 1 "bob" "bob@example.com"])
        (playerBody "alex" "Alex@Example.com")
      = (playersOnly [registered 1 "bob" "bob@example.com", registered 2 "alex" "alex@example.com"],
          .serverError (.notDefined "moment"))
    ∧ (addPlayer strictTextPlatform
        (addPlayer strictTextPlatform (playersOnly [registered 1 "bob" "bob@example.com"])
          (playerBody "alex" "Alex@Example.com")).1 (playerBody "alex" "Alex@Example.com")).2
      = .codeMsg 409 2 "Nickname already exists"
    ∧ ∀ (st' : Store) (body' : JVal), (addPlayer strictTextPlatform st' body').2.status ≠ 201 :=
  ⟨by decide, by decide,
    (registration_answered_500_after_save strictTextPlatform
      (playersOnly [registered 1 "bob" "bob@example.com"]) (playerBody "alex" "Alex@Example.com")
      ⟨"alex", "Alex", "Martin", "alex@example.com", 20, "12345678", "Tunis", 0, 0, none, none⟩
      "alex" (by decide) (by rfl) (by rfl) (by decide) (by decide)).2⟩

/-- C17: a valid payload whose nickname is unused but whose email is that
of a stored player creates no player, and the duplicate key error of the unique
index on `email` is answered by `handleServerError` with status 500, where a
used nickname is answered 409. -/
theorem used_email_answered_500 (pf : TextPlatform) (st : Store) (body : JVal) (d : Draft)
    (hreq : validateRequiredFields requiredToAdd body = none)
    (hvalid : validatePlayer pf body = .ok d)
    (hlookup : findByBodyNickname pf.toPlatform st.players body = none)
    (hnick : ∀ p ∈ st.players, p.nickname ≠ d.nickname)
    (hemail : ∃ p ∈ st.players, p.email = d.email) :
    addPlayer pf st body = (st, .serverError (.duplicateKey "email")) ∧
      (addPlayer pf st body).2.status = 500 ∧
      (addPlayer pf st body).2.status ≠ 409 ∧ (addPlayer pf st body).2.status ≠ 400 := by
  rw [addPlayer_of_used_email pf st body d hreq hvalid hlookup hnick hemail]
  exact ⟨rfl, rfl, by simp [Reply.status], by simp [Reply.status]⟩

/-- C17, on a store in which `bob` holds the email of the payload of `alex`. -/
theorem used_email_answered_500_witness :
    addPlayer strictTextPlatform (playersOnly [registered 1 "bob" "alex@example.com"])
        (playerBody "alex" "Alex@Example.com")
      = (playersOnly [registered 1 "bob" "alex@example.com"],
          .serverError (.duplicateKey "email")) ∧
      (addPlayer strictTextPlatform (playersOnly [registered 1 "bob" "alex@example.com"])
        (playerBody "alex" "Alex@Example.com")).2.status = 500 ∧
      (addPlayer strictTextPlatform (playersOnly [registered 1 "bob" "alex@example.com"])
        (playerBody "alex" "Alex@Example.com")).2.status ≠ 409 ∧
      (addPlayer strictTextPlatform (playersOnly [registered 1 "bob" "alex@example.com"])
        (playerBody "alex" "Alex@Example.com")).2.status ≠ 400 :=
  used_email_answered_500 strictTextPlatform (playersOnly [registered 1 "bob" "alex@example.com"])
    (playerBody "alex" "Alex@Example.com")
    ⟨"alex", "Alex", "Martin", "alex@example.com", 20, "12345678", "Tunis", 0, 0, none, none⟩
    (by decide) (by rfl) (by decide) (by decide) (by decide)

theorem updateFirst_length {α : Type} (p : α → Bool) (f : α → α) (l : List α) :
    (updateFirst p f l).length = l.length := by
  induction l with
  | nil => rfl
  | cons x xs ih =>
    simp only [updateFirst]
    split
    · simp
    · simp [ih]

theorem updateFirst_map {α β : Type} (p : α → Bool) (f : α → α) (g : α → β)
    (hg : ∀ x, p x = true → g (f x) = g x) (l : List α) :
    (updateFirst p f l).map g = l.map g := by
  induction l with
  | nil => rfl
  | cons x xs ih =>
    simp only [updateFirst]
    split
    · rename_i hx
      simp [hg x hx]
    · simp [ih]

theorem updateFirst_of_find {α : Type} (p : α → Bool) (f : α → α) (l : List α) (x : α)
    (hx : l.find? p = some x) :
    ∃ before after, l = before ++ x :: after ∧ (∀ y ∈ before, p y = false) ∧
      updateFirst p f l = before ++ f x :: after := by
  induction l with
  | nil => simp at hx
  | cons y ys ih =>
    by_cases hy : p y = true
    · simp only [List.find?_cons, hy, Option.some.injEq] at hx
      subst hx
      exact ⟨[], ys, rfl, by simp, by simp [updateFirst, hy]⟩
    · simp only [List.find?_cons, hy] at hx
      obtain ⟨before, after, hl, hbefore, hup⟩ := ih hx
      refine ⟨y :: before, after, by simp [hl], ?_, by simp [updateFirst, hy, hup]⟩
      intro z hz
      rcases List.mem_cons.mp hz with rfl | hz
      · simpa using hy
      · exact hbefore z hz

theorem updateFirst_same {α : Type} (p : α → Bool) (c : α) (l : List α)
    (hc : l.find? p = some c) : updateFirst p (fun _ => c) l = l := by
  obtain ⟨before, after, hl, -, hup⟩ := updateFirst_of_find p (fun _ => c) l c hc
  rw [hup, ← hl]

theorem bindingOf_upsertBinding (bindings : List Binding) (h t n h' : String) :
    bindingOf (upsertBinding bindings h t n) h'
      = if h' = h then some ⟨some h, t, n⟩ else bindingOf bindings h' := by
  simp only [upsertBinding, bindingOf]
  induction bindings with
  | nil =>
    by_cases hh : h' = h
    · simp [hh]
    · have : ¬ h = h' := fun e => hh e.symm
      simp [hh, this]
  | cons b bs ih =>
    by_cases hb : b.headsetId = some h
    · by_cases hh : h' = h
      · simp [updateFirst, hb, hh]
      · have : ¬ h = h' := fun e => hh e.symm
        simp [updateFirst, hb, hh, this]
    · by_cases hany : (bs.any fun b => decide (b.headsetId = some h)) = true
      · simp only [hany, if_true] at ih
        by_cases hh : h' = h
        · simp only [hh, if_true] at ih
          simp [updateFirst, hb, hany, hh, ih]
        · simp only [hh, if_false] at ih
          simp [updateFirst, hb, hany, hh, ih, List.find?_cons]
      · simp only [hany] at ih
        by_cases hh : h' = h
        · simp only [hh, if_true] at ih
          simp only [Bool.false_eq_true, if_false] at ih
          simp [hb, hany, hh, List.find?_cons, ih]
        · simp only [hh, if_false, Bool.false_eq_true] at ih
          simp [hb, hany, hh, List.find?_cons, ih]

theorem upsertBinding_onePerHeadset (bindings : List Binding) (h t n : String)
    (hone : OnePerHeadset bindings) : OnePerHeadset (upsertBinding bindings h t n) := by
  unfold OnePerHeadset at *
  unfold upsertBinding
  split
  · rw [updateFirst_map]
    · exact hone
    · intro x hx
      exact (of_decide_eq_true hx).symm
  · rename_i hany
    rw [List.map_append, List.map_singleton]
    refine List.Nodup.append hone (List.nodup_singleton _) ?_
    simp only [List.disjoint_singleton]
    intro hmem
    apply hany
    obtain ⟨b, hb, hbh⟩ := List.mem_map.mp hmem
    simp only [List.any_eq_true, decide_eq_true_eq]
    exact ⟨b, hb, hbh⟩

theorem upsertBinding_of_bound (bindings : List Binding) (h t n : String)
    (hfind : bindingOf bindings h = some ⟨some h, t, n⟩) :
    upsertBinding bindings h t n = bindings := by
  simp only [bindingOf] at hfind
  have hany : (bindings.any fun b => decide (b.headsetId = some h)) = true := by
    have := congrArg Option.isSome hfind
    simpa [List.find?_isSome] using this
  unfold upsertBinding
  rw [if_pos hany]
  exact updateFirst_same _ _ _ hfind

theorem upsertBinding_again (bindings : List Binding) (h t n : String) :
    upsertBinding (upsertBinding bindings h t n) h t n = upsertBinding bindings h t n := by
  apply upsertBinding_of_bound
  rw [bindingOf_upsertBinding, if_pos rfl]

theorem assignNickname_of_assigned (pf : Platform) (st : Store) (body : JVal) (h t n : String)
    (hok : (assignNickname pf st body).2 = .assigned h t n) :
    ∃ player, validateRequiredFields requiredToAssign body = none ∧
      findByBodyNickname pf st.players body = some player ∧
      castField pf "headsetId" (body.get "headsetId") = .ok h ∧
      castField pf "TeamName" (body.get "TeamName") = .ok t ∧
      castField pf "nickname" (body.get "nickname") = .ok n ∧
      (assignNickname pf st body).1 =
        { st with
            bindings := upsertBinding st.bindings h t n
            players := updateFirst (fun p => p.id = player.id)
              (fun p => { p with headsetId := some h, teamName := some t }) st.players } := by
  unfold assignNickname at hok ⊢
  split at hok
  · rename_i sent hsent
    obtain ⟨field, rfl⟩ := validateRequiredFields_sent _ _ _ hsent
    cases hok
  · rename_i hreq
    split at hok
    · cases hok
    · rename_i player hplayer
      split at hok
      · rename_i h0 t0 n0 hh ht hn
        cases hok
        refine ⟨player, hreq, hplayer, hh, ht, hn, ?_⟩
        simp only [hreq, hplayer, hh, ht, hn]
      · cases hok
      · cases hok
      · cases hok

theorem find_updateFirst_isSome {α : Type} (p q : α → Bool) (f : α → α)
    (hq : ∀ x, q (f x) = q x) (l : List α) :
    ((updateFirst p f l).find? q).isSome = (l.find? q).isSome := by
  induction l with
  | nil => rfl
  | cons x xs ih =>
    simp only [updateFirst]
    split
    · by_cases hx : q x = true
      · simp [List.find?_cons, hq, hx]
      · simp [List.find?_cons, hq, hx]
    · by_cases hx : q x = true
      · simp [List.find?_cons, hx]
      · simp [List.find?_cons, hx, ih]

theorem assignNickname_of_found (pf : Platform) (st : Store) (body : JVal) (player : Player)
    (h t n : String)
    (hreq : validateRequiredFields requiredToAssign body = none)
    (hplayer : findByBodyNickname pf st.players body = some player)
    (hh : castField pf "headsetId" (body.get "headsetId") = .ok h)
    (ht : castField pf "TeamName" (body.get "TeamName") = .ok t)
    (hn : castField pf "nickname" (body.get "nickname") = .ok n) :
    assignNickname pf st body =
      ({ st with
          bindings := upsertBinding st.bindings h t n
          players := updateFirst (fun p => p.id = player.id)
            (fun p => { p with headsetId := some h, teamName := some t }) st.players },
        .assigned h t n) := by
  simp only [assignNickname, hreq, hplayer, hh, ht, hn]

theorem assignNickname_again (pf : Platform) (st : Store) (body : JVal) (h t n : String)
    (hok : (assignNickname pf st body).2 = .assigned h t n) :
    (assignNickname pf (assignNickname pf st body).1 body).2 = .assigned h t n ∧
      (assignNickname pf (assignNickname pf st body).1 body).1.bindings
        = (assignNickname pf st body).1.bindings := by
  obtain ⟨player, hreq, hplayer, hh, ht, hn, hst⟩ := assignNickname_of_assigned pf st body h t n hok
  have hsome : (findByBodyNickname pf (assignNickname pf st body).1.players body).isSome
      = true := by
    rw [hst]
    simp only [findByBodyNickname] at hplayer ⊢
    split
    · rename_i v hv
      simp only [hv] at hplayer
      simp only [findOne] at hplayer ⊢
      have key := find_updateFirst_isSome (fun p : Player => decide (p.id = player.id))
        (fun p : Player => pf.nicknameMatches v p.nickname)
        (fun p : Player => { p with headsetId := some h, teamName := some t })
        (fun _ => rfl) st.players
      rw [hplayer] at key
      exact key
    · rename_i hv
      simp [hv] at hplayer
  obtain ⟨player', hplayer'⟩ := Option.isSome_iff_exists.mp hsome
  rw [assignNickname_of_found pf _ body player' h t n hreq hplayer' hh ht hn]
  refine ⟨rfl, ?_⟩
  simp only [hst, upsertBinding_again]

theorem filter_of_find_nodup (bindings : List Binding) (h : String) (c : Binding)
    (hone : OnePerHeadset bindings) (hfind : bindingOf bindings h = some c) :
    (bindings.filter fun b => b.headsetId = some h) = [c] := by
  unfold OnePerHeadset at hone
  unfold bindingOf at hfind
  induction bindings with
  | nil => cases hfind
  | cons b bs ih =>
    rw [List.map_cons, List.nodup_cons] at hone
    by_cases hb : b.headsetId = some h
    · simp only [List.find?_cons, hb, decide_True, Option.some.injEq] at hfind
      subst hfind
      have hnone : bs.filter (fun x => decide (x.headsetId = some h)) = [] := by
        simp only [List.filter_eq_nil_iff, decide_eq_true_eq]
        intro x hx hxh
        exact hone.1 (List.mem_map.mpr ⟨x, hx, hxh.trans hb.symm⟩)
      simp [List.filter_cons, hb, hnone]
    · simp only [List.find?_cons, hb, decide_False] at hfind
      simp [List.filter_cons, hb, ih hone.2 hfind]

theorem assignAll_bindings (pf : Platform) (bodies : List JVal) :
    ∀ st : Store, OnePerHeadset st.bindings → AllAssigned (assignAll pf st bodies).2 →
      OnePerHeadset (assignAll pf st bodies).1.bindings ∧
      (∀ h t n, latestAssignment h (assignAll pf st bodies).2 = some (t, n) →
        bindingOf (assignAll pf st bodies).1.bindings h = some ⟨some h, t, n⟩) ∧
      (∀ h, latestAssignment h (assignAll pf st bodies).2 = none →
        bindingOf (assignAll pf st bodies).1.bindings h = bindingOf st.bindings h) := by
  induction bodies with
  | nil =>
    intro st hone _
    refine ⟨hone, ?_, fun _ _ => rfl⟩
    intro h t n hl
    simp [assignAll, latestAssignment] at hl
  | cons body rest ih =>
    intro st hone hok
    simp only [assignAll] at hok ⊢
    obtain ⟨h0, t0, n0, hr⟩ := hok _ (List.mem_cons_self _ _)
    obtain ⟨player, -, -, -, -, -, hst⟩ := assignNickname_of_assigned pf st body h0 t0 n0 hr
    have hb1 : (assignNickname pf st body).1.bindings = upsertBinding st.bindings h0 t0 n0 := by
      rw [hst]
    have hone1 : OnePerHeadset (assignNickname pf st body).1.bindings := by
      rw [hb1]
      exact upsertBinding_onePerHeadset _ _ _ _ hone
    obtain ⟨ih1, ih2, ih3⟩ := ih (assignNickname pf st body).1 hone1
      (fun r hr' => hok r (List.mem_cons_of_mem _ hr'))
    refine ⟨ih1, ?_, ?_⟩
    · intro h t n hl
      simp only [latestAssignment] at hl
      split at hl
      · rename_i found hfound
        cases hl
        exact ih2 h t n hfound
      · rename_i hnone
        rw [hr] at hl
        simp only at hl
        split at hl
        · rename_i hh
          cases hl
          rw [ih3 h hnone, hb1, bindingOf_upsertBinding, if_pos hh.symm, hh]
        · cases hl
    · intro h hl
      simp only [latestAssignment] at hl
      split at hl
      · cases hl
      · rename_i hnone
        rw [hr] at hl
        simp only at hl
        split at hl
        · cases hl
        · rename_i hh
          rw [ih3 h hnone, hb1, bindingOf_upsertBinding, if_neg (fun e => hh e.symm)]

/-- C18: from bindings with at most one record per headset id, a sequence
of successful `POST /teams/assign-nickname` requests leaves at most one record
per headset id, the only record of a headset assigned in the sequence holds the
team name and nickname of its latest assignment, the other headsets keep their
record, and a successful assignment sent again succeeds again without
changing the binding records or their number. -/
theorem one_binding_per_headset (pf : Platform) (st : Store) (bodies : List JVal)
    (hone : OnePerHeadset st.bindings) (hok : AllAssigned (assignAll pf st bodies).2) :
    OnePerHeadset (assignAll pf st bodies).1.bindings ∧
    (∀ h t n, latestAssignment h (assignAll pf st bodies).2 = some (t, n) →
      ((assignAll pf st bodies).1.bindings.filter fun b => b.headsetId = some h)
        = [⟨some h, t, n⟩]) ∧
    (∀ h, latestAssignment h (assignAll pf st bodies).2 = none →
      bindingOf (assignAll pf st bodies).1.bindings h = bindingOf st.bindings h) ∧
    (∀ body h t n, (assignNickname pf (assignAll pf st bodies).1 body).2 = .assigned h t n →
      (assignNickname pf (assignNickname pf (assignAll pf st bodies).1 body).1 body).2
        = .assigned h t n ∧
      (assignNickname pf (assignNickname pf (assignAll pf st bodies).1 body).1 body).1.bindings.length
        = (assignNickname pf (assignAll pf st bodies).1 body).1.bindings.length) := by
  obtain ⟨h1, h2, h3⟩ := assignAll_bindings pf bodies st hone hok
  refine ⟨h1, ?_, h3, ?_⟩
  · intro h t n hl
    exact filter_of_find_nodup _ h _ h1 (h2 h t n hl)
  · intro body h t n hr
    obtain ⟨ha, hb⟩ := assignNickname_again pf _ body h t n hr
    exact ⟨ha, by rw [hb]⟩

/-- The three assignments of `headsetRun` succeed. -/
theorem headsetRun_replies :
    (assignAll strictPlatform twoPlayers headsetRun).2
      = [.assigned "H1" "Red" "a", .assigned "H2" "Blue" "b", .assigned "H1" "Green" "b"] := by
  decide

/-- Every response to `headsetRun` is that of a successful assignment. -/
theorem headsetRun_assigned : AllAssigned (assignAll strictPlatform twoPlayers headsetRun).2 := by
  intro r hr
  rw [headsetRun_replies] at hr
  simp only [List.mem_cons, List.mem_singleton, List.not_mem_nil, or_false] at hr
  rcases hr with rfl | rfl | rfl <;> exact ⟨_, _, _, rfl⟩

/-- C18, on the three assignments of `headsetRun` after registering `a` and `b`. -/
theorem one_binding_per_headset_witness :
    OnePerHeadset twoPlayers.bindings ∧
    AllAssigned (assignAll strictPlatform twoPlayers headsetRun).2 ∧
    (OnePerHeadset (assignAll strictPlatform twoPlayers headsetRun).1.bindings ∧
    (∀ h t n, latestAssignment h (assignAll strictPlatform twoPlayers headsetRun).2 = some (t, n) →
      ((assignAll strictPlatform twoPlayers headsetRun).1.bindings.filter
        fun b => b.headsetId = some h) = [⟨some h, t, n⟩]) ∧
    (∀ h, latestAssignment h (assignAll strictPlatform twoPlayers headsetRun).2 = none →
      bindingOf (assignAll strictPlatform twoPlayers headsetRun).1.bindings h
        = bindingOf twoPlayers.bindings h) ∧
    (∀ body h t n,
      (assignNickname strictPlatform (assignAll strictPlatform twoPlayers headsetRun).1 body).2
        = .assigned h t n →
      (assignNickname strictPlatform (assignNickname strictPlatform
        (assignAll strictPlatform twoPlayers headsetRun).1 body).1 body).2 = .assigned h t n ∧
      (assignNickname strictPlatform (assignNickname strictPlatform
        (assignAll strictPlatform twoPlayers headsetRun).1 body).1 body).1.bindings.length
        = (assignNickname strictPlatform
            (assignAll strictPlatform twoPlayers headsetRun).1 body).1.bindings.length)) :=
  ⟨List.nodup_nil, headsetRun_assigned,
    one_binding_per_headset strictPlatform twoPlayers headsetRun List.nodup_nil
      headsetRun_assigned⟩


theorem ids_before_differ (before after : List Player) (player : Player)
    (hids : ((before ++ player :: after).map fun p => p.id).Nodup) :
    ∀ y ∈ before, y.id ≠ player.id := by
  intro y hy hid
  rw [List.map_append, List.map_cons] at hids
  have hdis := (List.nodup_append.mp hids).2.2
  exact hdis (List.mem_map.mpr ⟨y, hy, rfl⟩) (hid ▸ List.mem_cons_self _ _)

theorem updateFirst_append {α : Type} (p : α → Bool) (f : α → α) (before after : List α) (x : α)
    (hbefore : ∀ y ∈ before, p y = false) (hx : p x = true) :
    updateFirst p f (before ++ x :: after) = before ++ f x :: after := by
  induction before with
  | nil => simp [updateFirst, hx]
  | cons y ys ih =>
    have hy : p y = false := hbefore y (List.mem_cons_self _ _)
    simp [updateFirst, hy, ih fun z hz => hbefore z (List.mem_cons_of_mem _ hz)]

/-- C19 (as stated, refuted): the index on `headsetId` is sparse but not
unique, and an assignment clears no other player, so a headset given to `a` and
then to `b` is held by both. -/
theorem reassigned_headset_held_twice :
    SparseUnique twoPlayers.players ∧
    (assignAll strictPlatform twoPlayers [assignBody "H1" "a" "Red", assignBody "H1" "b" "Blue"]).2
      = [.assigned "H1" "Red" "a", .assigned "H1" "Blue" "b"] ∧
    ((assignAll strictPlatform twoPlayers
        [assignBody "H1" "a" "Red", assignBody "H1" "b" "Blue"]).1.players.map
      fun p => (p.nickname, p.headsetId)) = [("a", some "H1"), ("b", some "H1")] ∧
    ¬ SparseUnique (assignAll strictPlatform twoPlayers
        [assignBody "H1" "a" "Red", assignBody "H1" "b" "Blue"]).1.players := by
  refine ⟨?_, by decide, by decide, ?_⟩
  · unfold SparseUnique
    decide
  · unfold SparseUnique
    decide

/-- C19 (amended): a successful `POST /teams/assign-nickname` writes the
headset id and the team name to the player found by the nickname and leaves
every other player as stored, a previous holder of the headset included (the
stored identifiers being distinct). -/
theorem assignment_changes_one_player (pf : Platform) (st : Store) (body : JVal)
    (h t n : String) (hids : (st.players.map fun p => p.id).Nodup)
    (hok : (assignNickname pf st body).2 = .assigned h t n) :
    ∃ player before after, findByBodyNickname pf st.players body = some player ∧
      st.players = before ++ player :: after ∧
      (assignNickname pf st body).1.players
        = before ++ { player with headsetId := some h, teamName := some t } :: after ∧
      ∀ q ∈ st.players, q.id ≠ player.id → q ∈ (assignNickname pf st body).1.players := by
  obtain ⟨player, hreq, hplayer, hh, ht, hn, hst⟩ := assignNickname_of_assigned pf st body h t n hok
  have hfind : ∃ v, st.players.find? (fun p => pf.nicknameMatches v p.nickname) = some player := by
    simp only [findByBodyNickname] at hplayer
    split at hplayer
    · exact ⟨_, hplayer⟩
    · cases hplayer
  obtain ⟨v, hfind⟩ := hfind
  obtain ⟨before, after, hl, -, -⟩ := updateFirst_of_find _ id _ _ hfind
  have hne := ids_before_differ before after player (hl ▸ hids)
  have hup : (assignNickname pf st body).1.players
      = before ++ { player with headsetId := some h, teamName := some t } :: after := by
    rw [hst]
    show updateFirst _ _ st.players = _
    rw [hl]
    exact updateFirst_append _ _ _ _ _ (fun y hy => by simpa using hne y hy) (by simp)
  refine ⟨player, before, after, hplayer, hl, hup, ?_⟩
  intro q hq hqid
  rw [hup]
  rw [hl] at hq
  rcases List.mem_append.mp hq with hq | hq
  · exact List.mem_append_left _ hq
  · rcases List.mem_cons.mp hq with rfl | hq
    · exact absurd rfl hqid
    · exact List.mem_append_right _ (List.mem_cons_of_mem _ hq)

/-- C19 (amended), on the assignment of the headset `H1` to `b`. -/
theorem assignment_changes_one_player_witness :
    (twoPlayers.players.map fun p => p.id).Nodup ∧
    (assignNickname strictPlatform twoPlayers (assignBody "H1" "b" "Blue")).2
      = .assigned "H1" "Blue" "b" ∧
    ∃ player before after,
      findByBodyNickname strictPlatform twoPlayers.players (assignBody "H1" "b" "Blue")
        = some player ∧
      twoPlayers.players = before ++ player :: after ∧
      (assignNickname strictPlatform twoPlayers (assignBody "H1" "b" "Blue")).1.players
        = before ++ { player with headsetId := some "H1", teamName := some "Blue" } :: after ∧
      ∀ q ∈ twoPlayers.players, q.id ≠ player.id →
        q ∈ (assignNickname strictPlatform twoPlayers (assignBody "H1" "b" "Blue")).1.players :=
  ⟨by decide, by decide,
    assignment_changes_one_player strictPlatform twoPlayers (assignBody "H1" "b" "Blue")
      "H1" "Blue" "b" (by decide) (by decide)⟩

theorem statOf_increment (statName : StatName) (player : Player) :
    statOf statName (increment statName player) = statOf statName player + 1 := by
  cases statName <;> rfl

/-- C20: when the lookup by the nickname finds a player, the increment
stores that player with the stat raised by exactly 1, every other field of the
player and every other player as they were, and answers 200 with the raised
value; when it finds none, it answers 404 "Player not found" and leaves the
store as it was. -/
theorem stat_increment_adds_one (pf : Platform) (st : Store) (nickname : String)
    (statName : StatName) :
    match findOne pf st.players (.str nickname) with
    | some player =>
      ∃ before after, st.players = before ++ player :: after ∧
        (handleStatOperation pf st nickname statName).1
          = { st with players := before ++ increment statName player :: after } ∧
        statOf statName (increment statName player) = statOf statName player + 1 ∧
        { increment statName player with kills := player.kills, deaths := player.deaths }
          = player ∧
        (statName = .kills ∨ (increment statName player).kills = player.kills) ∧
        (statName = .deaths ∨ (increment statName player).deaths = player.deaths) ∧
        (handleStatOperation pf st nickname statName).2
          = .stat statName (statOf statName player + 1)
              (statName.text ++ " incremented successfully") ∧
        (handleStatOperation pf st nickname statName).2.status = 200
    | none =>
      handleStatOperation pf st nickname statName = (st, .codeMsg 404 1 "Player not found") ∧
        (handleStatOperation pf st nickname statName).2.status = 404 := by
  split
  · rename_i player hplayer
    have hfind : st.players.find? (fun p => pf.nicknameMatches (.str nickname) p.nickname)
        = some player := hplayer
    obtain ⟨before, after, hl, -, hup⟩ :=
      updateFirst_of_find _ (increment statName) _ _ hfind
    have hvalue : (if statOf statName (increment statName player) ≠ 0
        then statOf statName (increment statName player) else 0)
        = statOf statName player + 1 := by
      rw [statOf_increment]
      split
      · rfl
      · rename_i hz
        exact (not_not.mp hz).symm
    refine ⟨before, after, hl, ?_, statOf_increment _ _, ?_, ?_, ?_, ?_, ?_⟩
    · simp only [handleStatOperation, hplayer, hup]
    · cases statName <;> rfl
    · cases statName
      · exact Or.inl rfl
      · exact Or.inr rfl
    · cases statName
      · exact Or.inr rfl
      · exact Or.inl rfl
    · simp only [handleStatOperation, hplayer, hvalue]
    · simp only [handleStatOperation, hplayer]
      rfl
  · rename_i hnone
    refine ⟨?_, ?_⟩
    · simp only [handleStatOperation, hnone]
    · simp only [handleStatOperation, hnone]
      rfl

theorem validateRequiredFields_eq_none (fields : List String) (body : JVal) :
    validateRequiredFields fields body = none ↔ ∀ field ∈ fields, truthy? (body.get field) = true := by
  induction fields with
  | nil => simp [validateRequiredFields]
  | cons field rest ih =>
    simp only [validateRequiredFields, List.mem_cons, forall_eq_or_imp]
    cases h : truthy? (body.get field) with
    | true => simpa using ih
    | false => simp

theorem validateRequiredFields_first (body : JVal) (field : String) (after : List String) :
    ∀ before : List String, (∀ f ∈ before, truthy? (body.get f) = true) →
      truthy? (body.get field) = false →
      validateRequiredFields (before ++ field :: after) body
        = some (.codeMsg 400 1 ("Missing required field: " ++ field)) := by
  intro before
  induction before with
  | nil =>
    intro _ hfield
    simp [validateRequiredFields, hfield]
  | cons f fs ih =>
    intro hbefore hfield
    have hf : truthy? (body.get f) = true := hbefore f (List.mem_cons_self _ _)
    simp only [List.cons_append, validateRequiredFields, hf, Bool.not_true, Bool.false_eq_true,
      if_false]
    exact ih (fun g hg => hbefore g (List.mem_cons_of_mem _ hg)) hfield

/-- C21: a `POST /teams/assign-nickname` request whose three required fields
hold a truthy value and whose nickname matches no player is answered 404 with
`{ code: 2, msg: 'Nickname not found' }`, and the store is left as it was: no
binding is created or changed and no player record is changed. -/
theorem unknown_nickname_answered_404 (pf : Platform) (st : Store) (body : JVal)
    (hreq : ∀ field ∈ requiredToAssign, truthy? (body.get field) = true)
    (hnone : findByBodyNickname pf st.players body = none) :
    assignNickname pf st body = (st, .codeMsg 404 2 "Nickname not found")
      ∧ (assignNickname pf st body).2.status = 404
      ∧ (assignNickname pf st body).1.bindings = st.bindings
      ∧ (assignNickname pf st body).1.players = st.players
      ∧ ∀ h, bindingOf (assignNickname pf st body).1.bindings h = bindingOf st.bindings h := by
  have h : assignNickname pf st body = (st, .codeMsg 404 2 "Nickname not found") := by
    simp only [assignNickname, (validateRequiredFields_eq_none _ _).2 hreq, hnone]
  rw [h]
  exact ⟨rfl, rfl, rfl, rfl, fun _ => rfl⟩

/-- C21, on the store of `a` and `b`: the headset `H1` is assigned to the unknown
nickname `ghost`. -/
theorem unknown_nickname_answered_404_witness :
    assignNickname strictPlatform twoPlayers (assignBody "H1" "ghost" "Red")
        = (twoPlayers, .codeMsg 404 2 "Nickname not found")
      ∧ (assignNickname strictPlatform twoPlayers (assignBody "H1" "ghost" "Red")).2.status = 404
      ∧ (assignNickname strictPlatform twoPlayers (assignBody "H1" "ghost" "Red")).1.bindings
          = twoPlayers.bindings
      ∧ (assignNickname strictPlatform twoPlayers (assignBody "H1" "ghost" "Red")).1.players
          = twoPlayers.players
      ∧ ∀ h, bindingOf
          (assignNickname strictPlatform twoPlayers (assignBody "H1" "ghost" "Red")).1.bindings h
          = bindingOf twoPlayers.bindings h :=
  unknown_nickname_answered_404 strictPlatform twoPlayers (assignBody "H1" "ghost" "Red")
    (by decide) (by decide)

theorem validateRequiredFields_some (body : JVal) (sent : Reply) :
    ∀ fields : List String, validateRequiredFields fields body = some sent →
      ∃ before field after, fields = before ++ field :: after
        ∧ (∀ f ∈ before, truthy? (body.get f) = true) ∧ truthy? (body.get field) = false
        ∧ sent = .codeMsg 400 1 ("Missing required field: " ++ field) := by
  intro fields
  induction fields with
  | nil => intro h; cases h
  | cons f fs ih =>
    intro h
    simp only [validateRequiredFields] at h
    split at h
    · rename_i hf
      cases h
      exact ⟨[], f, fs, rfl, by simp, by simpa using hf, rfl⟩
    · rename_i hf
      obtain ⟨before, field, after, hsplit, hbefore, hfield, hsent⟩ := ih h
      refine ⟨f :: before, field, after, by rw [hsplit]; rfl, ?_, hfield, hsent⟩
      intro g hg
      rcases List.mem_cons.mp hg with rfl | hg
      · simpa using hf
      · exact hbefore g hg

/-- C28: `validateRequiredFields` sends nothing and returns `true` (the value
`none` of the model) exactly when every listed field has a truthy value in the
body. Otherwise it returns `false` after one response, status 400 with
`{ code: 1, msg: 'Missing required field: <field>' }`, for the first field of
the list whose value is missing or falsy; a field present with the value 0,
`false`, the empty string or `null` is reported like a missing one. -/
theorem first_missing_field_reported (fields : List String) (body : JVal) :
    (validateRequiredFields fields body = none
      ↔ ∀ field ∈ fields, truthy? (body.get field) = true)
    ∧ (∀ before field after, fields = before ++ field :: after →
        (∀ f ∈ before, truthy? (body.get f) = true) → truthy? (body.get field) = false →
        validateRequiredFields fields body
          = some (.codeMsg 400 1 ("Missing required field: " ++ field)))
    ∧ (∀ sent, validateRequiredFields fields body = some sent →
        sent.status = 400 ∧ ∃ before field after, fields = before ++ field :: after
          ∧ (∀ f ∈ before, truthy? (body.get f) = true) ∧ truthy? (body.get field) = false
          ∧ sent = .codeMsg 400 1 ("Missing required field: " ++ field))
    ∧ ∀ field, ∀ v ∈ [JVal.num 0, JVal.bool false, JVal.str "", JVal.null],
        validateRequiredFields [field] (.obj [(field, v)])
          = some (.codeMsg 400 1 ("Missing required field: " ++ field))
        ∧ validateRequiredFields [field] (.obj [])
          = some (.codeMsg 400 1 ("Missing required field: " ++ field)) := by
  refine ⟨validateRequiredFields_eq_none fields body, ?_, ?_, ?_⟩
  · rintro before field after rfl hbefore hfield
    exact validateRequiredFields_first body field after before hbefore hfield
  · intro sent hsent
    obtain ⟨before, field, after, h1, h2, h3, h4⟩ := validateRequiredFields_some body sent fields hsent
    exact ⟨by rw [h4]; rfl, before, field, after, h1, h2, h3, h4⟩
  · intro field v hv
    simp only [List.mem_cons, List.mem_singleton, List.not_mem_nil, or_false] at hv
    rcases hv with rfl | rfl | rfl | rfl <;>
      simp [validateRequiredFields, JVal.get, truthy?, JVal.truthy, List.lookup]

/-- C28, on the list of `POST /players/add` and a body whose `age` is 0: the
field `age` is reported, the first in list order that is falsy (`region` is
missing too). -/
theorem first_missing_field_reported_witness :
    validateRequiredFields requiredToAdd
        (.obj [("nickname", .str "alex"), ("name", .str "Alex"), ("lastname", .str "Martin"),
          ("email", .str "alex@example.com"), ("age", .num 0), ("phone", .str "12345678")])
      = some (.codeMsg 400 1 "Missing required field: age") :=
  (first_missing_field_reported requiredToAdd
      (.obj [("nickname", .str "alex"), ("name", .str "Alex"), ("lastname", .str "Martin"),
        ("email", .str "alex@example.com"), ("age", .num 0), ("phone", .str "12345678")])).2.1
    ["nickname", "name", "lastname", "email"] "age" ["phone", "region"] rfl
    (by decide) (by decide)

/-! ## Properties of the start-up -/

theorem delay_bounds (attempt : Nat) (random : ℚ) (ha : 1 ≤ attempt) (h0 : 0 ≤ random)
    (h1 : random < 1) :
    3000 ≤ Server.delay attempt random ∧ Server.delay attempt random ≤ 60000
      ∧ (6 ≤ attempt → Server.delay attempt random = 60000)
      ∧ (attempt ≤ 5 → Server.delay attempt random = 3000 * 2 ^ (attempt - 1) + random * 1000
          ∧ Server.delay attempt random < 49000) := by
  have hpow : (1 : ℚ) ≤ 2 ^ (attempt - 1) := one_le_pow₀ (by norm_num)
  have hbase : ((Server.BASE_DELAY : Nat) : ℚ) = 3000 := by norm_num [Server.BASE_DELAY]
  refine ⟨?_, ?_, ?_, ?_⟩
  · simp only [Server.delay, hbase]
    exact le_min (by nlinarith) (by norm_num)
  · exact min_le_right _ _
  · intro h6
    have h32 : (2 : ℚ) ^ 5 ≤ 2 ^ (attempt - 1) :=
      pow_le_pow_right₀ (by norm_num) (by omega)
    simp only [Server.delay, hbase]
    norm_num at h32
    exact min_eq_right (by nlinarith)
  · intro h5
    have h16 : (2 : ℚ) ^ (attempt - 1) ≤ 2 ^ 4 :=
      pow_le_pow_right₀ (by norm_num) (by omega)
    norm_num at h16
    have hlt : (3000 : ℚ) * 2 ^ (attempt - 1) + random * 1000 < 49000 := by nlinarith
    simp only [Server.delay, hbase]
    rw [min_eq_left (by linarith)]
    exact ⟨rfl, hlt⟩

theorem connectWithRetry_trace (run : Server.Run) :
    ∀ fuel attempt : Nat, 1 ≤ attempt → attempt ≤ Server.MAX_RETRIES → Server.MAX_RETRIES + 1 ≤ fuel + attempt →
      ∃ last, attempt ≤ last ∧ last ≤ Server.MAX_RETRIES
        ∧ (Server.connectWithRetry run fuel attempt).attempts = List.range' attempt (last + 1 - attempt)
        ∧ (Server.connectWithRetry run fuel attempt).delays
            = (List.range' attempt (last - attempt)).map (fun a => Server.delay a (run.random a))
        ∧ (Server.connectWithRetry run fuel attempt).ending
            = some (if run.connects last then Server.Ending.connected else Server.Ending.exited)
        ∧ (run.connects last = false → last = Server.MAX_RETRIES)
        ∧ ∀ a, attempt ≤ a → a < last → run.connects a = false := by
  intro fuel
  induction fuel with
  | zero =>
    intro attempt _ h2 h3
    omega
  | succ fuel ih =>
    intro attempt h1 h2 h3
    by_cases hc : run.connects attempt = true
    · refine ⟨attempt, le_refl _, h2, ?_, ?_, ?_, ?_, ?_⟩
      · simp [Server.connectWithRetry, hc, List.range']
      · simp [Server.connectWithRetry, hc]
      · simp [Server.connectWithRetry, hc]
      · intro h; rw [hc] at h; cases h
      · intro a h h'; omega
    · by_cases hmax : attempt ≥ Server.MAX_RETRIES
      · have hEq : attempt = Server.MAX_RETRIES := le_antisymm h2 hmax
        refine ⟨attempt, le_refl _, h2, ?_, ?_, ?_, ?_, ?_⟩
        · simp [Server.connectWithRetry, hc, hmax, List.range']
        · simp [Server.connectWithRetry, hc, hmax]
        · simp [Server.connectWithRetry, hc, hmax]
        · intro _; exact hEq
        · intro a h h'; omega
      · obtain ⟨last, hl1, hl2, hatt, hdel, hend, hfail, hbefore⟩ :=
          ih (attempt + 1) (by omega) (by omega) (by omega)
        refine ⟨last, by omega, hl2, ?_, ?_, ?_, hfail, ?_⟩
        · have : last + 1 - attempt = (last + 1 - (attempt + 1)) + 1 := by omega
          simp only [Server.connectWithRetry, hc, hmax, if_false, hatt, Bool.false_eq_true]
          rw [this, List.range'_succ]
        · have : last - attempt = (last - (attempt + 1)) + 1 := by omega
          simp only [Server.connectWithRetry, hc, hmax, if_false, hdel, Bool.false_eq_true]
          rw [this, List.range'_succ, List.map_cons]
        · simp only [Server.connectWithRetry, hc, hmax, if_false, hend, Bool.false_eq_true]
        · intro a h h'
          rcases Nat.eq_or_lt_of_le h with rfl | hlt
          · simpa using hc
          · exact hbefore a hlt h'

/-- C29: for every attempt number from 1 on and every draw of `Math.random()` in
[0, 1), hence every jitter in [0, 1000), the reconnect Server.delay is at least 3000 ms
and at most 60000 ms, below 49000 ms up to attempt 5 and exactly 60000 ms from
attempt 6 on. Started at attempt 1, `Server.connectWithRetry` ends after at most 15
attempts, numbered 1, 2, ..., either connected or by `process.exit(1)` after
attempt 15; attempt `a + 1` is made only when attempt `a` failed and `a < 15`,
and one Server.delay is scheduled between two attempts. -/
theorem reconnect_delay_and_attempts :
    (∀ (attempt : Nat) (random : ℚ), 1 ≤ attempt → 0 ≤ random → random < 1 →
      3000 ≤ Server.delay attempt random ∧ Server.delay attempt random ≤ 60000
        ∧ (6 ≤ attempt → Server.delay attempt random = 60000)
        ∧ (attempt ≤ 5 → Server.delay attempt random < 49000))
    ∧ (∀ (run : Server.Run) (fuel : Nat), Server.MAX_RETRIES ≤ fuel →
      (Server.connectWithRetry run fuel 1).ending.isSome = true
        ∧ (Server.connectWithRetry run fuel 1).attempts.length ≤ 15
        ∧ (Server.connectWithRetry run fuel 1).attempts
            = List.range' 1 (Server.connectWithRetry run fuel 1).attempts.length
        ∧ (Server.connectWithRetry run fuel 1).delays.length + 1
            = (Server.connectWithRetry run fuel 1).attempts.length
        ∧ (∀ a, a + 1 ∈ (Server.connectWithRetry run fuel 1).attempts → 1 ≤ a →
            a < 15 ∧ run.connects a = false)
        ∧ ((Server.connectWithRetry run fuel 1).ending = some Server.Ending.exited →
            (Server.connectWithRetry run fuel 1).attempts.length = 15)
        ∧ ((∀ a, 0 ≤ run.random a ∧ run.random a < 1) →
            ∀ d ∈ (Server.connectWithRetry run fuel 1).delays, 3000 ≤ d ∧ d ≤ 60000))
    ∧ (Server.connectWithRetry neverConnects 15 1).attempts
        = [1, 2, 3, 4, 5, 6, 7, 8, 9, 10, 11, 12, 13, 14, 15]
    ∧ (Server.connectWithRetry neverConnects 15 1).ending = some Server.Ending.exited
    ∧ (Server.connectWithRetry thirdConnects 15 1).attempts = [1, 2, 3]
    ∧ (Server.connectWithRetry thirdConnects 15 1).delays = [3000, 6000]
    ∧ (Server.connectWithRetry thirdConnects 15 1).ending = some Server.Ending.connected := by
  refine ⟨?_, ?_, by decide, by decide, by decide, ?_, by decide⟩
  · intro attempt random ha h0 h1
    obtain ⟨b1, b2, b3, b4⟩ := delay_bounds attempt random ha h0 h1
    exact ⟨b1, b2, b3, fun h => (b4 h).2⟩
  · intro run fuel hfuel
    obtain ⟨last, hl1, hl2, hatt, hdel, hend, hfail, hbefore⟩ :=
      connectWithRetry_trace run fuel 1 (le_refl _) (by decide) (by omega)
    have hlen : (Server.connectWithRetry run fuel 1).attempts.length = last := by
      rw [hatt, List.length_range']
      omega
    have hmax : Server.MAX_RETRIES = 15 := rfl
    refine ⟨?_, ?_, ?_, ?_, ?_, ?_, ?_⟩
    · rw [hend]; rfl
    · omega
    · rw [hlen, hatt]
      congr 1
    · rw [hlen, hdel, List.length_map, List.length_range']
      omega
    · intro a ha h1
      rw [hatt, List.mem_range'_1] at ha
      exact ⟨by omega, hbefore a h1 (by omega)⟩
    · intro hex
      rw [hend] at hex
      rw [hlen]
      by_cases hc : run.connects last = true
      · simp [hc] at hex
      · exact hfail (by simpa using hc)
    · intro hrandom d hd
      rw [hdel, List.mem_map] at hd
      obtain ⟨a, ha, rfl⟩ := hd
      rw [List.mem_range'_1] at ha
      obtain ⟨b1, b2, -, -⟩ := delay_bounds a (run.random a) ha.1 (hrandom a).1 (hrandom a).2
      exact ⟨b1, b2⟩
  · simp [Server.connectWithRetry, thirdConnects, Server.delay, Server.BASE_DELAY, Server.MAX_RETRIES]
    norm_num

/-! ## Properties of the password check -/

open Authentication

theorem aheadClass_eq_any (lo hi : Nat) :
    ∀ units : List Nat, (∀ u ∈ units, isLineTerminator u = false) →
      aheadClass lo hi units = units.any fun u => lo ≤ u && u ≤ hi := by
  intro units
  induction units with
  | nil => intro _; rfl
  | cons u rest ih =>
    intro h
    simp only [aheadClass, List.any_cons, h u (List.mem_cons_self _ _), Bool.not_false,
      Bool.true_and, ih fun v hv => h v (List.mem_cons_of_mem _ hv)]

theorem aheadLength_eq (n : Nat) :
    ∀ units : List Nat, (∀ u ∈ units, isLineTerminator u = false) →
      aheadLength n units = decide (n ≤ units.length) := by
  induction n with
  | zero => intro units _; simp [aheadLength]
  | succ n ih =>
    intro units h
    cases units with
    | nil => simp [aheadLength]
    | cons u rest =>
      simp only [aheadLength, h u (List.mem_cons_self _ _), Bool.not_false, Bool.true_and,
        ih rest fun v hv => h v (List.mem_cons_of_mem _ hv), List.length_cons,
        Nat.add_le_add_iff_right]

theorem length_codeUnits (s : String) : (codeUnits s).length = jsLength s := by
  simp only [codeUnits, jsLength]
  induction s.data with
  | nil => rfl
  | cons c cs ih =>
    simp only [List.flatMap_cons, List.length_append, ih, List.map_cons, List.sum_cons]
    split <;> rfl

theorem mem_codeUnits_below (s : String) (u : Nat) (hu : u < 0xD800) :
    u ∈ codeUnits s ↔ ∃ c ∈ s.data, c.toNat = u := by
  simp only [codeUnits, List.mem_flatMap]
  constructor
  · rintro ⟨c, hc, hmem⟩
    refine ⟨c, hc, ?_⟩
    split at hmem
    · simpa using (List.mem_singleton.1 hmem).symm
    · simp only [List.mem_cons, List.mem_singleton, List.not_mem_nil, or_false] at hmem
      omega
  · rintro ⟨c, hc, rfl⟩
    exact ⟨c, hc, by simp [show c.toNat < 0x10000 from by omega]⟩

theorem codeUnits_noLineTerminator (s : String) (h : NoLineTerminator s) :
    ∀ u ∈ codeUnits s, isLineTerminator u = false := by
  intro u hu
  by_cases hlow : u < 0xD800
  · obtain ⟨c, hc, rfl⟩ := (mem_codeUnits_below s u hlow).1 hu
    exact h c hc
  · simp only [isLineTerminator, Bool.or_eq_false_iff, decide_eq_false_iff_not]
    omega

theorem any_codeUnits (s : String) (lo hi : Nat) (hhi : hi < 0xD800) :
    ((codeUnits s).any fun u => lo ≤ u && u ≤ hi) = true ↔ HasCharIn lo hi s := by
  simp only [List.any_eq_true, Bool.and_eq_true, decide_eq_true_eq, HasCharIn]
  constructor
  · rintro ⟨u, hu, h1, h2⟩
    obtain ⟨c, hc, rfl⟩ := (mem_codeUnits_below s u (by omega)).1 hu
    exact ⟨c, hc, h1, h2⟩
  · rintro ⟨c, hc, h1, h2⟩
    exact ⟨c.toNat, (mem_codeUnits_below s _ (by omega)).2 ⟨c, hc, rfl⟩, h1, h2⟩

theorem passwordRegex_of_noLineTerminator (units : List Nat)
    (h : ∀ u ∈ units, isLineTerminator u = false) :
    passwordRegex units = true ↔
      ((units.any fun u => 97 ≤ u && u ≤ 122) = true ∧ (units.any fun u => 65 ≤ u && u ≤ 90) = true
        ∧ (units.any fun u => 48 ≤ u && u ≤ 57) = true) ∧ 8 ≤ units.length := by
  simp only [passwordRegex, aheadClass_eq_any _ _ units h, aheadLength_eq 8 units h,
    Bool.and_eq_true, decide_eq_true_eq, and_assoc]

theorem test_iff (s : String) (h : NoLineTerminator s) :
    passwordRegex.test s = true ↔
      8 ≤ jsLength s ∧ HasCharIn 97 122 s ∧ HasCharIn 65 90 s ∧ HasCharIn 48 57 s := by
  have hno := codeUnits_noLineTerminator s h
  rw [← any_codeUnits s 97 122 (by norm_num), ← any_codeUnits s 65 90 (by norm_num),
    ← any_codeUnits s 48 57 (by norm_num), ← length_codeUnits]
  rw [passwordRegex.test, List.any_eq_true]
  simp only [List.mem_tails]
  constructor
  · rintro ⟨t, ht, hmatch⟩
    have hsub : ∀ u ∈ t, u ∈ codeUnits s := fun u hu => ht.subset hu
    obtain ⟨⟨ha, hb, hc⟩, hlen⟩ :=
      (passwordRegex_of_noLineTerminator t fun u hu => hno u (hsub u hu)).1 hmatch
    rw [List.any_eq_true] at ha hb hc ⊢
    rw [List.any_eq_true, List.any_eq_true]
    refine ⟨le_trans hlen ht.length_le, ?_, ?_, ?_⟩
    · obtain ⟨u, hu, hp⟩ := ha; exact ⟨u, hsub u hu, hp⟩
    · obtain ⟨u, hu, hp⟩ := hb; exact ⟨u, hsub u hu, hp⟩
    · obtain ⟨u, hu, hp⟩ := hc; exact ⟨u, hsub u hu, hp⟩
  · rintro ⟨hlen, ha, hb, hc⟩
    exact ⟨codeUnits s, List.suffix_refl _,
      (passwordRegex_of_noLineTerminator _ hno).2 ⟨⟨ha, hb, hc⟩, hlen⟩⟩

/-- C27: for a password without line terminators, `passwordRegex.test` accepts it
exactly when it has at least 8 characters (UTF-16 units, the `length` of the
string), a letter `a` to `z`, a letter `A` to `Z` and a digit. The bound 24 of
`{8,24}` is no maximum: such a password of more than 24 characters is accepted,
and `POST /account/create` does not answer it with `Password Not Secure`. -/
theorem password_check_has_no_maximum (rPassword : String) (h : NoLineTerminator rPassword) :
    (passwordRegex.test rPassword = true ↔
      8 ≤ jsLength rPassword ∧ HasCharIn 97 122 rPassword ∧ HasCharIn 65 90 rPassword
        ∧ HasCharIn 48 57 rPassword)
    ∧ (24 < jsLength rPassword → HasCharIn 97 122 rPassword → HasCharIn 65 90 rPassword →
        HasCharIn 48 57 rPassword →
        passwordRegex.test rPassword = true
          ∧ ∀ rUsername, createChecks rUsername rPassword ≠ some (2, "Password Not Secure")) := by
  refine ⟨test_iff rPassword h, ?_⟩
  intro hlen ha hb hc
  have htest : passwordRegex.test rPassword = true :=
    (test_iff rPassword h).2 ⟨by omega, ha, hb, hc⟩
  refine ⟨htest, ?_⟩
  intro rUsername
  simp only [createChecks, htest]
  split <;> simp

/-- C27, on a password of 27 characters. -/
theorem password_check_has_no_maximum_witness :
    jsLength "Abcdefgh1Abcdefgh1Abcdefgh1" = 27
    ∧ passwordRegex.test "Abcdefgh1Abcdefgh1Abcdefgh1" = true
    ∧ createChecks "bob" "Abcdefgh1Abcdefgh1Abcdefgh1" = none
    ∧ passwordRegex.test "Abcdef1" = false :=
  ⟨by decide,
    ((password_check_has_no_maximum "Abcdefgh1Abcdefgh1Abcdefgh1"
        (by unfold NoLineTerminator; decide)).2 (by decide)
      ⟨'b', by decide, by decide⟩ ⟨'A', by decide, by decide⟩ ⟨'1', by decide, by decide⟩).1,
    by decide, by decide⟩

/-! ## The player count of a request without one -/

theorem checkTeams_players (pf : Platform) (players : List Player) :
    ∀ (ts : List TeamData) (k : Nat) (es : List TeamEntry),
      checkTeams pf players k ts = .ok es →
      (es.map fun e => e.players) = ts.map fun t => t.players := by
  intro ts
  induction ts with
  | nil =>
    intro k es h
    simp only [checkTeams] at h
    cases h
    rfl
  | cons t ts ih =>
    intro k es h
    simp only [checkTeams] at h
    split at h
    · rename_i e es' he hes
      cases h
      simp only [List.map_cons, ih (k + 1) es' hes, (checkTeam_ok pf players k t e he).2.2]
    · cases h
    · cases h
    · cases h

theorem checkTeam_error_path (pf : Platform) (players : List Player) (i : Nat) (t : TeamData)
    (errs : List FieldError) (h : checkTeam pf players i t = .error errs) :
    ∀ e ∈ errs, e.path ≠ .numberOfPlayers := by
  have hname : ∀ e ∈ errorsOf (checkTeamName pf i t.name), e.path ≠ .numberOfPlayers := by
    intro e he
    simp only [checkTeamName] at he
    repeat' split at he
    all_goals simp only [errorsOf, List.mem_singleton, List.not_mem_nil] at he
    all_goals subst he
    all_goals simp [FieldError.path]
  have hscore : ∀ e ∈ errorsOf (checkTeamScore pf i t.score), e.path ≠ .numberOfPlayers := by
    intro e he
    simp only [checkTeamScore] at he
    repeat' split at he
    all_goals simp only [errorsOf, List.mem_singleton, List.not_mem_nil] at he
    all_goals subst he
    all_goals simp [FieldError.path]
  have hplayers : ∀ e ∈ checkTeamPlayers players i t.players, e.path ≠ .numberOfPlayers := by
    intro e he
    simp only [checkTeamPlayers, List.mem_map] at he
    obtain ⟨jp, -, rfl⟩ := he
    simp [FieldError.path]
  simp only [checkTeam] at h
  split at h
  · cases h
  · cases h
    intro e he
    simp only [List.mem_append] at he
    rcases he with (he | he) | he
    · exact hname e he
    · exact hplayers e he
    · exact hscore e he

theorem checkTeams_error_path (pf : Platform) (players : List Player) :
    ∀ (ts : List TeamData) (k : Nat) (errs : List FieldError),
      checkTeams pf players k ts = .error errs → ∀ e ∈ errs, e.path ≠ .numberOfPlayers := by
  intro ts
  induction ts with
  | nil =>
    intro k errs h
    simp only [checkTeams] at h
    cases h
  | cons t ts ih =>
    intro k errs h
    simp only [checkTeams] at h
    split at h
    · cases h
    · rename_i e es' he hes
      cases h
      exact ih (k + 1) _ hes
    · rename_i es' he hes
      cases h
      exact checkTeam_error_path pf players k t _ he
    · rename_i es1 es2 he hes
      cases h
      intro e hmem
      rcases List.mem_append.mp hmem with hmem | hmem
      · exact checkTeam_error_path pf players k t _ he e hmem
      · exact ih (k + 1) _ hes e hmem

theorem sessionData_count_of_falsy (body : JVal) (resolved : List TeamData)
    (hfalsy : truthy? (body.get "numberOfPlayers") = false) :
    (sessionData body resolved).numberOfPlayers
      = some (.num (((resolved.map fun t => t.players.length).sum : Nat) : ℚ)) := by
  simp only [sessionData, foldl_players_eq_sum]
  cases hv : body.get "numberOfPlayers" with
  | none => rfl
  | some v =>
    simp only [hv, truthy?] at hfalsy
    simp [orElse, hfalsy]

theorem checkPlayerCount_num (pf : Platform) (q : ℚ) :
    checkPlayerCount pf (some (.num q))
      = if q < 2 then .error (.validator .numberOfPlayers "min" "Minimum 2 players required")
        else if 32 < q then
          .error (.validator .numberOfPlayers "max" "Maximum 32 players allowed")
        else .ok q := by
  simp only [checkPlayerCount, castWith, pf.castNumber_num]

theorem validate_error_parts (pf : Platform) (players : List Player) (d : SessionData)
    (errs : List FieldError) (h : validate pf players d = .error errs) :
    errs = errorsOf (checkMap pf d.mapPlayed) ++ errorsOf (checkDuration pf d.gameDuration)
      ++ errorsOf (checkPlayerCount pf d.numberOfPlayers)
      ++ errorsOfAll (checkTeams pf players 0 d.teams) := by
  simp only [validate] at h
  split at h
  · cases h
  · cases h
    rfl

theorem errorsOf_path {α : Type} (r : Except FieldError α) (p : Path)
    (hr : ∀ e, r = .error e → e.path = p) : ∀ e ∈ errorsOf r, e.path = p := by
  intro e he
  cases r with
  | ok _ => simp [errorsOf] at he
  | error e' =>
    simp only [errorsOf, List.mem_singleton] at he
    subst he
    exact hr _ rfl

/-- C26: in the nickname-resolving route, when the request omits
`numberOfPlayers` or gives a falsy value, the player count of the draft is the
total number of resolved players over all teams. A session stored from such a
draft declares exactly the number of players its teams hold, so the hook that
compares the two records nothing, and on the path `numberOfPlayers` validation
can only report the range: `min` when fewer than 2 players were resolved, `max`
when more than 32. -/
theorem omitted_player_count_is_total (pf : Platform) (st : Store) (body : JVal)
    (resolved : List TeamData) (hfalsy : truthy? (body.get "numberOfPlayers") = false) :
    (sessionData body resolved).numberOfPlayers
      = some (.num (((resolved.map fun t => t.players.length).sum : Nat) : ℚ))
    ∧ (∀ st' doc marked, save pf st (sessionData body resolved) = .saved st' doc marked →
        doc.numberOfPlayers = (totalPlayers doc.teams : ℚ)
          ∧ totalPlayers doc.teams = (resolved.map fun t => t.players.length).sum
          ∧ preSaveHook pf doc = [] ∧ marked = [])
    ∧ (∀ errs, save pf st (sessionData body resolved) = .rejected errs →
        ∀ e ∈ errs, e.path = .numberOfPlayers →
          (e = .validator .numberOfPlayers "min" "Minimum 2 players required"
              ∧ (resolved.map fun t => t.players.length).sum < 2)
            ∨ (e = .validator .numberOfPlayers "max" "Maximum 32 players allowed"
              ∧ 32 < (resolved.map fun t => t.players.length).sum))
    ∧ (2 ≤ (resolved.map fun t => t.players.length).sum →
        (resolved.map fun t => t.players.length).sum ≤ 32 →
        ∀ errs, save pf st (sessionData body resolved) = .rejected errs →
          ∀ e ∈ errs, e.path ≠ .numberOfPlayers) := by
  have hcount := sessionData_count_of_falsy body resolved hfalsy
  have hteams : (sessionData body resolved).teams = resolved := rfl
  have hrejected : ∀ errs, save pf st (sessionData body resolved) = .rejected errs →
      ∀ e ∈ errs, e.path = .numberOfPlayers →
        e ∈ errorsOf (checkPlayerCount pf (some (.num
          (((resolved.map fun t => t.players.length).sum : Nat) : ℚ)))) := by
    intro errs hsave e he hpath
    rcases save_cases pf st (sessionData body resolved) with ⟨errs', hv, hs⟩ | ⟨doc, -, hs⟩
    · rw [hs] at hsave
      cases hsave
      rw [validate_error_parts pf _ _ _ hv, hcount] at he
      simp only [List.mem_append] at he
      rcases he with ((he | he) | he) | he
      · have := errorsOf_path _ .mapPlayed (fun e => checkMap_error pf _ e) e he
        rw [this] at hpath
        cases hpath
      · have := errorsOf_path _ .gameDuration (fun e => checkDuration_error pf _ e) e he
        rw [this] at hpath
        cases hpath
      · exact he
      · cases hc : checkTeams pf st.players 0 (sessionData body resolved).teams with
        | ok es => simp [hc, errorsOfAll] at he
        | error es =>
          simp only [hc, errorsOfAll] at he
          exact absurd hpath (checkTeams_error_path pf st.players _ 0 es hc e he)
    · rw [hs] at hsave
      cases hsave
  refine ⟨hcount, ?_, ?_, ?_⟩
  · intro st' doc marked hsave
    rcases save_cases pf st (sessionData body resolved) with ⟨errs', -, hs⟩ | ⟨doc', hv, hs⟩
    · rw [hs] at hsave
      cases hsave
    · rw [hs] at hsave
      cases hsave
      obtain ⟨-, -, hn, ht⟩ := validate_ok pf st.players _ doc hv
      rw [hcount] at hn
      obtain ⟨hcast, -, -⟩ := checkPlayerCount_ok pf _ _ hn
      simp only [castWith, pf.castNumber_num, Cast.value.injEq] at hcast
      have hplayers := checkTeams_players pf st.players _ 0 doc.teams ht
      have htotal : totalPlayers doc.teams = (resolved.map fun t => t.players.length).sum := by
        rw [totalPlayers_eq_sum]
        have := congrArg (fun l => (l.map List.length).sum) hplayers
        simpa [List.map_map, Function.comp_def, hteams] using this
      have hdoc : doc.numberOfPlayers = (totalPlayers doc.teams : ℚ) := by
        rw [htotal, hcast]
      have hhook : preSaveHook pf doc = [] := by
        simp only [preSaveHook, hdoc, ne_eq, not_true_eq_false, if_false]
      exact ⟨hdoc, htotal, hhook, hhook⟩
  · intro errs hsave e he hpath
    have hmem := hrejected errs hsave e he hpath
    rw [checkPlayerCount_num] at hmem
    split at hmem
    · rename_i hlt
      simp only [errorsOf, List.mem_singleton] at hmem
      exact Or.inl ⟨hmem, by exact_mod_cast hlt⟩
    · split at hmem
      · rename_i hgt
        simp only [errorsOf, List.mem_singleton] at hmem
        exact Or.inr ⟨hmem, by exact_mod_cast hgt⟩
      · simp [errorsOf] at hmem
  · intro h2 h32 errs hsave e he hpath
    have hmem := hrejected errs hsave e he hpath
    rw [checkPlayerCount_num] at hmem
    have h2' : ¬ ((((resolved.map fun t => t.players.length).sum : Nat) : ℚ) < 2) := by
      push_neg
      exact_mod_cast h2
    have h32' : ¬ (32 < (((resolved.map fun t => t.players.length).sum : Nat) : ℚ)) := by
      push_neg
      exact_mod_cast h32
    rw [if_neg h2', if_neg h32'] at hmem
    cases hmem

/-- C26, on the request `{ teams: [Red = [a, b], Blue = [c, d]] }`, which gives no
player count: the draft declares the 4 players resolved and the session is
stored with that count. -/
theorem omitted_player_count_is_total_witness :
    truthy? ((JVal.obj [("teams", redBlue)]).get "numberOfPlayers") = false
    ∧ (sessionData (.obj [("teams", redBlue)]) resolvedRedBlue).numberOfPlayers
      = some (.num (((resolvedRedBlue.map fun t => t.players.length).sum : Nat) : ℚ))
    ∧ (resolvedRedBlue.map fun t => t.players.length).sum = 4
    ∧ (SessionRoutes.post strictPlatform orderedRun fourPlayers (.obj [("teams", redBlue)])).2
      = { status := 201, body := .created (redBlueSession 4) } :=
  ⟨rfl, (omitted_player_count_is_total strictPlatform fourPlayers (.obj [("teams", redBlue)])
      resolvedRedBlue rfl).1, rfl, by decide⟩

/-! ## Properties of the aggregations -/

open GameSessionRoutes

theorem lookup_countMap (map key : String) :
    ∀ counts : List (String × Nat),
      (countMap counts map).lookup key
        = if key = map then some ((counts.lookup key).getD 0 + 1) else counts.lookup key := by
  intro counts
  induction counts with
  | nil =>
    by_cases h : key = map
    · simp [countMap, List.lookup, h]
    · have h' : (key == map) = false := by simpa using h
      simp [countMap, List.lookup, h, h']
  | cons kc rest ih =>
    obtain ⟨k, c⟩ := kc
    have hc : (if c ≠ 0 then c else 0) = c := by
      split
      · rfl
      · rename_i h
        exact (not_not.1 h).symm
    by_cases hk : k = map
    · by_cases h : key = map
      · simp [countMap, List.lookup, hk, h, hc]
      · have h' : (key == map) = false := by simpa using h
        simp [countMap, List.lookup, hk, h, h']
    · by_cases h : key = k
      · have hne : ¬ key = map := fun e => hk (h ▸ e)
        simp [countMap, List.lookup, hk, h, hne]
      · have h' : (key == k) = false := by simpa using h
        simp [countMap, List.lookup, hk, h', ih]

theorem keys_countMap (map : String) :
    ∀ counts : List (String × Nat), (counts.map Prod.fst).Nodup →
      ((countMap counts map).map Prod.fst).Nodup
        ∧ ∀ key, key ∈ (countMap counts map).map Prod.fst ↔ key = map ∨ key ∈ counts.map Prod.fst := by
  intro counts
  induction counts with
  | nil => intro _; simp [countMap]
  | cons kc rest ih =>
    obtain ⟨k, c⟩ := kc
    intro hnd
    rw [List.map_cons, List.nodup_cons] at hnd
    obtain ⟨ih1, ih2⟩ := ih hnd.2
    by_cases hk : k = map
    · subst hk
      simp only [countMap, if_true, List.map_cons, List.nodup_cons]
      refine ⟨⟨hnd.1, hnd.2⟩, ?_⟩
      intro key
      simp only [List.mem_cons]
      tauto
    · simp only [countMap, hk, if_false, List.map_cons, List.nodup_cons]
      refine ⟨⟨?_, ih1⟩, ?_⟩
      · intro hmem
        rcases (ih2 k).1 hmem with h | h
        · exact hk h
        · exact hnd.1 h
      · intro key
        simp only [List.mem_cons, ih2 key]
        tauto

theorem sum_countMap (map : String) :
    ∀ counts : List (String × Nat),
      ((countMap counts map).map Prod.snd).sum = (counts.map Prod.snd).sum + 1 := by
  intro counts
  induction counts with
  | nil => simp [countMap]
  | cons kc rest ih =>
    obtain ⟨k, c⟩ := kc
    by_cases hk : k = map
    · by_cases hc : c = 0
      · simp [countMap, hk, hc]
        omega
      · simp [countMap, hk, hc]
        omega
    · simp [countMap, hk, ih]
      omega

theorem foldl_countMap (maps : List String) :
    ∀ counts : List (String × Nat), (counts.map Prod.fst).Nodup →
      ((maps.foldl countMap counts).map Prod.fst).Nodup
      ∧ (∀ key, key ∈ (maps.foldl countMap counts).map Prod.fst
          ↔ key ∈ maps ∨ key ∈ counts.map Prod.fst)
      ∧ (∀ key, key ∈ maps → (maps.foldl countMap counts).lookup key
          = some ((counts.lookup key).getD 0 + maps.count key))
      ∧ (∀ key, key ∉ maps → (maps.foldl countMap counts).lookup key = counts.lookup key)
      ∧ ((maps.foldl countMap counts).map Prod.snd).sum
          = (counts.map Prod.snd).sum + maps.length := by
  induction maps with
  | nil =>
    intro counts hnd
    exact ⟨hnd, by simp, by simp, by simp, by simp⟩
  | cons m ms ih =>
    intro counts hnd
    obtain ⟨k1, k2⟩ := keys_countMap m counts hnd
    obtain ⟨i1, i2, i3, i4, i5⟩ := ih (countMap counts m) k1
    simp only [List.foldl_cons]
    refine ⟨i1, ?_, ?_, ?_, ?_⟩
    · intro key
      rw [i2 key, k2 key, List.mem_cons]
      tauto
    · intro key hkey
      by_cases hms : key ∈ ms
      · rw [i3 key hms, lookup_countMap]
        by_cases hm : key = m
        · subst hm
          simp only [if_true, Option.getD_some, List.count_cons_self]
          congr 1
          omega
        · have hm' : ¬ m = key := fun e => hm e.symm
          rw [if_neg hm, List.count_cons_of_ne hm]
      · have hm : key = m := by
          rcases List.mem_cons.mp hkey with h | h
          · exact h
          · exact absurd h hms
        subst hm
        rw [i4 key hms, lookup_countMap]
        simp only [if_true, List.count_cons_self, List.count_eq_zero_of_not_mem hms]
    · intro key hkey
      have hm : ¬ key = m := fun e => hkey (e ▸ List.mem_cons_self _ _)
      have hms : key ∉ ms := fun h => hkey (List.mem_cons_of_mem _ h)
      rw [i4 key hms, lookup_countMap, if_neg hm]
    · rw [i5, sum_countMap, List.length_cons]
      omega

theorem count_mapPlayed (map : String) (sessions : List GameSession) :
    (sessions.map fun s => s.mapPlayed).count map
      = (sessions.filter fun s => s.mapPlayed = map).length := by
  induction sessions with
  | nil => rfl
  | cons s rest ih =>
    by_cases h : s.mapPlayed = map
    · simp [List.filter_cons, h, ih]
    · simp [List.filter_cons, h, ih, List.count_cons]

theorem mapCounts_statsAggregate (sessions : List GameSession) :
    mapCounts (statsAggregate sessions)
      = (sessions.map fun s => s.mapPlayed).foldl countMap [] := by
  cases sessions with
  | nil => rfl
  | cons s rest => simp [statsAggregate, mapCounts]

/-- C22: for stored sessions, whose maps are maps of the schema, the
`mapDistribution` of `GET /api/game-sessions/stats` has each map that occurs as
a key once, with the number of sessions played on it, has no key for a map that
does not occur, and its values sum to the number of sessions, which is the
`totalSessions` of the response when there is a session (without sessions the
response has no `totalSessions` and the distribution is empty). -/
theorem map_distribution_counts (sessions : List GameSession)
    (hmaps : ∀ s ∈ sessions, s.mapPlayed ∈ maps) :
    ((stats sessions).mapDistribution.map Prod.fst).Nodup
    ∧ (∀ key ∈ (stats sessions).mapDistribution.map Prod.fst, key ∈ maps)
    ∧ (∀ s ∈ sessions, (stats sessions).mapDistribution.lookup s.mapPlayed
        = some (sessions.filter fun x => x.mapPlayed = s.mapPlayed).length)
    ∧ (∀ map, (∀ s ∈ sessions, s.mapPlayed ≠ map) →
        (stats sessions).mapDistribution.lookup map = none
          ∧ map ∉ (stats sessions).mapDistribution.map Prod.fst)
    ∧ ((stats sessions).mapDistribution.map Prod.snd).sum = sessions.length
    ∧ (∀ totals, (stats sessions).totals = some totals →
        totals.totalSessions = ((stats sessions).mapDistribution.map Prod.snd).sum)
    ∧ (sessions ≠ [] → ∃ totals, (stats sessions).totals = some totals
        ∧ totals.totalSessions = sessions.length)
    ∧ (sessions = [] → stats sessions = { totals := none, mapDistribution := [] }) := by
  obtain ⟨h1, h2, h3, h4, h5⟩ :=
    foldl_countMap (sessions.map fun s => s.mapPlayed) [] List.nodup_nil
  have hdist : (stats sessions).mapDistribution
      = (sessions.map fun s => s.mapPlayed).foldl countMap [] := mapCounts_statsAggregate sessions
  have hsum : ((stats sessions).mapDistribution.map Prod.snd).sum = sessions.length := by
    rw [hdist, h5]
    simp
  refine ⟨hdist ▸ h1, ?_, ?_, ?_, hsum, ?_, ?_, ?_⟩
  · intro key hkey
    rw [hdist, h2 key] at hkey
    rcases hkey with hkey | hkey
    · obtain ⟨s, hs, rfl⟩ := List.mem_map.mp hkey
      exact hmaps s hs
    · simp at hkey
  · intro s hs
    rw [hdist, h3 _ (List.mem_map.mpr ⟨s, hs, rfl⟩), count_mapPlayed]
    simp [List.lookup]
  · intro map hmap
    have hnot : map ∉ sessions.map fun s => s.mapPlayed := by
      intro hmem
      obtain ⟨s, hs, rfl⟩ := List.mem_map.mp hmem
      exact hmap s hs rfl
    refine ⟨by rw [hdist, h4 map hnot]; rfl, ?_⟩
    rw [hdist, h2 map]
    simp [hnot]
  · intro totals htotals
    rw [hsum]
    simp only [stats, statsAggregate] at htotals
    split at htotals
    · cases htotals
    · cases htotals
      rfl
  · intro hne
    refine ⟨{ totalSessions := sessions.length
              totalPlayers := (sessions.map fun s => s.numberOfPlayers).sum
              maps := sessions.map fun s => s.mapPlayed }, ?_, rfl⟩
    simp only [stats, statsAggregate, if_neg hne]
  · rintro rfl
    rfl

/-- C22, for sessions on the maps `[Desert, Desert, Forest]`: the distribution is
`{ Desert: 2, Forest: 1 }`. -/
theorem map_distribution_counts_witness :
    (stats [sessionOn "Desert", sessionOn "Desert", sessionOn "Forest"]).mapDistribution
      = [("Desert", 2), ("Forest", 1)]
    ∧ ((stats [sessionOn "Desert", sessionOn "Desert", sessionOn "Forest"]).mapDistribution.map
        Prod.snd).sum = 3
    ∧ (stats [sessionOn "Desert", sessionOn "Desert", sessionOn "Forest"]).mapDistribution.lookup
        "Urban" = none :=
  ⟨by decide,
    (map_distribution_counts [sessionOn "Desert", sessionOn "Desert", sessionOn "Forest"]
      (by decide)).2.2.2.2.1,
    ((map_distribution_counts [sessionOn "Desert", sessionOn "Desert", sessionOn "Forest"]
      (by decide)).2.2.2.1 "Urban" (by decide)).1⟩

theorem groupOrder_perm_dedup (eng : Engine) (keys : List String) :
    (eng.groupOrder keys).Perm keys.dedup :=
  (List.perm_ext_iff_of_nodup (eng.groupOrder_nodup keys) (List.nodup_dedup keys)).2
    fun key => by rw [eng.mem_groupOrder, List.mem_dedup]

theorem mapStats_perm (eng : Engine) (sessions : List GameSession) :
    (mapStats eng sessions).Perm
      ((sessions.map fun s => s.mapPlayed).dedup.map (mapGroup sessions)) :=
  (eng.sortDesc_perm _ _).trans ((groupOrder_perm_dedup eng _).map _)

theorem mapStats_maps_perm (eng : Engine) (sessions : List GameSession) :
    ((mapStats eng sessions).map fun row => row.map).Perm
      (sessions.map fun s => s.mapPlayed).dedup := by
  have h := (mapStats_perm eng sessions).map fun row => row.map
  simpa [List.map_map, Function.comp_def, mapGroup] using h

theorem mem_mapStats (eng : Engine) (sessions : List GameSession) (row : MapRow) :
    row ∈ mapStats eng sessions
      ↔ (∃ s ∈ sessions, s.mapPlayed = row.map) ∧ row = mapGroup sessions row.map := by
  rw [(mapStats_perm eng sessions).mem_iff, List.mem_map]
  constructor
  · rintro ⟨map, hmap, rfl⟩
    rw [List.mem_dedup, List.mem_map] at hmap
    exact ⟨hmap, rfl⟩
  · rintro ⟨⟨s, hs, hmap⟩, hrow⟩
    exact ⟨row.map, List.mem_dedup.2 (List.mem_map.2 ⟨s, hs, hmap⟩), hrow.symm⟩

/-- C23: for every list of stored sessions, whatever order the database gives to
groups and to rows with equal keys, the per-map rollup has exactly one row for
each map that some session was played on and no other row; the `totalSessions`
of a row is the number of sessions on its map, its `totalPlayers` the sum of
their `numberOfPlayers`; and the rows come in non-increasing order of
`totalSessions`. -/
theorem map_rollup_rows (eng : Engine) (sessions : List GameSession) :
    ((mapStats eng sessions).map fun row => row.map).Nodup
    ∧ (∀ map, map ∈ (mapStats eng sessions).map (fun row => row.map)
        ↔ ∃ s ∈ sessions, s.mapPlayed = map)
    ∧ (mapStats eng sessions).length = (sessions.map fun s => s.mapPlayed).toFinset.card
    ∧ (∀ row ∈ mapStats eng sessions,
        row.totalSessions = (sessions.filter fun s => s.mapPlayed = row.map).length
          ∧ row.totalPlayers
            = ((sessions.filter fun s => s.mapPlayed = row.map).map
                fun s => s.numberOfPlayers).sum)
    ∧ (mapStats eng sessions).Pairwise fun a b => b.totalSessions ≤ a.totalSessions := by
  have hperm := mapStats_maps_perm eng sessions
  refine ⟨hperm.nodup_iff.2 (List.nodup_dedup _), ?_, ?_, ?_, eng.sortDesc_sorted _ _⟩
  · intro map
    rw [hperm.mem_iff, List.mem_dedup, List.mem_map]
  · rw [List.card_toFinset, ← hperm.length_eq, List.length_map]
  · intro row hrow
    obtain ⟨-, hgroup⟩ := (mem_mapStats eng sessions row).1 hrow
    constructor
    · conv_lhs => rw [hgroup]
      rfl
    · conv_lhs => rw [hgroup]
      rfl

theorem filter_map_perm {sessions₁ sessions₂ : List GameSession} (hperm : sessions₁.Perm sessions₂)
    (map : String) :
    (sessions₁.filter fun s => s.mapPlayed = map).length
      = (sessions₂.filter fun s => s.mapPlayed = map).length :=
  (hperm.filter _).length_eq

theorem mapStats_keys_perm (eng : Engine) (sessions : List GameSession) :
    ((mapStats eng sessions).map fun row => (row.map, row.totalSessions)).Perm
      ((sessions.map fun s => s.mapPlayed).dedup.map fun map =>
        (map, (sessions.filter fun s => s.mapPlayed = map).length)) := by
  have h := (mapStats_perm eng sessions).map fun row => (row.map, row.totalSessions)
  simpa [List.map_map, Function.comp_def, mapGroup] using h

theorem mapStats_keys_strict (eng : Engine) (sessions : List GameSession)
    (hdistinct : ∀ a ∈ sessions, ∀ b ∈ sessions, a.mapPlayed ≠ b.mapPlayed →
      (sessions.filter fun s => s.mapPlayed = a.mapPlayed).length
        ≠ (sessions.filter fun s => s.mapPlayed = b.mapPlayed).length) :
    ((mapStats eng sessions).map fun row => (row.map, row.totalSessions)).Pairwise
      fun a b => b.2 < a.2 := by
  rw [List.pairwise_map]
  have hsorted : (mapStats eng sessions).Pairwise fun a b => b.totalSessions ≤ a.totalSessions :=
    eng.sortDesc_sorted _ _
  have hnodup : (mapStats eng sessions).Pairwise fun a b => a.map ≠ b.map := by
    have := (mapStats_maps_perm eng sessions).nodup_iff.2 (List.nodup_dedup _)
    rwa [List.Nodup, List.pairwise_map] at this
  refine (hsorted.and hnodup).imp_of_mem ?_
  intro a b ha hb hab
  obtain ⟨hle, hne⟩ := hab
  obtain ⟨⟨sa, hsa, hma⟩, hga⟩ := (mem_mapStats eng sessions a).1 ha
  obtain ⟨⟨sb, hsb, hmb⟩, hgb⟩ := (mem_mapStats eng sessions b).1 hb
  have hcount := hdistinct sa hsa sb hsb (by rw [hma, hmb]; exact hne)
  rw [hma, hmb] at hcount
  have ha' : a.totalSessions = (sessions.filter fun s => s.mapPlayed = a.map).length := by
    conv_lhs => rw [hga]
    rfl
  have hb' : b.totalSessions = (sessions.filter fun s => s.mapPlayed = b.map).length := by
    conv_lhs => rw [hgb]
    rfl
  rw [← ha', ← hb'] at hcount
  exact lt_of_le_of_ne hle (fun e => hcount e.symm)

/-- C24 (as stated, refuted): the sessions `[Desert, Forest]` and `[Forest, Desert]`
are two storage orders of the same sessions; both maps have one session, and a
database that keeps tied rows in the order of its groups returns `Desert` first
for one order and `Forest` first for the other. -/
theorem tied_maps_follow_storage_order :
    [sessionOn "Desert", sessionOn "Forest"].Perm [sessionOn "Forest", sessionOn "Desert"]
    ∧ ((mapStats stableEngine [sessionOn "Desert", sessionOn "Forest"]).map
        fun row => (row.map, row.totalSessions)) = [("Desert", 1), ("Forest", 1)]
    ∧ ((mapStats stableEngine [sessionOn "Forest", sessionOn "Desert"]).map
        fun row => (row.map, row.totalSessions)) = [("Forest", 1), ("Desert", 1)] :=
  ⟨List.Perm.swap _ _ _, by decide, by decide⟩

/-- C24 (amended): for two storage orders of the same sessions, and whatever the
database does with groups and with rows of equal keys, the per-map rollup
returns the same maps with the same session counts, in non-increasing order of
the count; when different maps have different session counts, the rows come in
the same order. The order among maps with equal session counts is not fixed by
the pipeline, which sorts by `totalSessions` alone. -/
theorem map_rollup_order_up_to_ties (eng₁ eng₂ : Engine)
    (sessions₁ sessions₂ : List GameSession) (hperm : sessions₁.Perm sessions₂) :
    ((mapStats eng₁ sessions₁).map fun row => (row.map, row.totalSessions)).Perm
        ((mapStats eng₂ sessions₂).map fun row => (row.map, row.totalSessions))
    ∧ ((mapStats eng₁ sessions₁).map fun row => row.totalSessions)
        = ((mapStats eng₂ sessions₂).map fun row => row.totalSessions)
    ∧ ((∀ a ∈ sessions₁, ∀ b ∈ sessions₁, a.mapPlayed ≠ b.mapPlayed →
          (sessions₁.filter fun s => s.mapPlayed = a.mapPlayed).length
            ≠ (sessions₁.filter fun s => s.mapPlayed = b.mapPlayed).length) →
        ((mapStats eng₁ sessions₁).map fun row => (row.map, row.totalSessions))
          = ((mapStats eng₂ sessions₂).map fun row => (row.map, row.totalSessions))) := by
  have hkeys : ((mapStats eng₁ sessions₁).map fun row => (row.map, row.totalSessions)).Perm
      ((mapStats eng₂ sessions₂).map fun row => (row.map, row.totalSessions)) := by
    refine (mapStats_keys_perm eng₁ sessions₁).trans
      (List.Perm.trans ?_ (mapStats_keys_perm eng₂ sessions₂).symm)
    have hmaps : (sessions₁.map fun s => s.mapPlayed).dedup.Perm
        (sessions₂.map fun s => s.mapPlayed).dedup := (hperm.map _).dedup
    have hfun : (fun map => (map, (sessions₁.filter fun s => s.mapPlayed = map).length))
        = fun map => (map, (sessions₂.filter fun s => s.mapPlayed = map).length) := by
      funext map
      rw [filter_map_perm hperm map]
    rw [hfun]
    exact hmaps.map _
  refine ⟨hkeys, ?_, ?_⟩
  · have hcounts := hkeys.map Prod.snd
    simp only [List.map_map, Function.comp_def] at hcounts
    haveI : IsAntisymm Nat fun a b => b ≤ a := ⟨fun _ _ h1 h2 => le_antisymm h2 h1⟩
    exact @List.eq_of_perm_of_sorted Nat (fun a b => b ≤ a) _ _ _ hcounts
      (List.pairwise_map.2 (eng₁.sortDesc_sorted _ _))
      (List.pairwise_map.2 (eng₂.sortDesc_sorted _ _))
  · intro hdistinct
    have hdistinct₂ : ∀ a ∈ sessions₂, ∀ b ∈ sessions₂, a.mapPlayed ≠ b.mapPlayed →
        (sessions₂.filter fun s => s.mapPlayed = a.mapPlayed).length
          ≠ (sessions₂.filter fun s => s.mapPlayed = b.mapPlayed).length := by
      intro a ha b hb hne
      rw [← filter_map_perm hperm, ← filter_map_perm hperm]
      exact hdistinct a (hperm.mem_iff.2 ha) b (hperm.mem_iff.2 hb) hne
    haveI : IsAntisymm (String × Nat) fun a b => b.2 < a.2 :=
      ⟨fun _ _ h1 h2 => absurd h1 (lt_asymm h2)⟩
    exact @List.eq_of_perm_of_sorted (String × Nat) (fun a b => b.2 < a.2) _ _ _ hkeys
      (mapStats_keys_strict eng₁ sessions₁ hdistinct)
      (mapStats_keys_strict eng₂ sessions₂ hdistinct₂)

/-- C24 (amended), on two storage orders of two sessions on `Desert` and one on
`Forest`: `Desert` comes first in both. -/
theorem map_rollup_order_up_to_ties_witness :
    [sessionOn "Desert", sessionOn "Forest", sessionOn "Desert"].Perm
      [sessionOn "Forest", sessionOn "Desert", sessionOn "Desert"]
    ∧ ((mapStats stableEngine [sessionOn "Desert", sessionOn "Forest", sessionOn "Desert"]).map
        fun row => (row.map, row.totalSessions))
      = ((mapStats stableEngine [sessionOn "Forest", sessionOn "Desert", sessionOn "Desert"]).map
        fun row => (row.map, row.totalSessions))
    ∧ ((mapStats stableEngine [sessionOn "Forest", sessionOn "Desert", sessionOn "Desert"]).map
        fun row => (row.map, row.totalSessions)) = [("Desert", 2), ("Forest", 1)] :=
  ⟨List.Perm.swap _ _ _,
    (map_rollup_order_up_to_ties stableEngine stableEngine
      [sessionOn "Desert", sessionOn "Forest", sessionOn "Desert"]
      [sessionOn "Forest", sessionOn "Desert", sessionOn "Desert"] (List.Perm.swap _ _ _)).2.2
      (by decide),
    by decide⟩

theorem dailyStats_perm (eng : Engine) (sessions : List Dated) :
    (dailyStats eng sessions).Perm
      ((sessions.map fun x => dateToString x.createdAt).dedup.map (dayGroup sessions)) :=
  (eng.sortDesc_perm _ _).trans ((groupOrder_perm_dedup eng _).map _)

theorem dailyStats_dates_perm (eng : Engine) (sessions : List Dated) :
    ((dailyStats eng sessions).map fun row => row.date).Perm
      (sessions.map fun x => dateToString x.createdAt).dedup := by
  have h := (dailyStats_perm eng sessions).map fun row => row.date
  simpa [List.map_map, Function.comp_def, dayGroup] using h

theorem mem_dailyStats (eng : Engine) (sessions : List Dated) (row : DayRow) :
    row ∈ dailyStats eng sessions
      ↔ (∃ x ∈ sessions, dateToString x.createdAt = row.date)
        ∧ row = dayGroup sessions row.date := by
  rw [(dailyStats_perm eng sessions).mem_iff, List.mem_map]
  constructor
  · rintro ⟨date, hdate, rfl⟩
    rw [List.mem_dedup, List.mem_map] at hdate
    exact ⟨hdate, rfl⟩
  · rintro ⟨⟨x, hx, hdate⟩, hrow⟩
    exact ⟨row.date, List.mem_dedup.2 (List.mem_map.2 ⟨x, hx, hdate⟩), hrow.symm⟩

theorem dailyStats_strict (eng : Engine) (sessions : List Dated) :
    (dailyStats eng sessions).Pairwise fun a b => b.date < a.date := by
  have hsorted : (dailyStats eng sessions).Pairwise fun a b => b.date ≤ a.date :=
    eng.sortDesc_sorted _ _
  have hnodup : (dailyStats eng sessions).Pairwise fun a b => a.date ≠ b.date := by
    have := (dailyStats_dates_perm eng sessions).nodup_iff.2 (List.nodup_dedup _)
    rwa [List.Nodup, List.pairwise_map] at this
  exact (hsorted.and hnodup).imp fun hab => lt_of_le_of_ne hab.1 (fun e => hab.2 e.symm)

theorem dayGroup_perm {sessions₁ sessions₂ : List Dated} (hperm : sessions₁.Perm sessions₂)
    (date : String) :
    (dayGroup sessions₁ date).totalSessions = (dayGroup sessions₂ date).totalSessions
      ∧ (dayGroup sessions₁ date).uniqueMapsCount = (dayGroup sessions₂ date).uniqueMapsCount := by
  have hday : ((sessions₁.filter fun x => dateToString x.createdAt = date).map
      fun x => x.session).Perm
      ((sessions₂.filter fun x => dateToString x.createdAt = date).map fun x => x.session) :=
    (hperm.filter _).map _
  exact ⟨hday.length_eq, ((hday.map _).dedup).length_eq⟩

/-- C25: for every list of stored sessions, whatever order the database gives to
groups, the per-day rollup has exactly one row for each calendar date
(`YYYY-MM-DD` of `createdAt`, in UTC) on which a session was created and no
other row; the `uniqueMapsCount` of a row is the number of distinct maps of the
sessions created that day; the rows come in strictly descending order of the
date text; and for every other storage order of the same sessions the rows
come in the same order of dates, with the same counts. -/
theorem daily_rollup_rows (eng : Engine) (sessions : List Dated) :
    ((dailyStats eng sessions).map fun row => row.date).Nodup
    ∧ (∀ date, date ∈ (dailyStats eng sessions).map (fun row => row.date)
        ↔ ∃ x ∈ sessions, dateToString x.createdAt = date)
    ∧ (dailyStats eng sessions).length
        = (sessions.map fun x => dateToString x.createdAt).toFinset.card
    ∧ (∀ row ∈ dailyStats eng sessions,
        row.uniqueMapsCount
            = ((sessions.filter fun x => dateToString x.createdAt = row.date).map
                fun x => x.session.mapPlayed).toFinset.card
          ∧ row.totalSessions
            = (sessions.filter fun x => dateToString x.createdAt = row.date).length)
    ∧ ((dailyStats eng sessions).Pairwise fun a b => b.date < a.date)
    ∧ ∀ (eng' : Engine) (sessions' : List Dated), sessions.Perm sessions' →
        ((dailyStats eng' sessions').map fun row =>
            (row.date, row.totalSessions, row.uniqueMapsCount))
          = (dailyStats eng sessions).map fun row =>
            (row.date, row.totalSessions, row.uniqueMapsCount) := by
  have hperm := dailyStats_dates_perm eng sessions
  refine ⟨hperm.nodup_iff.2 (List.nodup_dedup _), ?_, ?_, ?_, dailyStats_strict eng sessions, ?_⟩
  · intro date
    rw [hperm.mem_iff, List.mem_dedup, List.mem_map]
  · rw [List.card_toFinset, ← hperm.length_eq, List.length_map]
  · intro row hrow
    obtain ⟨-, hgroup⟩ := (mem_dailyStats eng sessions row).1 hrow
    constructor
    · conv_lhs => rw [hgroup]
      simp only [dayGroup, List.card_toFinset, List.map_map, Function.comp_def]
    · conv_lhs => rw [hgroup]
      simp only [dayGroup, List.length_map]
  · intro eng' sessions' hp
    have hkeys : ∀ (e : Engine) (l : List Dated),
        ((dailyStats e l).map fun row => (row.date, row.totalSessions, row.uniqueMapsCount)).Perm
          ((l.map fun x => dateToString x.createdAt).dedup.map fun date =>
            (date, (dayGroup l date).totalSessions, (dayGroup l date).uniqueMapsCount)) := by
      intro e l
      have h := (dailyStats_perm e l).map fun row =>
        (row.date, row.totalSessions, row.uniqueMapsCount)
      simpa [List.map_map, Function.comp_def, dayGroup] using h
    have hstrict : ∀ (e : Engine) (l : List Dated),
        ((dailyStats e l).map fun row =>
          (row.date, row.totalSessions, row.uniqueMapsCount)).Pairwise
          fun a b => b.1 < a.1 := by
      intro e l
      exact List.pairwise_map.2 (dailyStats_strict e l)
    have hfun : (fun date => (date, (dayGroup sessions date).totalSessions,
          (dayGroup sessions date).uniqueMapsCount))
        = fun date => (date, (dayGroup sessions' date).totalSessions,
          (dayGroup sessions' date).uniqueMapsCount) := by
      funext date
      rw [(dayGroup_perm hp date).1, (dayGroup_perm hp date).2]
    have hboth : ((dailyStats eng' sessions').map fun row =>
          (row.date, row.totalSessions, row.uniqueMapsCount)).Perm
        ((dailyStats eng sessions).map fun row =>
          (row.date, row.totalSessions, row.uniqueMapsCount)) := by
      refine (hkeys eng' sessions').trans (List.Perm.trans ?_ (hkeys eng sessions).symm)
      rw [hfun]
      exact ((hp.symm.map _).dedup).map _
    haveI : IsAntisymm (String × Nat × Nat) fun a b => b.1 < a.1 :=
      ⟨fun _ _ h1 h2 => absurd h1 (lt_asymm h2)⟩
    exact @List.eq_of_perm_of_sorted (String × Nat × Nat) (fun a b => b.1 < a.1) _ _ _ hboth
      (hstrict eng' sessions') (hstrict eng sessions)

/-- C25, on two storage orders of three sessions created on two days: the rows
come in the same order, and the row of 2024-11-06 counts 2 maps. -/
theorem daily_rollup_rows_witness :
    threeDated.Perm threeDated.reverse
    ∧ ((dailyStats stableEngine threeDated.reverse).map fun row =>
          (row.date, row.totalSessions, row.uniqueMapsCount))
        = ((dailyStats stableEngine threeDated).map fun row =>
          (row.date, row.totalSessions, row.uniqueMapsCount))
    ∧ (threeDated.map fun x => dateToString x.createdAt)
        = ["2024-11-06", "1970-01-01", "2024-11-06"]
    ∧ ∀ row ∈ dailyStats stableEngine threeDated, row.date = "2024-11-06" →
        row.uniqueMapsCount = 2 :=
  ⟨(List.reverse_perm _).symm,
    (daily_rollup_rows stableEngine threeDated).2.2.2.2.2 stableEngine threeDated.reverse
      (List.reverse_perm _).symm,
    by decide,
    fun row hrow hdate => by
      rw [((daily_rollup_rows stableEngine threeDated).2.2.2.1 row hrow).1, hdate]
      decide⟩

end Arena
